import Mathlib

/-!
# syno-vm: remote command transport and response parsing

A shallow embedding of the Go sources `internal/synology/webapi.go`,
`internal/synology/virsh.go`, `internal/synology/client.go`,
`internal/synology/ssh.go`, `internal/cmd/config.go`, `internal/cmd/vm.go`,
`internal/cmd/list.go` and `test/mock/mock_client.go`, followed by theorems about
them.

Conventions of the embedding

* A Go `string` is a sequence of code points (`String`, or `List Char` where
  the code inspects characters).
* The remote ends (HTTP server, remote shell) are sequences of replies: the
  `k`-th request receives reply number `k`.  The state threaded through the
  client functions holds the log of requests made so far.
* A run-time panic is an outcome of its own (`Res.panic`, or `none` where the
  result is an `Option`).
* `encoding/json` is embedded at the level of decoded members: a reply body is
  either rejected by `json.Unmarshal` or is a sequence of members that
  `json.Unmarshal` stores, one after the other, into the target struct.
-/

namespace SynoVM

/-! ## Web API client (`internal/synology/webapi.go`) -/

/-- Decoded JSON value held in a `map[string]interface{}` entry. -/
inductive JsonValue where
  | null
  | bool (b : Bool)
  | number (text : String)
  | str (s : String)
  | composite (text : String)
  deriving DecidableEq, Repr

/-- Go `WebAPIError`. -/
structure WebAPIError where
  Code : Int
  deriving DecidableEq, Repr

/-- Go `WebAPIResponse`; `Data = none` is the nil map, `Error = none` the nil pointer. -/
structure WebAPIResponse where
  Success : Bool := false
  Data : Option (List (String × JsonValue)) := none
  Error : Option WebAPIError := none
  deriving DecidableEq, Repr

/-- Assignment `m[k] = v` on a Go map kept as an association list with distinct keys. -/
def mapSet {β : Type} (m : List (String × β)) (k : String) (v : β) : List (String × β) :=
  match m with
  | [] => [(k, v)]
  | (k1, v1) :: rest => if k1 = k then (k, v) :: rest else (k1, v1) :: mapSet rest k v

/-- Lookup `m[k]` on a Go map. -/
def mapGet {β : Type} (m : List (String × β)) (k : String) : Option β :=
  match m with
  | [] => none
  | (k1, v1) :: rest => if k1 = k then some v1 else mapGet rest k

/-- One member of a JSON object as `json.Unmarshal` sees it when the target is a
`WebAPIResponse`.  A JSON `null` for `success` and for `code` is a no-op in Go and
is represented by `none`; `data none` and `error none` are `"data": null` and
`"error": null`; `errorObject c` is an error object whose net assignment to
`Code` is `c`; members with other keys are `unknown`. -/
inductive Member where
  | success (b : Option Bool)
  | data (entries : Option (List (String × JsonValue)))
  | error
  | errorObject (code : Option Int)
  | unknown
  deriving DecidableEq, Repr

/-- A reply body: rejected by `json.Unmarshal` (syntax error or a value of the
wrong type), or an object given by its members in order. -/
inductive Body where
  | invalid
  | object (members : List Member)
  deriving DecidableEq, Repr

/-- Effect of one member on the struct being filled. -/
def applyMember (r : WebAPIResponse) : Member → WebAPIResponse
  | .success none => r
  | .success (some b) => { r with Success := b }
  | .data none => { r with Data := none }
  | .data (some entries) =>
      { r with Data := some (entries.foldl (fun m kv => mapSet m kv.1 kv.2) (r.Data.getD [])) }
  | .error => { r with Error := none }
  | .errorObject none => { r with Error := some (r.Error.getD ⟨0⟩) }
  | .errorObject (some c) => { r with Error := some ⟨c⟩ }
  | .unknown => r

/-- Go `json.Unmarshal(body, &r)`: `none` when it returns an error, otherwise the
struct after the call.  Fields without a member in the body keep the value they
had in `r`. -/
def jsonUnmarshal (body : Body) (r : WebAPIResponse) : Option WebAPIResponse :=
  match body with
  | .invalid => none
  | .object members => some (members.foldl applyMember r)

/-- Go `url.Values` with single-valued keys. -/
abbrev Values := List (String × String)

/-- Go `url.Values.Set`. -/
def Values.Set (ps : Values) (k v : String) : Values := mapSet ps k v

/-- Go `url.Values{}`. -/
def Values.empty : Values := []

/-- Go `url.Values.Get`, with `none` for a key that is not set. -/
def Values.Get (ps : Values) (k : String) : Option String := mapGet ps k

/-- A Go value passed in `apiParams`, by the arm of the type switch it takes. -/
inductive ParamValue where
  | str (s : String)
  | int (n : Int)
  | bool (b : Bool)
  | other (rendered : String)
  deriving DecidableEq, Repr

/-- Text that `CallAPI` stores for a parameter value. -/
def ParamValue.render : ParamValue → String
  | .str s => s
  | .int n => toString n
  | .bool b => if b then "true" else "false"
  | .other rendered => rendered

/-- The arguments of one `makeRequest` invocation that got past the argument
handling (the log of the client records these). -/
structure Request where
  method : String
  path : String
  params : Option Values
  body : Option String
  deriving DecidableEq, Repr

/-- What the HTTP layer gives back for a request: an error of `makeRequest`
(request creation, transport, read, or a status other than 200), or the body. -/
inductive Reply where
  | failure (msg : String)
  | body (b : Body)
  deriving DecidableEq, Repr

/-- Errors returned by the client, with the wrapped cause where Go uses `%w`. -/
inductive Err where
  | request (msg : String)
  | loginRequestFailed (cause : Err)
  | loginParseFailed
  | loginFailed (code : Int)
  | authenticationFailed (cause : Err)
  | apiCallFailed (cause : Err)
  | apiParseFailed
  | reAuthenticationFailed (cause : Err)
  | apiRetryFailed (cause : Err)
  | retryParseFailed
  deriving DecidableEq, Repr

/-- Outcome of a call: a value, a returned error, or a run-time panic. -/
inductive Res (α : Type) where
  | ok (a : α)
  | err (e : Err)
  | panic
  deriving DecidableEq, Repr

/-- Go `WebAPIClient` (the `http.Client` is represented by the reply sequence). -/
structure WebAPIClient where
  baseURL : String
  username : String
  password : String
  sessionID : String := ""
  deriving DecidableEq, Repr

/-- One HTTP round trip: the request is appended to the log and answered by the
reply whose number is the length of the log. -/
def roundTrip (srv : Nat → Reply) (sent : List Request) (req : Request) :
    Res Body × List Request :=
  match srv sent.length with
  | .failure msg => (.err (.request msg), sent ++ [req])
  | .body b => (.ok b, sent ++ [req])

/-- Go `WebAPIClient.makeRequest`.  In the branch taken for a request without
body that is not a `GET` with parameters, the header is set on the request
before it is created, which dereferences a nil pointer. -/
def makeRequest (srv : Nat → Reply) (sent : List Request) (method path : String)
    (params : Option Values) (body : Option String) : Res Body × List Request :=
  if method = "GET" ∧ params.isSome then
    roundTrip srv sent ⟨method, path, params, body⟩
  else if body.isSome then
    roundTrip srv sent ⟨method, path, params, body⟩
  else if params.isSome then
    (.panic, sent)
  else
    roundTrip srv sent ⟨method, path, params, body⟩

/-- Parameters of the login request. -/
def loginParams (w : WebAPIClient) : Values :=
  ((((((Values.empty.Set "api" "SYNO.API.Auth").Set "version" "3").Set "method" "login").Set
    "account" w.username).Set "passwd" w.password).Set "session" "VMM").Set "format" "cookie"

/-- The request `Login` makes. -/
def loginRequest (w : WebAPIClient) : Request :=
  ⟨"GET", "/webapi/auth.cgi", some (loginParams w), none⟩

/-- Go `WebAPIClient.Login`. -/
def Login (srv : Nat → Reply) (w : WebAPIClient) (sent : List Request) :
    Res Unit × WebAPIClient × List Request :=
  match makeRequest srv sent "GET" "/webapi/auth.cgi" (some (loginParams w)) none with
  | (.panic, sent1) => (.panic, w, sent1)
  | (.err e, sent1) => (.err (.loginRequestFailed e), w, sent1)
  | (.ok resp, sent1) =>
    match jsonUnmarshal resp {} with
    | none => (.err .loginParseFailed, w, sent1)
    | some authResp =>
      if !authResp.Success then
        let code : Int := match authResp.Error with
          | some e => e.Code
          | none => 0
        (.err (.loginFailed code), w, sent1)
      else
        match authResp.Data with
        | none => (.ok (), w, sent1)
        | some d =>
          match mapGet d "sid" with
          | some (.str sid) => (.ok (), { w with sessionID := sid }, sent1)
          | _ => (.ok (), w, sent1)

/-- Parameters of the logout request. -/
def logoutParams (w : WebAPIClient) : Values :=
  ((((Values.empty.Set "api" "SYNO.API.Auth").Set "version" "3").Set "method" "logout").Set
    "session" "VMM").Set "_sid" w.sessionID

/-- Go `WebAPIClient.Logout`; `none` is the nil error. -/
def Logout (srv : Nat → Reply) (w : WebAPIClient) (sent : List Request) :
    Res Unit × WebAPIClient × List Request :=
  if w.sessionID = "" then
    (.ok (), w, sent)
  else
    match makeRequest srv sent "GET" "/webapi/auth.cgi" (some (logoutParams w)) none with
    | (.panic, sent1) => (.panic, w, sent1)
    | (.err e, sent1) => (.err e, { w with sessionID := "" }, sent1)
    | (.ok _, sent1) => (.ok (), { w with sessionID := "" }, sent1)

/-- The parameter set `CallAPI` builds before the first request: the four fixed
keys, then the entries of `apiParams` in iteration order. -/
def callParams (w : WebAPIClient) (api method version : String)
    (apiParams : List (String × ParamValue)) : Values :=
  apiParams.foldl (fun ps kv => Values.Set ps kv.1 kv.2.render)
    ((((Values.empty.Set "api" api).Set "method" method).Set "version" version).Set
      "_sid" w.sessionID)

/-- Endpoint chosen by `CallAPI`. -/
def endpointFor (api : String) : String :=
  if "Virtualization".toList <:+: api.toList then "/webapi/entry.cgi" else "/webapi/entry.cgi"

/-- An API request of `CallAPI` with parameter set `ps`. -/
def apiRequest (api : String) (ps : Values) : Request :=
  ⟨"GET", endpointFor api, some ps, none⟩

/-- The part of Go `WebAPIClient.CallAPI` after the initial login check. -/
def callAuthenticated (srv : Nat → Reply) (w : WebAPIClient) (sent : List Request)
    (api method version : String) (apiParams : List (String × ParamValue)) :
    Res WebAPIResponse × WebAPIClient × List Request :=
  let params := callParams w api method version apiParams
  let endpoint := endpointFor api
  match makeRequest srv sent "GET" endpoint (some params) none with
  | (.panic, sent1) => (.panic, w, sent1)
  | (.err e, sent1) => (.err (.apiCallFailed e), w, sent1)
  | (.ok resp, sent1) =>
    match jsonUnmarshal resp {} with
    | none => (.err .apiParseFailed, w, sent1)
    | some apiResp =>
      if !apiResp.Success ∧ apiResp.Error.isSome ∧ apiResp.Error.map (·.Code) = some 105 then
        match Login srv { w with sessionID := "" } sent1 with
        | (.panic, w2, sent2) => (.panic, w2, sent2)
        | (.err e, w2, sent2) => (.err (.reAuthenticationFailed e), w2, sent2)
        | (.ok _, w2, sent2) =>
          match makeRequest srv sent2 "GET" endpoint (some (Values.Set params "_sid" w2.sessionID))
              none with
          | (.panic, sent3) => (.panic, w2, sent3)
          | (.err e, sent3) => (.err (.apiRetryFailed e), w2, sent3)
          | (.ok resp2, sent3) =>
            match jsonUnmarshal resp2 apiResp with
            | none => (.err .retryParseFailed, w2, sent3)
            | some apiResp2 => (.ok apiResp2, w2, sent3)
      else
        (.ok apiResp, w, sent1)

/-- Go `WebAPIClient.CallAPI`. -/
def CallAPI (srv : Nat → Reply) (w : WebAPIClient) (sent : List Request)
    (api method version : String) (apiParams : List (String × ParamValue)) :
    Res WebAPIResponse × WebAPIClient × List Request :=
  if w.sessionID = "" then
    match Login srv w sent with
    | (.panic, w1, sent1) => (.panic, w1, sent1)
    | (.err e, w1, sent1) => (.err (.authenticationFailed e), w1, sent1)
    | (.ok _, w1, sent1) => callAuthenticated srv w1 sent1 api method version apiParams
  else
    callAuthenticated srv w sent api method version apiParams

/-! ## Listing and detail parsers (`internal/synology/virsh.go`) -/

/-- Go `VM`; Go `int` is taken to be 64 bits wide. -/
structure VM where
  Name : String := ""
  Status : String := ""
  CPU : Int := 0
  Memory : Int := 0
  Storage : String := ""
  IPAddress : String := ""
  deriving DecidableEq, Repr

/-- Go `unicode.IsSpace`, which `strings.TrimSpace` and `strings.Fields` use. -/
def isSpace (c : Char) : Bool :=
  let n := c.toNat
  decide (n = 9) || decide (n = 10) || decide (n = 11) || decide (n = 12) || decide (n = 13) ||
    decide (n = 32) || decide (n = 0x85) || decide (n = 0xA0) || decide (n = 0x1680) ||
    (decide (0x2000 ≤ n) && decide (n ≤ 0x200A)) || decide (n = 0x2028) ||
    decide (n = 0x2029) || decide (n = 0x202F) || decide (n = 0x205F) || decide (n = 0x3000)

/-- Go `strings.TrimSpace`. -/
def trimSpace (s : List Char) : List Char :=
  (s.dropWhile isSpace).rdropWhile isSpace

/-- Go `strings.Split(s, sep)` for a one-character separator. -/
def splitOn1 (sep : Char) : List Char → List (List Char)
  | [] => [[]]
  | c :: cs =>
    if c = sep then [] :: splitOn1 sep cs
    else
      match splitOn1 sep cs with
      | [] => [[c]]
      | l :: ls => (c :: l) :: ls

/-- Go `strings.Split(s, "\n")`. -/
def splitLines (s : List Char) : List (List Char) := splitOn1 (Char.ofNat 10) s

/-- Scan of Go `strings.Fields`: `cur` is the field being read. -/
def fieldsGo (cur : List Char) : List Char → List (List Char)
  | [] => if cur = [] then [] else [cur]
  | c :: cs =>
    if isSpace c then
      if cur = [] then fieldsGo [] cs else cur :: fieldsGo [] cs
    else fieldsGo (cur ++ [c]) cs

/-- Go `strings.Fields`. -/
def fields (s : List Char) : List (List Char) := fieldsGo [] s

/-- Go `strings.Join(parts, " ")`. -/
def joinSpace (parts : List (List Char)) : List Char := [' '].intercalate parts

/-- Go `strings.SplitN(s, ":", 2)`: `none` when the result has one element (no
colon), otherwise the text before and after the first colon. -/
def splitColon : List Char → Option (List Char × List Char)
  | [] => none
  | c :: cs =>
    if c = ':' then some ([], cs)
    else
      match splitColon cs with
      | none => none
      | some (k, v) => some (c :: k, v)

/-- Value of a decimal digit. -/
def digitVal (c : Char) : Option Nat :=
  if 48 ≤ c.toNat ∧ c.toNat ≤ 57 then some (c.toNat - 48) else none

/-- Value of a string of decimal digits read after the value `acc`; `none` when a
character is not a digit. -/
def decValue (acc : Nat) : List Char → Option Nat
  | [] => some acc
  | c :: cs =>
    match digitVal c with
    | none => none
    | some d => decValue (10 * acc + d) cs

/-- An optionally signed, non-empty string of decimal digits: the sign (`true` for
a minus sign) and the magnitude. -/
def signedDecimal (s : List Char) : Option (Bool × Nat) :=
  match s with
  | [] => none
  | c :: cs =>
    if c = '-' then (if cs = [] then none else (decValue 0 cs).map (fun n => (true, n)))
    else if c = '+' then (if cs = [] then none else (decValue 0 cs).map (fun n => (false, n)))
    else (decValue 0 s).map (fun n => (false, n))

/-- Go `strconv.Atoi`: `none` when it returns an error (syntax or range). -/
def Atoi (s : List Char) : Option Int :=
  match signedDecimal s with
  | none => none
  | some (neg, n) =>
    let v : Int := if neg then -(n : Int) else (n : Int)
    if -(2 ^ 63 : Int) ≤ v ∧ v < (2 ^ 63 : Int) then some v else none

/-- Go `strconv.ParseFloat(tok, 64)` followed by `int(mem / 1024)`: `none` when
`ParseFloat` returns an error.  For an optionally signed decimal integer of
magnitude below `2^53` the float64 arithmetic is exact (the number parses without
rounding, dividing by 1024 only changes the exponent, the conversion truncates
toward zero).  Every other token (fraction, exponent, hexadecimal, infinity, NaN,
larger magnitude) is left to `other`, the floating-point behaviour of the
platform. -/
def memoryMB (other : List Char → Option Int) (tok : List Char) : Option Int :=
  match signedDecimal tok with
  | some (neg, n) =>
    if n < 2 ^ 53 then some (if neg then -((n / 1024 : Nat) : Int) else ((n / 1024 : Nat) : Int))
    else other tok
  | none => other tok

/-- The record built from the fields of a listing row. -/
def rowVM (fs : List (List Char)) : VM :=
  { Name := String.mk (fs.getD 1 []), Status := String.mk (joinSpace (fs.drop 2)) }

/-- The row loop of Go `parseVirshList`, from the current line on; `vms` holds the
records appended so far. -/
def listLoop (vms : List VM) : List (List Char) → List VM
  | [] => vms
  | raw :: rest =>
    let line := trimSpace raw
    if line = [] then listLoop vms rest
    else
      let fs := fields line
      if fs.length < 3 then listLoop vms rest
      else listLoop (vms ++ [rowVM fs]) rest

/-- Go `parseVirshList`: the records and the error (`none` is the nil error). -/
def parseVirshList (output : String) : List VM × Option String :=
  let lines := splitLines (trimSpace output.toList)
  if lines.length < 3 then ([], none)
  else (listLoop [] (lines.drop 2), none)

/-- The key and the value that the line loop of Go `getVMInfo` reads from a line:
`none` for a line that is skipped (blank after trimming, or without a colon),
otherwise the trimmed text before the first colon and the trimmed text after it. -/
def infoEntry (raw : List Char) : Option (List Char × List Char) :=
  let line := trimSpace raw
  if line = [] then none
  else
    match splitColon line with
    | none => none
    | some (k, v) => some (trimSpace k, trimSpace v)

/-- One iteration of the line loop of Go `getVMInfo`. -/
def applyInfoLine (other : List Char → Option Int) (vm : VM) (raw : List Char) : VM :=
  match infoEntry raw with
  | none => vm
  | some (key, value) =>
    if key = "State".toList then { vm with Status := String.mk value }
    else if key = "CPU(s)".toList then
      match Atoi value with
      | some cpu => { vm with CPU := cpu }
      | none => vm
    else if key = "Max memory".toList then
      match fields value with
      | [] => vm
      | tok :: _ =>
        match memoryMB other tok with
        | some mem => { vm with Memory := mem }
        | none => vm
    else vm

/-- The `dominfo` parse of Go `getVMInfo`: the record after the line loop. -/
def parseDomInfo (other : List Char → Option Int) (vmName : String) (output : String) : VM :=
  (splitLines output.toList).foldl (applyInfoLine other) { Name := vmName }

/-- The memory value that a line of the detail block assigns, if it assigns one:
the line has the key `Max memory` and the first token of its value converts. -/
def memoryAssigned (other : List Char → Option Int) (raw : List Char) : Option Int :=
  match infoEntry raw with
  | none => none
  | some (key, value) =>
    if key = "Max memory".toList then
      match fields value with
      | [] => none
      | tok :: _ => memoryMB other tok
    else none

/-- Whether a character is an ASCII digit (the class `\d` of Go `regexp`). -/
def isDigit (c : Char) : Bool := decide (48 ≤ c.toNat) && decide (c.toNat ≤ 57)

/-- A non-empty run of digits at the start of `s`: the run and what follows it. -/
def digitRun (s : List Char) : Option (List Char × List Char) :=
  if s.takeWhile isDigit = [] then none else some (s.takeWhile isDigit, s.dropWhile isDigit)

/-- A non-empty run of digits followed by a dot at the start of `s`. -/
def digitRunDot (s : List Char) : Option (List Char × List Char) :=
  match digitRun s with
  | some (ds, c :: rest) => if c = '.' then some (ds ++ ['.'], rest) else none
  | _ => none

/-- Match of the dotted-quad pattern anchored at the start of `s`. -/
def matchQuadAt (s : List Char) : Option (List Char) :=
  match digitRunDot s with
  | none => none
  | some (a, s1) =>
    match digitRunDot s1 with
    | none => none
    | some (b, s2) =>
      match digitRunDot s2 with
      | none => none
      | some (c, s3) =>
        match digitRun s3 with
        | none => none
        | some (d, _) => some (a ++ b ++ c ++ d)

/-- Go `ipRegex.FindStringSubmatch(line)`, first group: the leftmost match. -/
def findQuad : List Char → Option (List Char)
  | [] => none
  | c :: cs =>
    match matchQuadAt (c :: cs) with
    | some m => some m
    | none => findQuad cs

/-- The search loop of Go `getVMIPAddress` over the lines of the output. -/
def firstQuad : List (List Char) → Option (List Char)
  | [] => none
  | line :: rest =>
    match findQuad line with
    | some m => some m
    | none => firstQuad rest

/-- Go `Client.ExecuteCommand`, seen from its callers: the command is appended to
the log and answered by the reply whose number is the length of the log (an
error message or the standard output). -/
def ExecuteCommand (sh : Nat → Except String String) (log : List String) (command : String) :
    Except String String × List String :=
  (sh log.length, log ++ [command])

/-- Go `getVMIPAddress`. -/
def getVMIPAddress (sh : Nat → Except String String) (log : List String) (vmName : String) :
    Except String String × List String :=
  match ExecuteCommand sh log ("/usr/local/bin/virsh domifaddr " ++ vmName) with
  | (.error e, log1) => (.error e, log1)
  | (.ok output, log1) =>
    match firstQuad (splitLines output.toList) with
    | some m => (.ok (String.mk m), log1)
    | none => (.error "no IP address found", log1)

/-- Go `getVMInfo`. -/
def getVMInfo (other : List Char → Option Int) (sh : Nat → Except String String)
    (log : List String) (vmName : String) : Except String VM × List String :=
  match ExecuteCommand sh log ("/usr/local/bin/virsh dominfo " ++ vmName) with
  | (.error e, log1) => (.error ("failed to get VM info: " ++ e), log1)
  | (.ok output, log1) =>
    let vm := parseDomInfo other vmName output
    match getVMIPAddress sh log1 vmName with
    | (.ok ip, log2) => (.ok { vm with IPAddress := ip }, log2)
    | (.error _, log2) => (.ok vm, log2)

/-- Go `Client.GetVMStatus`. -/
def GetVMStatus (other : List Char → Option Int) (sh : Nat → Except String String)
    (log : List String) (vmName : String) : Except String VM × List String :=
  getVMInfo other sh log vmName

/-- Go `Client.executeVirshCommand`: the error (`none` is the nil error) and the
command log. -/
def executeVirshCommand (sh : Nat → Except String String) (log : List String)
    (args : String) : Option String × List String :=
  match ExecuteCommand sh log ("/usr/local/bin/virsh " ++ args) with
  | (.error e, log1) => (some e, log1)
  | (.ok _, log1) => (none, log1)

/-- Go `Client.ListVMs`: the records, the error, and the command log. -/
def ListVMs (sh : Nat → Except String String) (log : List String) :
    (List VM × Option String) × List String :=
  match ExecuteCommand sh log "/usr/local/bin/virsh list --all" with
  | (.error e, log1) => (([], some ("failed to list VMs: " ++ e)), log1)
  | (.ok output, log1) => (parseVirshList output, log1)

/-- Go `Client.StartVM`. -/
def StartVM (sh : Nat → Except String String) (log : List String) (vmName : String) :
    Option String × List String :=
  executeVirshCommand sh log ("start " ++ vmName)

/-- Go `Client.StopVM`. -/
def StopVM (sh : Nat → Except String String) (log : List String) (vmName : String) :
    Option String × List String :=
  executeVirshCommand sh log ("shutdown " ++ vmName)

/-- Go `Client.RestartVM`. -/
def RestartVM (sh : Nat → Except String String) (log : List String) (vmName : String) :
    Option String × List String :=
  executeVirshCommand sh log ("reboot " ++ vmName)

/-- Go `Client.DeleteVM`. -/
def DeleteVM (sh : Nat → Except String String) (log : List String) (vmName : String) :
    Option String × List String :=
  executeVirshCommand sh log ("undefine " ++ vmName)

/-! ## Client configuration (`internal/synology/client.go`) -/

/-- Go `VMConfig`. -/
structure VMConfig where
  Name : String := ""
  Template : String := ""
  CPU : Int := 0
  Memory : Int := 0
  Storage : String := ""
  deriving DecidableEq, Repr

/-- Go `VMConfig.Validate`; `none` is the nil error. -/
def VMConfig.Validate (c : VMConfig) : Option String :=
  if c.Name = "" then some "VM name is required"
  else if c.CPU ≤ 0 then some "CPU must be greater than 0"
  else if c.Memory ≤ 0 then some "memory must be greater than 0"
  else none

/-- The configured values as the `viper` getters return them. -/
structure Settings where
  GetString : String → String
  GetInt : String → Int

/-- Wrap-around of a product computed in a Go `int64`. -/
def wrapInt64 (x : Int) : Int := (x + 2 ^ 63) % 2 ^ 64 - 2 ^ 63

/-- Go `Client`; `timeout` is in nanoseconds, `sshClient` tells whether the
transport session pointer is non-nil. -/
structure Client where
  host : String
  username : String
  port : Int
  keyfile : String
  timeout : Int
  sshClient : Bool := false
  deriving DecidableEq, Repr

/-- Go `NewClient`. -/
def NewClient (cfg : Settings) : Except String Client :=
  let host := cfg.GetString "host"
  let username := cfg.GetString "username"
  let port := cfg.GetInt "port"
  let keyfile := cfg.GetString "keyfile"
  let timeout := cfg.GetInt "timeout"
  if host = "" then
    .error "host not configured. Run 'syno-vm config set --host <hostname>'"
  else if username = "" then
    .error "username not configured. Run 'syno-vm config set --username <username>'"
  else
    .ok { host := host, username := username, port := port, keyfile := keyfile,
          timeout := wrapInt64 (timeout * 1000000000) }

/-- The status that a line of the detail block assigns, if it assigns one: the
line has the key `State`. -/
def statusAssigned (raw : List Char) : Option String :=
  match infoEntry raw with
  | none => none
  | some (key, value) => if key = "State".toList then some (String.mk value) else none

/-- The core count that a line of the detail block assigns, if it assigns one: the
line has the key `CPU(s)` and its value is accepted by `strconv.Atoi`. -/
def cpuAssigned (raw : List Char) : Option Int :=
  match infoEntry raw with
  | none => none
  | some (key, value) => if key = "CPU(s)".toList then Atoi value else none

/-- The key that the line loop of Go `getVMInfo` reads from a line, if any. -/
def infoKey (raw : List Char) : Option (List Char) := (infoEntry raw).map Prod.fst

/-- A string of the form `a.b.c.d` with four non-empty runs of ASCII digits. -/
def IsQuad (m : List Char) : Prop :=
  ∃ a b c d : List Char,
    a ≠ [] ∧ b ≠ [] ∧ c ≠ [] ∧ d ≠ [] ∧
    (∀ x ∈ a, isDigit x = true) ∧ (∀ x ∈ b, isDigit x = true) ∧
    (∀ x ∈ c, isDigit x = true) ∧ (∀ x ∈ d, isDigit x = true) ∧
    m = a ++ '.' :: (b ++ '.' :: (c ++ '.' :: d))

/-! ## Unimplemented operations (`internal/synology/client.go`, `ssh.go`) -/

/-- Go `Template`. -/
structure Template where
  Name : String := ""
  Description : String := ""
  OS : String := ""
  deriving DecidableEq, Repr

/-- Go `Client.CreateVM`: the error, the client and the command log after the call. -/
def CreateVM (c : Client) (log : List String) (_config : VMConfig) :
    Option String × Client × List String :=
  (some
    "VM creation via virsh requires XML configuration - please use VMM interface for VM creation",
    c, log)

/-- Go `Client.ListTemplates`: the templates and the error, the client and the
command log after the call. -/
def ListTemplates (c : Client) (log : List String) :
    (List Template × Option String) × Client × List String :=
  (([], none), c, log)

/-- Go `Client.CreateTemplate`. -/
def CreateTemplate (c : Client) (log : List String) (_templateName _vmName : String) :
    Option String × Client × List String :=
  (some "template creation requires VMM interface - not implemented via virsh", c, log)

/-- Go `Client.DeleteTemplate`. -/
def DeleteTemplate (c : Client) (log : List String) (_templateName : String) :
    Option String × Client × List String :=
  (some "template deletion requires VMM interface - not implemented via virsh", c, log)

/-- Go `GenerateSSHKeyPair`. -/
def GenerateSSHKeyPair (_keyPath : String) : Option String :=
  some "SSH key generation not implemented yet"

/-! ## Configuration commands (`internal/cmd/config.go`) -/

/-- A value held by the configuration store (`interface{}` in Go). -/
inductive ConfigValue where
  | str (s : String)
  | int (n : Int)
  deriving DecidableEq, Repr

/-- The text that the verb `%v` prints for a stored value. -/
def ConfigValue.render : ConfigValue → String
  | .str s => s
  | .int n => toString n

/-- The in-memory configuration of `viper`: `viper.Set` is `mapSet`, `viper.Get` is
`mapGet` (`none` is the nil value).  The keys used by the commands are lower-case. -/
abbrev Store := List (String × ConfigValue)

/-- The flags of `config set`: which flags were given, and their values. -/
structure SetFlags where
  changed : String → Bool
  host : String := ""
  username : String := ""
  password : String := ""
  port : Int := 22
  keyfile : String := ""
  timeout : Int := 30

/-- Length of a string in bytes (Go `len`). -/
def byteLength (s : List Char) : Nat := (s.map Char.utf8Size).sum

/-- What `runConfigSet` has done when it returns: the error, the store, and the
lines printed. -/
structure SetResult where
  err : Option String
  store : Store
  out : List String
  deriving DecidableEq, Repr

/-- The `keyfile` branch of Go `runConfigSet`: `none` is the run-time panic of the
slice expression `keyfile[:2]` on a string shorter than two bytes; otherwise the
error of `os.UserHomeDir`, or the path that is stored.  `join` is
`filepath.Join`, `home` the result of `os.UserHomeDir`. -/
def expandKeyfile (join : String → String → String) (home : Except String String)
    (keyfile : String) : Option (Except String String) :=
  if byteLength keyfile.toList < 2 then none
  else if keyfile.toList.take 2 = ['~', '/'] then
    match home with
    | .error e => some (.error ("failed to get home directory: " ++ e))
    | .ok h => some (.ok (join h (String.mk (keyfile.toList.drop 2))))
  else some (.ok keyfile)

/-- Go `runConfigSet`; `none` is a run-time panic.  `write` is `viper.WriteConfig`. -/
def runConfigSet (join : String → String → String) (home : Except String String)
    (write : Store → Option String) (f : SetFlags) (store : Store) : Option SetResult :=
  let s1 := if f.changed "host" then mapSet store "host" (.str f.host) else store
  let o1 := if f.changed "host" then ["Set host: " ++ f.host] else []
  let s2 := if f.changed "username" then mapSet s1 "username" (.str f.username) else s1
  let o2 := if f.changed "username" then o1 ++ ["Set username: " ++ f.username] else o1
  let s3 := if f.changed "password" then mapSet s2 "password" (.str f.password) else s2
  let o3 := if f.changed "password" then o2 ++ ["Set password: [hidden]"] else o2
  let s4 := if f.changed "port" then mapSet s3 "port" (.int f.port) else s3
  let o4 := if f.changed "port" then o3 ++ ["Set port: " ++ toString f.port] else o3
  let finish (s5 : Store) (o5 : List String) : SetResult :=
    let s6 := if f.changed "timeout" then mapSet s5 "timeout" (.int f.timeout) else s5
    let o6 := if f.changed "timeout" then o5 ++ ["Set timeout: " ++ toString f.timeout] else o5
    if f.changed "host" || f.changed "username" || f.changed "password" || f.changed "port"
        || f.changed "keyfile" || f.changed "timeout" then
      { err := write s6, store := s6, out := o6 }
    else
      { err := some "no configuration values provided", store := s6, out := o6 }
  if f.changed "keyfile" then
    match expandKeyfile join home f.keyfile with
    | none => none
    | some (.error e) => some { err := some e, store := s4, out := o4 }
    | some (.ok path) =>
      some (finish (mapSet s4 "keyfile" (.str path)) (o4 ++ ["Set keyfile: " ++ path]))
  else some (finish s4 o4)

/-- Go `runConfigList`: the error and the lines printed. -/
def runConfigList (store : Store) : Option String × List String :=
  (none,
   "Current configuration:" ::
     (["host", "username", "password", "port", "keyfile", "timeout"].filterMap (fun key =>
       match mapGet store key with
       | none => none
       | some value =>
         if key = "password" then some ("  " ++ key ++ ": [hidden]")
         else some ("  " ++ key ++ ": " ++ value.render))))

/-- Go `runConfigGet`: the error and the lines printed. -/
def runConfigGet (store : Store) (args : List String) : Option String × List String :=
  match args with
  | [] => runConfigList store
  | key :: _ =>
    match mapGet store key with
    | none => (some ("configuration key '" ++ key ++ "' not found"), [])
    | some value => (none, [key ++ ": " ++ value.render])

/-! ## Transport and session handles (`internal/synology/client.go`, `internal/cmd`) -/

/-- What the surroundings answer during one `ExecuteCommand` call: whether the
agent and the key file yield a credential, the error of `ssh.Dial` and of
`NewSession` (`none` is success), and the outcome of `session.Run`. -/
structure SSHEnv where
  agent : Bool
  key : Bool
  dial : Option String
  newSession : Option String
  run : String → Except String String

/-- The handles held open: whether a transport session is open, and the number of
per-command session handles that are open. -/
structure Resources where
  transport : Bool := false
  sessions : Nat := 0
  deriving DecidableEq, Repr

/-- Go `Client.Connect`. -/
def Client.Connect (e : SSHEnv) (c : Client) (r : Resources) :
    Option String × Client × Resources :=
  if c.sshClient then (none, c, r)
  else
    let fromAgent := e.agent
    let fromKey := decide (c.keyfile ≠ "") && e.key
    if !(fromAgent || fromKey) then
      (some
        "no SSH authentication methods available. Please ensure ssh-agent is running or configure a keyfile",
        c, r)
    else
      match e.dial with
      | some err => (some ("failed to connect to SSH server: " ++ err), c, r)
      | none => (none, { c with sshClient := true }, { r with transport := true })

/-- Go `Client.Disconnect`; `closeErr` is the error of closing the transport. -/
def Client.Disconnect (closeErr : Option String) (c : Client) (r : Resources) :
    Option String × Client × Resources :=
  if c.sshClient then (closeErr, c, { r with transport := false })
  else (none, c, r)

/-- Go `Client.ExecuteCommand` with its handles: the session handle is opened by
`NewSession` and closed by the deferred `session.Close` when the call returns. -/
def Client.ExecuteCommand (e : SSHEnv) (c : Client) (r : Resources) (command : String) :
    Except String String × Client × Resources :=
  match Client.Connect e c r with
  | (some err, c1, r1) => (.error err, c1, r1)
  | (none, c1, r1) =>
    match e.newSession with
    | some err => (.error ("failed to create SSH session: " ++ err), c1, r1)
    | none =>
      let opened : Resources := { r1 with sessions := r1.sessions + 1 }
      let closed : Resources := { opened with sessions := opened.sessions - 1 }
      match e.run command with
      | .error err => (.error ("command failed: " ++ err), c1, closed)
      | .ok stdout => (.ok stdout, c1, closed)

/-- Go `Client.executeVirshCommand` with its handles. -/
def Client.executeVirshCommand (e : SSHEnv) (c : Client) (r : Resources) (args : String) :
    Option String × Client × Resources :=
  match Client.ExecuteCommand e c r ("/usr/local/bin/virsh " ++ args) with
  | (.error err, c1, r1) => (some err, c1, r1)
  | (.ok _, c1, r1) => (none, c1, r1)

/-- What a command of the CLI has done when it returns: the error, the lines
printed, and the handles still open. -/
structure RunResult where
  err : Option String
  out : List String
  res : Resources
  deriving DecidableEq, Repr

/-- The common shape of `runStart`, `runStop`, `runRestart` and of `runDelete`
after its confirmation: create the client, announce, run one `virsh` subcommand,
report. -/
def runLifecycle (sub announce failure done : String) (cfg : Settings) (e : SSHEnv)
    (vmName : String) (r : Resources) : RunResult :=
  match NewClient cfg with
  | .error err => { err := some ("failed to create client: " ++ err), out := [], res := r }
  | .ok client =>
    match Client.executeVirshCommand e client r (sub ++ " " ++ vmName) with
    | (some err, _, r1) =>
      { err := some (failure ++ err), out := [announce ++ vmName], res := r1 }
    | (none, _, r1) =>
      { err := none, out := [announce ++ vmName, "VM " ++ vmName ++ done], res := r1 }

/-- Go `runStart`. -/
def runStart (cfg : Settings) (e : SSHEnv) (vmName : String) (r : Resources) : RunResult :=
  runLifecycle "start" "Starting VM: " "failed to start VM: " " started successfully"
    cfg e vmName r

/-- Go `runStop`. -/
def runStop (cfg : Settings) (e : SSHEnv) (vmName : String) (r : Resources) : RunResult :=
  runLifecycle "shutdown" "Stopping VM: " "failed to stop VM: " " stopped successfully"
    cfg e vmName r

/-- Go `runRestart`. -/
def runRestart (cfg : Settings) (e : SSHEnv) (vmName : String) (r : Resources) : RunResult :=
  runLifecycle "reboot" "Restarting VM: " "failed to restart VM: " " restarted successfully"
    cfg e vmName r

/-- Go `runDelete`; `force` is the flag and `response` the line read from the
terminal when the flag is not set. -/
def runDelete (cfg : Settings) (e : SSHEnv) (force : Bool) (response : String)
    (vmName : String) (r : Resources) : RunResult :=
  let prompt := "Are you sure you want to delete VM '" ++ vmName ++
    "'? This action cannot be undone. (y/N): "
  if !force && response ≠ "y" && response ≠ "Y" && response ≠ "yes" then
    { err := none, out := [prompt, "Delete cancelled."], res := r }
  else
    let after := runLifecycle "undefine" "Deleting VM: " "failed to delete VM: "
      " deleted successfully" cfg e vmName r
    if force then after else { after with out := prompt :: after.out }

/-- Go `runList`; `rows` renders the table that is printed for the records. -/
def runList (rows : List VM → List String) (cfg : Settings) (e : SSHEnv) (r : Resources) :
    RunResult :=
  match NewClient cfg with
  | .error err => { err := some ("failed to create client: " ++ err), out := [], res := r }
  | .ok client =>
    match Client.ExecuteCommand e client r "/usr/local/bin/virsh list --all" with
    | (.error err, _, r1) =>
      { err := some ("failed to list VMs: " ++ ("failed to list VMs: " ++ err)), out := [],
        res := r1 }
    | (.ok output, _, r1) =>
      match parseVirshList output with
      | (_, some err) => { err := some ("failed to list VMs: " ++ err), out := [], res := r1 }
      | (vms, none) =>
        if vms.length = 0 then
          { err := none, out := ["No virtual machines found."], res := r1 }
        else { err := none, out := rows vms, res := r1 }

/-- Go `getVMIPAddress` with its handles. -/
def Client.getVMIPAddress (e : SSHEnv) (c : Client) (r : Resources) (vmName : String) :
    Except String String × Client × Resources :=
  match Client.ExecuteCommand e c r ("/usr/local/bin/virsh domifaddr " ++ vmName) with
  | (.error err, c1, r1) => (.error err, c1, r1)
  | (.ok output, c1, r1) =>
    match firstQuad (splitLines output.toList) with
    | some m => (.ok (String.mk m), c1, r1)
    | none => (.error "no IP address found", c1, r1)

/-- Go `getVMInfo` with its handles; `e1` answers the `dominfo` call and `e2` the
`domifaddr` call. -/
def Client.getVMInfo (other : List Char → Option Int) (e1 e2 : SSHEnv) (c : Client)
    (r : Resources) (vmName : String) : Except String VM × Client × Resources :=
  match Client.ExecuteCommand e1 c r ("/usr/local/bin/virsh dominfo " ++ vmName) with
  | (.error err, c1, r1) => (.error ("failed to get VM info: " ++ err), c1, r1)
  | (.ok output, c1, r1) =>
    let vm := parseDomInfo other vmName output
    match Client.getVMIPAddress e2 c1 r1 vmName with
    | (.ok ip, c2, r2) => (.ok { vm with IPAddress := ip }, c2, r2)
    | (.error _, c2, r2) => (.ok vm, c2, r2)

/-- Go `runStatus`. -/
def runStatus (other : List Char → Option Int) (cfg : Settings) (e1 e2 : SSHEnv)
    (vmName : String) (r : Resources) : RunResult :=
  match NewClient cfg with
  | .error err => { err := some ("failed to create client: " ++ err), out := [], res := r }
  | .ok client =>
    match Client.getVMInfo other e1 e2 client r vmName with
    | (.error err, _, r1) =>
      { err := some ("failed to get VM status: " ++ err), out := [], res := r1 }
    | (.ok vm, _, r1) =>
      { err := none
        out := ["Virtual Machine: " ++ vm.Name, "Status: " ++ vm.Status,
                "CPU Cores: " ++ toString vm.CPU, "Memory: " ++ toString vm.Memory ++ " MB",
                "Storage: " ++ vm.Storage]
               ++ (if vm.IPAddress ≠ "" then ["IP Address: " ++ vm.IPAddress] else [])
        res := r1 }

/-! ## Mock client (`test/mock/mock_client.go`) -/

/-- Go `MockClient`. -/
structure MockClient where
  VMs : List VM
  Templates : List Template
  Connected : Bool
  Fail : String → Bool

/-- The loop of the mock `StartVM`, `StopVM` and `RestartVM`: apply `f` to the
first record with the given name; `none` when no record has the name. -/
def updateFirst (f : VM → VM) (vmName : String) : List VM → Option (List VM)
  | [] => none
  | vm :: rest =>
    if vm.Name = vmName then some (f vm :: rest)
    else (updateFirst f vmName rest).map (fun l => vm :: l)

/-- The loop of the mock `DeleteVM`: remove the first record with the given name;
`none` when no record has the name. -/
def removeFirst (vmName : String) : List VM → Option (List VM)
  | [] => none
  | vm :: rest =>
    if vm.Name = vmName then some rest
    else (removeFirst vmName rest).map (fun l => vm :: l)

/-- Go `MockClient.StartVM`: the error and the mock after the call. -/
def MockClient.StartVM (m : MockClient) (vmName : String) : Option String × MockClient :=
  if m.Fail "StartVM" then (some "mock StartVM failed", m)
  else
    match updateFirst (fun vm => { vm with Status := "running" }) vmName m.VMs with
    | some vms => (none, { m with VMs := vms })
    | none => (some ("VM not found: " ++ vmName), m)

/-- Go `MockClient.StopVM`. -/
def MockClient.StopVM (m : MockClient) (vmName : String) : Option String × MockClient :=
  if m.Fail "StopVM" then (some "mock StopVM failed", m)
  else
    match updateFirst (fun vm => { vm with Status := "stopped", IPAddress := "" }) vmName
        m.VMs with
    | some vms => (none, { m with VMs := vms })
    | none => (some ("VM not found: " ++ vmName), m)

/-- Go `MockClient.RestartVM`. -/
def MockClient.RestartVM (m : MockClient) (vmName : String) : Option String × MockClient :=
  if m.Fail "RestartVM" then (some "mock RestartVM failed", m)
  else
    match updateFirst (fun vm => { vm with Status := "running" }) vmName m.VMs with
    | some vms => (none, { m with VMs := vms })
    | none => (some ("VM not found: " ++ vmName), m)

/-- Go `MockClient.CreateVM`. -/
def MockClient.CreateVM (m : MockClient) (config : VMConfig) : Option String × MockClient :=
  if m.Fail "CreateVM" then (some "mock CreateVM failed", m)
  else if m.VMs.any (fun vm => decide (vm.Name = config.Name)) then
    (some ("VM already exists: " ++ config.Name), m)
  else
    let newVM : VM :=
      { Name := config.Name, Status := "stopped", CPU := config.CPU, Memory := config.Memory,
        Storage := config.Storage }
    (none, { m with VMs := m.VMs ++ [newVM] })

/-- Go `MockClient.DeleteVM`. -/
def MockClient.DeleteVM (m : MockClient) (vmName : String) : Option String × MockClient :=
  if m.Fail "DeleteVM" then (some "mock DeleteVM failed", m)
  else
    match removeFirst vmName m.VMs with
    | some vms => (none, { m with VMs := vms })
    | none => (some ("VM not found: " ++ vmName), m)

/-! ## Sample inputs and auxiliary definitions -/

/-- A server that answers the first request with code 105, the second (the login)
with the token `fresh`, and every later request with code 105. -/
def srvA : Nat → Reply := fun n =>
  match n with
  | 0 => .body (.object [.success (some false), .errorObject (some 105)])
  | 1 => .body (.object [.success (some true), .data (some [("sid", .str "fresh")])])
  | _ => .body (.object [.errorObject (some 105)])

/-- A client that holds the token `old`. -/
def wA : WebAPIClient :=
  { baseURL := "https://nas:5001", username := "u", password := "p", sessionID := "old" }

/-- A client that holds no token. -/
def wNew : WebAPIClient :=
  { baseURL := "https://nas:5001", username := "u", password := "p", sessionID := "" }

/-- A server that answers every request with `success=true` and no data payload. -/
def srvNoSid : Nat → Reply := fun _ => .body (.object [.success (some true)])

/-- A server that answers the first request with `success=true` and the token
`fresh`, and every later request with `success=true`. -/
def srvLogin : Nat → Reply := fun n =>
  match n with
  | 0 => .body (.object [.success (some true), .data (some [("sid", .str "fresh")])])
  | _ => .body (.object [.success (some true)])

/-- The string `sid` entry of the data payload of a decoded reply, if any. -/
def replySid (r : WebAPIResponse) : Option String :=
  match r.Data with
  | none => none
  | some d =>
    match mapGet d "sid" with
    | some (.str sid) => some sid
    | _ => none

/-- A server that answers every request with `success=false` and error code 400. -/
def srvReject : Nat → Reply := fun _ =>
  .body (.object [.success (some false), .errorObject (some 400)])

/-- A server that answers every request with `success=false` and error code 0. -/
def srvZeroCode : Nat → Reply := fun _ =>
  .body (.object [.success (some false), .errorObject (some 0)])

/-- A server that answers every request with `success=false` and an error object
without a code. -/
def srvNoCode : Nat → Reply := fun _ =>
  .body (.object [.success (some false), .errorObject none])

/-- The client as it is when `CallAPI` builds the API request: the client itself
when it holds a token, and the client left by the initial `Login` otherwise. -/
def authenticated (srv : Nat → Reply) (w : WebAPIClient) (sent : List Request) :
    WebAPIClient :=
  if w.sessionID = "" then (Login srv w sent).2.1 else w

/-- A listing as `virsh list --all` prints it, with one running and one stopped
machine and a trailing blank line. -/
def sampleListing : String :=
  " Id   Name         State\n----------------------------\n 1    test-vm      running\n -    stopped-vm   shut off\n\n"

/-- A listing with the two header lines only. -/
def headerListing : String := " Id   Name   State\n--------------------"

/-- A detail block with two `Max memory` lines. -/
def twoMemoryLines : String := "Max memory: 2097152 KiB\nMax memory: 1024 KiB"

/-- A detail block as `virsh dominfo` prints it. -/
def sampleDomInfo : String :=
  "Name: test-vm\nState: running\nCPU(s): 2\nMax memory: 2097152 KiB\nUsed memory: 2097152 KiB"

/-- Relation between the `Error` fields of two decodings of one body, the second
into a struct that already held error code 105. -/
def errRel (e1 e2 : Option WebAPIError) : Prop :=
  e1 = e2 ∨ (e2 = some ⟨105⟩ ∧ e1 ≠ some ⟨105⟩)

/-- A detail block with two `CPU(s)` lines, the second with an unparsable value. -/
def twoCpuLines : String := "CPU(s): 4\nCPU(s): two"

/-- A detail block whose only `CPU(s)` line has an unparsable value. -/
def badCpuDomInfo : String := "State: running\nCPU(s): two\nMax memory: 2097152 KiB"

/-- A detail block with two `State` lines. -/
def twoStates : String := "State: running\nState: paused"

/-- The block `twoStates` with its two lines exchanged. -/
def twoStatesSwapped : String := "State: paused\nState: running"

/-- The block `sampleDomInfo` with its lines in reverse order. -/
def sampleDomInfoReversed : String :=
  "Used memory: 2097152 KiB\nMax memory: 2097152 KiB\nCPU(s): 2\nState: running\nName: test-vm"

/-- A shell that answers the first command with the block `badCpuDomInfo` and fails
every later command. -/
def shBadCpu : Nat → Except String String := fun n =>
  match n with
  | 0 => .ok badCpuDomInfo
  | _ => .error "exit status 1"

/-- The block `sampleDomInfo` with the line `Autostart: disable` inserted after its
second line. -/
def sampleDomInfoExtra : String :=
  "Name: test-vm\nState: running\nAutostart: disable\nCPU(s): 2\nMax memory: 2097152 KiB\nUsed memory: 2097152 KiB"

/-- A detail block with a negative core count and a negative memory size. -/
def negativeDomInfo : String := "CPU(s): -3\nMax memory: -2048 KiB"

/-- A shell that answers the first command with the block `negativeDomInfo` and
fails every later command. -/
def shNegative : Nat → Except String String := fun n =>
  match n with
  | 0 => .ok negativeDomInfo
  | _ => .error "exit status 1"

/-- Check that a line is not a `CPU(s)` line whose value begins with a minus sign. -/
def cpuUnsignedLine (l : List Char) : Bool :=
  match infoEntry l with
  | some (key, value) => !decide (key = "CPU(s)".toList) || decide (value.head? ≠ some '-')
  | none => true

/-- Check that a line is not a `Max memory` line, or that its magnitude is a string
of decimal digits with value below `2^53`. -/
def memoryPlainLine (l : List Char) : Bool :=
  match infoEntry l with
  | some (key, value) =>
    !decide (key = "Max memory".toList) ||
      (match fields value with
       | tok :: _ =>
         (match decValue 0 tok with
          | some n => decide (n < 2 ^ 53)
          | none => false)
       | [] => true)
  | none => true

/-- A report as `virsh domifaddr` prints it. -/
def sampleIfAddr : String :=
  " Name       MAC address          Protocol     Address\n-------------------------------------------------------\n vnet0      52:54:00:11:22:33    ipv4         192.168.1.10/24"

/-- A shell that answers the first command with the block `sampleDomInfo`, the
second with the report `sampleIfAddr`, and fails every later command. -/
def shSample : Nat → Except String String := fun n =>
  match n with
  | 0 => .ok sampleDomInfo
  | 1 => .ok sampleIfAddr
  | _ => .error "exit status 1"

/-- A shell that answers every command with a detail block that has a `Name` line
for another machine. -/
def shOtherName : Nat → Except String String := fun _ =>
  .ok "Name: other-vm\nState: running"

/-- Settings with a host and a user name. -/
def sampleSettings : Settings :=
  { GetString := fun key =>
      if key = "host" then "test-host" else if key = "username" then "admin" else ""
    GetInt := fun key => if key = "port" then 22 else if key = "timeout" then 30 else 0 }

/-- A server that answers the first request with code 105 and a data entry, the
second (the login) with the token `fresh`, and every later request with
`success=true`, a data entry and no error member. -/
def srvStale : Nat → Reply := fun n =>
  match n with
  | 0 => .body (.object [.success (some false), .errorObject (some 105),
      .data (some [("stale", .str "x")])])
  | 1 => .body (.object [.success (some true), .data (some [("sid", .str "fresh")])])
  | _ => .body (.object [.success (some true), .data (some [("fresh", .str "y")])])

/-- The settings `sampleSettings` with a key file configured. -/
def keySettings : Settings :=
  { GetString := fun key =>
      if key = "host" then "test-host" else if key = "username" then "admin"
      else if key = "keyfile" then "/home/admin/.ssh/id_rsa" else ""
    GetInt := fun key => if key = "port" then 22 else if key = "timeout" then 30 else 0 }

/-- Surroundings in which the agent yields a credential, the dial and the session
succeed, and every command prints nothing. -/
def envOK : SSHEnv :=
  { agent := true, key := false, dial := none, newSession := none, run := fun _ => .ok "" }

/-- Flags of `config set --keyfile k`. -/
def flagsShortKeyfile : SetFlags :=
  { changed := fun name => decide (name = "keyfile"), keyfile := "k" }

/-- Flags of `config set --keyfile ""`. -/
def flagsEmptyKeyfile : SetFlags :=
  { changed := fun name => decide (name = "keyfile"), keyfile := "" }

/-- Flags of `config set --keyfile ~/.ssh/id_rsa`. -/
def flagsTildeKeyfile : SetFlags :=
  { changed := fun name => decide (name = "keyfile"), keyfile := "~/.ssh/id_rsa" }

/-- A join of two path elements with a slash, standing for `filepath.Join` in the
examples. -/
def joinSlash (a b : String) : String := a ++ "/" ++ b

/-- A stored configuration with the password `alpha`. -/
def storeAlpha : Store :=
  [("host", .str "nas"), ("username", .str "admin"), ("password", .str "alpha"),
   ("port", .int 22)]

/-- The configuration `storeAlpha` with the password `beta`. -/
def storeBeta : Store :=
  [("host", .str "nas"), ("username", .str "admin"), ("password", .str "beta"),
   ("port", .int 22)]

/-- The mock client as `NewMockClient` builds it. -/
def NewMockClient : MockClient :=
  { VMs := [{ Name := "test-vm-1", Status := "running", CPU := 2, Memory := 2048,
              Storage := "20GB", IPAddress := "192.168.1.100" },
            { Name := "test-vm-2", Status := "stopped", CPU := 4, Memory := 4096,
              Storage := "40GB", IPAddress := "" }]
    Templates := [{ Name := "ubuntu-20.04", Description := "Ubuntu 20.04 LTS", OS := "Linux" },
                  { Name := "windows-10", Description := "Windows 10 Pro", OS := "Windows" }]
    Connected := true
    Fail := fun _ => false }

/-- Whether `Connect` succeeds for a client that is not connected yet: a
credential is available and the dial succeeds. -/
def connects (e : SSHEnv) (c : Client) : Bool :=
  (e.agent || (decide (c.keyfile ≠ "") && e.key)) && e.dial.isNone

/-- Whether the client built from the settings exists and connects. -/
def connectsWith (cfg : Settings) (e : SSHEnv) : Bool :=
  match NewClient cfg with
  | .ok c => connects e c
  | .error _ => false

/-- Surroundings in which the connection succeeds and every command fails. -/
def envRunFails : SSHEnv :=
  { agent := true, key := false, dial := none, newSession := none,
    run := fun _ => .error "Process exited with status 1" }

/-! ## Lemmas on the Web API client -/

theorem mapGet_mapSet_same {β : Type} (m : List (String × β)) (k : String) (v : β) :
    mapGet (mapSet m k v) k = some v := by
  induction m with
  | nil => simp [mapSet, mapGet]
  | cons hd tl ih =>
    obtain ⟨k1, v1⟩ := hd
    by_cases h : k1 = k
    · simp [mapSet, mapGet, h]
    · simp [mapSet, mapGet, h, ih]

theorem mapGet_mapSet_other {β : Type} (m : List (String × β)) (k k2 : String) (v : β)
    (h : k2 ≠ k) : mapGet (mapSet m k2 v) k = mapGet m k := by
  induction m with
  | nil => simp [mapSet, mapGet, h]
  | cons hd tl ih =>
    obtain ⟨k1, v1⟩ := hd
    by_cases h1 : k1 = k2
    · subst h1
      simp [mapSet, mapGet, h]
    · by_cases h2 : k1 = k
      · subst h2
        simp [mapSet, mapGet, h1]
      · simp [mapSet, mapGet, h1, h2, ih]

theorem endpointFor_eq (api : String) : endpointFor api = "/webapi/entry.cgi" := by
  simp [endpointFor]

theorem makeRequest_get (srv : Nat → Reply) (sent : List Request) (path : String)
    (ps : Values) :
    makeRequest srv sent "GET" path (some ps) none
      = roundTrip srv sent ⟨"GET", path, some ps, none⟩ := by
  simp [makeRequest]

theorem roundTrip_log (srv : Nat → Reply) (sent : List Request) (req : Request) :
    (roundTrip srv sent req).2 = sent ++ [req] := by
  unfold roundTrip
  cases srv sent.length <;> rfl

theorem roundTrip_ne_panic (srv : Nat → Reply) (sent : List Request) (req : Request) :
    (roundTrip srv sent req).1 ≠ .panic := by
  unfold roundTrip
  cases srv sent.length <;> simp

theorem Login_log (srv : Nat → Reply) (w : WebAPIClient) (sent : List Request) :
    (Login srv w sent).2.2 = sent ++ [loginRequest w] := by
  unfold Login
  rw [makeRequest_get]
  unfold roundTrip loginRequest
  cases srv sent.length with
  | failure msg => rfl
  | body b =>
    simp only
    cases jsonUnmarshal b {} with
    | none => rfl
    | some r =>
      simp only
      split
      · rfl
      · split
        · rfl
        · split <;> rfl

theorem Login_ne_panic (srv : Nat → Reply) (w : WebAPIClient) (sent : List Request) :
    (Login srv w sent).1 ≠ .panic := by
  unfold Login
  rw [makeRequest_get]
  unfold roundTrip
  cases srv sent.length with
  | failure msg => simp
  | body b =>
    simp only
    cases jsonUnmarshal b {} with
    | none => simp
    | some r =>
      simp only
      split
      · simp
      · split
        · simp
        · split <;> simp

theorem loginRequest_sessionID (w : WebAPIClient) (sid : String) :
    loginRequest { w with sessionID := sid } = loginRequest w := rfl

theorem Login_eq_of_log (srv : Nat → Reply) (w : WebAPIClient) (sent : List Request) :
    Login srv w sent
      = ((Login srv w sent).1, (Login srv w sent).2.1, sent ++ [loginRequest w]) := by
  rw [← Login_log srv w sent]

/-- The requests `callAuthenticated` adds to the log: the API request, then
possibly a login request, then possibly the retried API request carrying the
token the client holds at the end. -/
theorem callAuthenticated_log (srv : Nat → Reply) (w : WebAPIClient) (sent : List Request)
    (api method version : String) (apiParams : List (String × ParamValue)) :
    (callAuthenticated srv w sent api method version apiParams).2.2
        = sent ++ [apiRequest api (callParams w api method version apiParams)]
    ∨ (callAuthenticated srv w sent api method version apiParams).2.2
        = sent ++ [apiRequest api (callParams w api method version apiParams), loginRequest w]
    ∨ (callAuthenticated srv w sent api method version apiParams).2.2
        = sent ++ [apiRequest api (callParams w api method version apiParams), loginRequest w,
            apiRequest api (Values.Set (callParams w api method version apiParams) "_sid"
              (callAuthenticated srv w sent api method version apiParams).2.1.sessionID)] := by
  unfold callAuthenticated
  simp only [makeRequest_get]
  unfold roundTrip
  cases srv sent.length with
  | failure msg => left; rfl
  | body b =>
    simp only
    cases jsonUnmarshal b {} with
    | none => left; rfl
    | some r =>
      simp only
      by_cases hc : (!r.Success) = true ∧ r.Error.isSome = true
          ∧ Option.map (fun x => x.Code) r.Error = some 105
      · rw [if_pos hc, Login_eq_of_log]
        generalize (Login srv { w with sessionID := "" } _).1 = res
        generalize (Login srv { w with sessionID := "" } _).2.1 = w2
        cases res with
        | panic => right; left; simp [apiRequest, loginRequest_sessionID]
        | err e => right; left; simp [apiRequest, loginRequest_sessionID]
        | ok u =>
          right; right
          simp only
          generalize srv _ = rep
          cases rep with
          | failure msg => simp [apiRequest, loginRequest_sessionID]
          | body b3 =>
            simp only
            cases jsonUnmarshal b3 r <;> simp [apiRequest, loginRequest_sessionID]
      · rw [if_neg hc]
        left; rfl

/-- Decoding a body into a struct keeps `Success` equal when it starts equal. -/
theorem foldl_applyMember_Success (ms : List Member) (r r2 : WebAPIResponse)
    (h : r.Success = r2.Success) :
    (ms.foldl applyMember r).Success = (ms.foldl applyMember r2).Success := by
  induction ms generalizing r r2 with
  | nil => simpa using h
  | cons m tl ih =>
    simp only [List.foldl_cons]
    apply ih
    cases m with
    | success b => cases b <;> simp [applyMember, h]
    | data d => cases d <;> simp [applyMember, h]
    | error => simp [applyMember, h]
    | errorObject c => cases c <;> simp [applyMember, h]
    | unknown => simp [applyMember, h]

theorem applyMember_errRel (m : Member) (r r2 : WebAPIResponse)
    (h : errRel r.Error r2.Error) : errRel (applyMember r m).Error (applyMember r2 m).Error := by
  cases m with
  | success b => cases b <;> simpa [applyMember] using h
  | data d => cases d <;> simpa [applyMember] using h
  | error => left; simp [applyMember]
  | unknown => simpa [applyMember] using h
  | errorObject c =>
    cases c with
    | some c => left; simp [applyMember]
    | none =>
      rcases h with h | ⟨h2, h1⟩
      · left; simp [applyMember, h]
      · right
        refine ⟨by simp [applyMember, h2], ?_⟩
        cases he : r.Error with
        | none => simp [applyMember, he]
        | some e =>
          rw [he] at h1
          simpa [applyMember, he] using h1

theorem foldl_applyMember_errRel (ms : List Member) (r r2 : WebAPIResponse)
    (h : errRel r.Error r2.Error) :
    errRel (ms.foldl applyMember r).Error (ms.foldl applyMember r2).Error := by
  induction ms generalizing r r2 with
  | nil => simpa using h
  | cons m tl ih =>
    simp only [List.foldl_cons]
    exact ih _ _ (applyMember_errRel m r r2 h)

/-- A body that decodes on its own to a failure with code 105 decodes to a failure
with code 105 also into the struct left by an earlier such reply. -/
theorem jsonUnmarshal_again_105 (b : Body) (r1 r3 : WebAPIResponse)
    (h1s : r1.Success = false) (h1e : r1.Error = some ⟨105⟩)
    (hd : jsonUnmarshal b {} = some r3) (h3s : r3.Success = false)
    (h3e : r3.Error = some ⟨105⟩) :
    ∃ resp, jsonUnmarshal b r1 = some resp ∧ resp.Success = false ∧ resp.Error = some ⟨105⟩ := by
  cases b with
  | invalid => simp [jsonUnmarshal] at hd
  | object ms =>
    simp only [jsonUnmarshal, Option.some.injEq] at hd
    refine ⟨ms.foldl applyMember r1, rfl, ?_, ?_⟩
    · rw [← foldl_applyMember_Success ms {} r1 (by simp [h1s]), hd, h3s]
    · have hrel := foldl_applyMember_errRel ms {} r1 (Or.inr ⟨h1e, by simp⟩)
      rw [hd, h3e] at hrel
      rcases hrel with h | ⟨_, h⟩
      · exact h.symm
      · exact absurd rfl h

theorem Login_err_client (srv : Nat → Reply) (w : WebAPIClient) (sent : List Request)
    (e : Err) (h : (Login srv w sent).1 = .err e) : (Login srv w sent).2.1 = w := by
  unfold Login at h ⊢
  rw [makeRequest_get] at h ⊢
  unfold roundTrip at h ⊢
  cases hs : srv sent.length with
  | failure msg => rfl
  | body b =>
    rw [hs] at h
    simp only at h ⊢
    cases hj : jsonUnmarshal b {} with
    | none => rfl
    | some r =>
      rw [hj] at h
      simp only at h ⊢
      cases hS : r.Success with
      | false => simp
      | true =>
        rw [hS] at h
        simp only [Bool.not_true, Bool.false_eq_true, if_false] at h
        split at h <;> try split at h
        all_goals simp at h

theorem Login_client (srv : Nat → Reply) (w : WebAPIClient) (sent : List Request) :
    ∃ sid, (Login srv w sent).2.1 = { w with sessionID := sid } := by
  unfold Login
  rw [makeRequest_get]
  unfold roundTrip
  cases srv sent.length with
  | failure msg => exact ⟨w.sessionID, rfl⟩
  | body b =>
    simp only
    cases jsonUnmarshal b {} with
    | none => exact ⟨w.sessionID, rfl⟩
    | some r =>
      simp only
      split
      · exact ⟨w.sessionID, rfl⟩
      · split
        · exact ⟨w.sessionID, rfl⟩
        · split
          · exact ⟨_, rfl⟩
          · exact ⟨w.sessionID, rfl⟩

theorem loginRequest_Login (srv : Nat → Reply) (w : WebAPIClient) (sent : List Request) :
    loginRequest (Login srv w sent).2.1 = loginRequest w := by
  obtain ⟨sid, h⟩ := Login_client srv w sent
  rw [h]
  rfl

theorem foldl_Set_Get (apiParams : List (String × ParamValue)) (ps : Values) (k : String)
    (h : ∀ kv ∈ apiParams, kv.1 ≠ k) :
    (apiParams.foldl (fun ps kv => Values.Set ps kv.1 kv.2.render) ps).Get k = ps.Get k := by
  induction apiParams generalizing ps with
  | nil => rfl
  | cons kv tl ih =>
    simp only [List.foldl_cons]
    rw [ih _ (fun x hx => h x (List.mem_cons_of_mem _ hx))]
    exact mapGet_mapSet_other ps k kv.1 kv.2.render (h kv (List.mem_cons_self _ _))

theorem callParams_Get_sid (w : WebAPIClient) (api method version : String)
    (apiParams : List (String × ParamValue)) (h : ∀ kv ∈ apiParams, kv.1 ≠ "_sid") :
    (callParams w api method version apiParams).Get "_sid" = some w.sessionID := by
  unfold callParams
  rw [foldl_Set_Get _ _ _ h]
  exact mapGet_mapSet_same _ _ _

theorem callParams_Get_api (w : WebAPIClient) (api method version : String)
    (apiParams : List (String × ParamValue)) (h : ∀ kv ∈ apiParams, kv.1 ≠ "api") :
    (callParams w api method version apiParams).Get "api" = some api := by
  unfold callParams
  rw [foldl_Set_Get _ _ _ h]
  simp [Values.Get, Values.Set, Values.empty, mapSet, mapGet]

theorem callParams_Get_method (w : WebAPIClient) (api method version : String)
    (apiParams : List (String × ParamValue)) (h : ∀ kv ∈ apiParams, kv.1 ≠ "method") :
    (callParams w api method version apiParams).Get "method" = some method := by
  unfold callParams
  rw [foldl_Set_Get _ _ _ h]
  simp [Values.Get, Values.Set, Values.empty, mapSet, mapGet]

theorem callParams_Get_version (w : WebAPIClient) (api method version : String)
    (apiParams : List (String × ParamValue)) (h : ∀ kv ∈ apiParams, kv.1 ≠ "version") :
    (callParams w api method version apiParams).Get "version" = some version := by
  unfold callParams
  rw [foldl_Set_Get _ _ _ h]
  simp [Values.Get, Values.Set, Values.empty, mapSet, mapGet]

/-! ## Claims on the Web API client -/

/-- C1. On an authenticated client, when the first API reply decodes to
`success=false` with error code 105 and the re-login succeeds, `CallAPI` makes
exactly three requests: the API request, one login request and one retry of the
API request (with the new token).  Whatever the retry reply is, nothing more is
sent; when the retry reply is again `success=false` with code 105, that response
is returned to the caller. -/
theorem CallAPI_session_expired_retries_once
    (srv : Nat → Reply) (w : WebAPIClient) (sent : List Request)
    (api method version : String) (apiParams : List (String × ParamValue))
    (b1 : Body) (r1 : WebAPIResponse)
    (hauth : w.sessionID ≠ "")
    (hfirst : srv sent.length = .body b1)
    (hdec : jsonUnmarshal b1 {} = some r1)
    (hfail : r1.Success = false) (hcode : r1.Error = some ⟨105⟩)
    (hlogin : (Login srv { w with sessionID := "" }
      (sent ++ [apiRequest api (callParams w api method version apiParams)])).1 = .ok ()) :
    (CallAPI srv w sent api method version apiParams).2.2
        = sent ++ [apiRequest api (callParams w api method version apiParams),
            loginRequest w,
            apiRequest api (Values.Set (callParams w api method version apiParams) "_sid"
              (CallAPI srv w sent api method version apiParams).2.1.sessionID)]
    ∧ (CallAPI srv w sent api method version apiParams).2.1
        = (Login srv { w with sessionID := "" }
            (sent ++ [apiRequest api (callParams w api method version apiParams)])).2.1
    ∧ (CallAPI srv w sent api method version apiParams).1 ≠ .panic
    ∧ ∀ (b3 : Body) (r3 : WebAPIResponse), srv (sent.length + 2) = .body b3 →
        jsonUnmarshal b3 {} = some r3 → r3.Success = false → r3.Error = some ⟨105⟩ →
        ∃ resp, (CallAPI srv w sent api method version apiParams).1 = .ok resp
          ∧ resp.Success = false ∧ resp.Error = some ⟨105⟩ := by
  have hcond : (!r1.Success) = true ∧ r1.Error.isSome = true
      ∧ Option.map (fun x => x.Code) r1.Error = some 105 := by
    simp [hfail, hcode]
  unfold CallAPI
  rw [if_neg hauth]
  unfold callAuthenticated
  simp only [makeRequest_get]
  unfold roundTrip
  rw [hfirst]
  simp only [hdec, if_pos hcond]
  unfold apiRequest at hlogin ⊢
  rw [Login_eq_of_log, hlogin]
  simp only
  generalize (Login srv { w with sessionID := "" } _).2.1 = w2
  have hlen : ∀ a b : Request, (sent ++ [a] ++ [b]).length = sent.length + 2 := by
    intro a b
    simp
  rw [hlen]
  cases h3 : srv (sent.length + 2) with
  | failure msg => simp [loginRequest_sessionID]
  | body b3 =>
    simp only
    cases hj : jsonUnmarshal b3 r1 with
    | none =>
      refine ⟨by simp [loginRequest_sessionID], rfl, by simp, ?_⟩
      intro b r hb hd hs he
      cases hb
      obtain ⟨resp, hresp, _⟩ := jsonUnmarshal_again_105 b3 r1 r hfail hcode hd hs he
      rw [hj] at hresp
      cases hresp
    | some resp =>
      refine ⟨by simp [loginRequest_sessionID], rfl, by simp, ?_⟩
      intro b r hb hd hs he
      cases hb
      obtain ⟨resp2, hresp, h1, h2⟩ := jsonUnmarshal_again_105 b3 r1 r hfail hcode hd hs he
      rw [hj] at hresp
      cases hresp
      exact ⟨resp, rfl, h1, h2⟩

/-- C1 at a concrete run: the server answers the API request with code 105, the
login with a fresh token, and the retry with code 105 again. -/
theorem CallAPI_session_expired_retries_once_witness :
    wA.sessionID ≠ "" ∧
    (CallAPI srvA wA [] "SYNO.Virtualization.API.Guest" "list" "1" [("limit", .str "5")]).2.2
      = [] ++ [apiRequest "SYNO.Virtualization.API.Guest"
                (callParams wA "SYNO.Virtualization.API.Guest" "list" "1" [("limit", .str "5")]),
            loginRequest wA,
            apiRequest "SYNO.Virtualization.API.Guest"
              (Values.Set
                (callParams wA "SYNO.Virtualization.API.Guest" "list" "1" [("limit", .str "5")])
                "_sid"
                (CallAPI srvA wA [] "SYNO.Virtualization.API.Guest" "list" "1"
                  [("limit", .str "5")]).2.1.sessionID)] :=
  ⟨by decide,
   (CallAPI_session_expired_retries_once srvA wA [] "SYNO.Virtualization.API.Guest" "list" "1"
      [("limit", .str "5")] (.object [.success (some false), .errorObject (some 105)])
      { Success := false, Data := none, Error := some ⟨105⟩ }
      (by decide) rfl rfl rfl rfl (by decide)).1⟩

/-- C2 fails as stated: a login reply `success=true` without a data payload makes
`Login` return without error while the client still holds no token. -/
theorem Login_ok_without_token :
    (Login srvNoSid wNew []).1 = .ok () ∧ (Login srvNoSid wNew []).2.1.sessionID = "" := by
  decide

/-- C2, amended. Whenever `Login` returns without error, the login reply decoded
to `success=true`, and the token held afterwards is the string `sid` of the
reply's data payload when the payload has one and the token held before
otherwise. -/
theorem Login_ok_token (srv : Nat → Reply) (w : WebAPIClient) (sent : List Request)
    (h : (Login srv w sent).1 = .ok ()) :
    ∃ (b : Body) (r : WebAPIResponse), srv sent.length = .body b
      ∧ jsonUnmarshal b {} = some r ∧ r.Success = true
      ∧ (Login srv w sent).2.1 = { w with sessionID := (replySid r).getD w.sessionID } := by
  unfold Login at h ⊢
  rw [makeRequest_get] at h ⊢
  unfold roundTrip at h ⊢
  cases hs : srv sent.length with
  | failure msg => rw [hs] at h; simp at h
  | body b =>
    rw [hs] at h
    simp only at h ⊢
    cases hj : jsonUnmarshal b {} with
    | none => rw [hj] at h; simp at h
    | some r =>
      rw [hj] at h
      simp only at h ⊢
      cases hS : r.Success with
      | false => rw [hS] at h; simp at h
      | true =>
        refine ⟨b, r, rfl, hj, hS, ?_⟩
        simp only [hS, Bool.not_true, Bool.false_eq_true, if_false]
        unfold replySid
        cases r.Data with
        | none => rfl
        | some d =>
          simp only
          cases mapGet d "sid" with
          | none => rfl
          | some v => cases v <;> rfl

/-- C2 amended, at a concrete run: the reply carries the token `fresh`. -/
theorem Login_ok_token_witness :
    (Login srvLogin wNew []).1 = .ok () ∧
    ∃ (b : Body) (r : WebAPIResponse), srvLogin ([] : List Request).length = .body b
      ∧ jsonUnmarshal b {} = some r ∧ r.Success = true
      ∧ (Login srvLogin wNew []).2.1
          = { wNew with sessionID := (replySid r).getD wNew.sessionID } :=
  ⟨by decide, Login_ok_token srvLogin wNew [] (by decide)⟩

/-- C3 fails as stated: on a client without token, after a login that yields the
token `fresh`, an `apiParams` entry with key `_sid` makes the API request go out
with `_sid=mine`, not with the token obtained by the login. -/
theorem CallAPI_after_login_sid_overridden :
    wNew.sessionID = ""
    ∧ (Login srvLogin wNew []).1 = .ok ()
    ∧ (Login srvLogin wNew []).2.1.sessionID = "fresh"
    ∧ (CallAPI srvLogin wNew [] "SYNO.Core.System" "info" "1" [("_sid", .str "mine")]).2.2
        = [loginRequest wNew,
           ⟨"GET", "/webapi/entry.cgi",
            some [("api", "SYNO.Core.System"), ("method", "info"), ("version", "1"),
              ("_sid", "mine")], none⟩] := by
  decide

/-- C3, amended. On a client without token `CallAPI` first makes the login
request.  If that login fails with `e`, `CallAPI` returns an error wrapping `e`,
no response, and the login request is the only request made.  If it succeeds, the
next request is the API request built for the client as the login left it; that
request carries the client's token as `_sid` provided `apiParams` has no entry
with key `_sid`. -/
theorem CallAPI_unauthenticated_logs_in_first
    (srv : Nat → Reply) (w : WebAPIClient) (sent : List Request)
    (api method version : String) (apiParams : List (String × ParamValue))
    (hno : w.sessionID = "") :
    (∃ rest, (CallAPI srv w sent api method version apiParams).2.2
        = sent ++ loginRequest w :: rest)
    ∧ (∀ e, (Login srv w sent).1 = .err e →
        CallAPI srv w sent api method version apiParams
          = (.err (.authenticationFailed e), w, sent ++ [loginRequest w]))
    ∧ ((Login srv w sent).1 = .ok () →
        ∃ rest, (CallAPI srv w sent api method version apiParams).2.2
          = sent ++ loginRequest w
              :: apiRequest api (callParams (Login srv w sent).2.1 api method version apiParams)
              :: rest)
    ∧ ((∀ kv ∈ apiParams, kv.1 ≠ "_sid") →
        (callParams (Login srv w sent).2.1 api method version apiParams).Get "_sid"
          = some (Login srv w sent).2.1.sessionID) := by
  have hshape := callAuthenticated_log srv (Login srv w sent).2.1 (sent ++ [loginRequest w])
    api method version apiParams
  refine ⟨?_, ?_, ?_, fun h => callParams_Get_sid _ _ _ _ _ h⟩
  · unfold CallAPI
    rw [if_pos hno, Login_eq_of_log]
    cases (Login srv w sent).1 with
    | panic => exact ⟨[], rfl⟩
    | err e => exact ⟨[], rfl⟩
    | ok u =>
      simp only
      rcases hshape with h | h | h
      all_goals rw [h]; simp
  · intro e he
    have hw := Login_err_client srv w sent e he
    unfold CallAPI
    rw [if_pos hno, Login_eq_of_log, he, hw]
  · intro hok
    unfold CallAPI
    rw [if_pos hno, Login_eq_of_log, hok]
    simp only
    rcases hshape with h | h | h
    all_goals rw [h]; simp

/-- C3 amended, at a concrete run with a login that yields the token `fresh`. -/
theorem CallAPI_unauthenticated_logs_in_first_witness :
    wNew.sessionID = "" ∧
    ∃ rest, (CallAPI srvLogin wNew [] "SYNO.Core.System" "info" "1" [("limit", .str "5")]).2.2
        = [] ++ loginRequest wNew :: rest :=
  ⟨by decide,
   (CallAPI_unauthenticated_logs_in_first srvLogin wNew [] "SYNO.Core.System" "info" "1"
      [("limit", .str "5")] (by decide)).1⟩

/-- C4. After `Logout` returns the client holds no token, whatever the server
answers to the logout request; `Logout` never panics; and on a client that holds
no token it returns success without making a request. -/
theorem Logout_clears_token (srv : Nat → Reply) (w : WebAPIClient) (sent : List Request) :
    (Logout srv w sent).2.1.sessionID = ""
    ∧ (Logout srv w sent).1 ≠ .panic
    ∧ (w.sessionID = "" → Logout srv w sent = (.ok (), w, sent))
    ∧ (w.sessionID ≠ "" → (Logout srv w sent).2.2
        = sent ++ [⟨"GET", "/webapi/auth.cgi", some (logoutParams w), none⟩]) := by
  unfold Logout
  by_cases h : w.sessionID = ""
  · simp [h]
  · rw [if_neg h, makeRequest_get]
    unfold roundTrip
    cases srv sent.length <;> simp [h]

/-- C5 fails as stated: a reported code 0 does not mean that the reply has no error
object.  A rejected login whose error object carries the code 0, or carries no
code at all, is reported with code 0 as well. -/
theorem Login_reports_zero_with_error_object :
    (jsonUnmarshal (.object [.success (some false), .errorObject (some 0)]) {}).map
        (fun r => (r.Success, r.Error.isSome)) = some (false, true)
    ∧ (Login srvZeroCode wA []).1 = .err (.loginFailed 0)
    ∧ (jsonUnmarshal (.object [.success (some false), .errorObject none]) {}).map
        (fun r => (r.Success, r.Error.isSome)) = some (false, true)
    ∧ (Login srvNoCode wA []).1 = .err (.loginFailed 0) := by
  decide

/-- C5, amended. When the decoded login reply has `success=false`, `Login` returns
the error `login failed with error code <code>` where the code is that of the
reply's error object when the reply has one, and 0 when it has none; the client,
and so its session token, is unchanged. -/
theorem Login_failure_reports_code (srv : Nat → Reply) (w : WebAPIClient)
    (sent : List Request) (b : Body) (r : WebAPIResponse)
    (hreply : srv sent.length = .body b) (hdec : jsonUnmarshal b {} = some r)
    (hfail : r.Success = false) :
    Login srv w sent
        = (.err (.loginFailed (match r.Error with
            | some e => e.Code
            | none => 0)), w, sent ++ [loginRequest w])
    ∧ (Login srv w sent).2.1.sessionID = w.sessionID
    ∧ (∀ e, r.Error = some e → (Login srv w sent).1 = .err (.loginFailed e.Code))
    ∧ (r.Error = none → (Login srv w sent).1 = .err (.loginFailed 0)) := by
  have hmain : Login srv w sent
      = (.err (.loginFailed (match r.Error with
          | some e => e.Code
          | none => 0)), w, sent ++ [loginRequest w]) := by
    unfold Login
    rw [makeRequest_get]
    unfold roundTrip
    rw [hreply]
    simp only [hdec, hfail]
    rfl
  refine ⟨hmain, by rw [hmain], ?_, ?_⟩
  · intro e he
    rw [hmain, he]
  · intro he
    rw [hmain, he]

/-- C5 amended, at a concrete run: the server rejects the login with code 400. -/
theorem Login_failure_reports_code_witness :
    srvReject ([] : List Request).length
        = .body (.object [.success (some false), .errorObject (some 400)])
    ∧ Login srvReject wA []
        = (.err (.loginFailed 400), wA, [] ++ [loginRequest wA]) :=
  ⟨rfl,
   (Login_failure_reports_code srvReject wA []
      (.object [.success (some false), .errorObject (some 400)])
      { Success := false, Data := none, Error := some ⟨400⟩ } rfl rfl rfl).1⟩

/-- C6 fails as stated: entries of `apiParams` with the keys `_sid` and `api`
replace the session token and the API name in the request that is sent. -/
theorem CallAPI_apiParams_replace_reserved :
    wA.sessionID = "old"
    ∧ (CallAPI srvNoSid wA [] "SYNO.Core.System" "info" "1"
        [("_sid", .str "forged"), ("api", .str "SYNO.Other")]).2.2
        = [⟨"GET", "/webapi/entry.cgi",
            some [("api", "SYNO.Other"), ("method", "info"), ("version", "1"),
              ("_sid", "forged")], none⟩] := by
  decide

/-- C6, amended. When no key of `apiParams` is `api`, `method`, `version` or
`_sid`, every request `CallAPI` makes is the login request, the API request built
for the client as it is once authenticated, or that request with `_sid` set to the
token held at the end (the retry); the API request carries the authenticated
client's token as `_sid` and the given `api`, `method` and `version`, and so does
the retry with its token. -/
theorem CallAPI_request_parameters
    (srv : Nat → Reply) (w : WebAPIClient) (sent : List Request)
    (api method version : String) (apiParams : List (String × ParamValue))
    (hkeys : ∀ kv ∈ apiParams,
      kv.1 ≠ "api" ∧ kv.1 ≠ "method" ∧ kv.1 ≠ "version" ∧ kv.1 ≠ "_sid") :
    (∀ req ∈ (CallAPI srv w sent api method version apiParams).2.2.drop sent.length,
        req = loginRequest w
        ∨ req = apiRequest api (callParams (authenticated srv w sent) api method version apiParams)
        ∨ req = apiRequest api
            (Values.Set (callParams (authenticated srv w sent) api method version apiParams)
              "_sid" (CallAPI srv w sent api method version apiParams).2.1.sessionID))
    ∧ (callParams (authenticated srv w sent) api method version apiParams).Get "_sid"
        = some (authenticated srv w sent).sessionID
    ∧ (callParams (authenticated srv w sent) api method version apiParams).Get "api" = some api
    ∧ (callParams (authenticated srv w sent) api method version apiParams).Get "method"
        = some method
    ∧ (callParams (authenticated srv w sent) api method version apiParams).Get "version"
        = some version
    ∧ ∀ tok : String,
        (Values.Set (callParams (authenticated srv w sent) api method version apiParams)
          "_sid" tok).Get "_sid" = some tok
        ∧ (Values.Set (callParams (authenticated srv w sent) api method version apiParams)
          "_sid" tok).Get "api" = some api
        ∧ (Values.Set (callParams (authenticated srv w sent) api method version apiParams)
          "_sid" tok).Get "method" = some method
        ∧ (Values.Set (callParams (authenticated srv w sent) api method version apiParams)
          "_sid" tok).Get "version" = some version := by
  have hapi := callParams_Get_api (authenticated srv w sent) api method version apiParams
    (fun kv h => (hkeys kv h).1)
  have hmethod := callParams_Get_method (authenticated srv w sent) api method version apiParams
    (fun kv h => (hkeys kv h).2.1)
  have hversion := callParams_Get_version (authenticated srv w sent) api method version
    apiParams (fun kv h => (hkeys kv h).2.2.1)
  have hsid := callParams_Get_sid (authenticated srv w sent) api method version apiParams
    (fun kv h => (hkeys kv h).2.2.2)
  refine ⟨?_, hsid, hapi, hmethod, hversion, fun tok => ⟨mapGet_mapSet_same _ _ _, ?_, ?_, ?_⟩⟩
  · unfold CallAPI authenticated
    by_cases hno : w.sessionID = ""
    · rw [if_pos hno, if_pos hno, Login_eq_of_log]
      have hshape := callAuthenticated_log srv (Login srv w sent).2.1
        (sent ++ [loginRequest w]) api method version apiParams
      have hlr := loginRequest_Login srv w sent
      cases (Login srv w sent).1 with
      | panic => simp
      | err e => simp
      | ok u =>
        simp only
        rcases hshape with h | h | h
        all_goals
          rw [h]
          simp [hlr]
    · rw [if_neg hno, if_neg hno]
      have hshape := callAuthenticated_log srv w sent api method version apiParams
      rcases hshape with h | h | h
      all_goals
        rw [h]
        simp
  · rw [← hapi]
    exact mapGet_mapSet_other _ _ _ _ (by decide)
  · rw [← hmethod]
    exact mapGet_mapSet_other _ _ _ _ (by decide)
  · rw [← hversion]
    exact mapGet_mapSet_other _ _ _ _ (by decide)

/-- C6 amended, at a concrete call whose only extra parameter has the key `limit`. -/
theorem CallAPI_request_parameters_witness :
    (∀ kv ∈ [(("limit", .str "5") : String × ParamValue)],
      kv.1 ≠ "api" ∧ kv.1 ≠ "method" ∧ kv.1 ≠ "version" ∧ kv.1 ≠ "_sid")
    ∧ (callParams (authenticated srvA wA []) "SYNO.Core.System" "info" "1"
        [("limit", .str "5")]).Get "_sid" = some (authenticated srvA wA []).sessionID :=
  ⟨by decide,
   (CallAPI_request_parameters srvA wA [] "SYNO.Core.System" "info" "1" [("limit", .str "5")]
      (by decide)).2.1⟩

/-! ## Lemmas on the text parsers -/

theorem rdropWhile_cons (p : Char → Bool) (c : Char) (cs : List Char) :
    List.rdropWhile p (c :: cs)
      = if List.rdropWhile p cs = [] then (if p c then [] else [c])
        else c :: List.rdropWhile p cs := by
  induction cs using List.reverseRecOn with
  | nil => simp [List.rdropWhile_singleton]
  | append_singleton xs x ih =>
    rw [← List.cons_append, List.rdropWhile_concat, List.rdropWhile_concat]
    by_cases hx : p x
    · simp only [hx, if_true]
      exact ih
    · simp [hx]

theorem length_splitOn1 (sep : Char) (s : List Char) :
    (splitOn1 sep s).length = s.count sep + 1 := by
  induction s with
  | nil => simp [splitOn1]
  | cons c cs ih =>
    unfold splitOn1
    by_cases h : c = sep
    · subst h
      simp [ih]
    · rw [if_neg h, List.count_cons_of_ne (Ne.symm h), ← ih]
      cases hsp : splitOn1 sep cs with
      | nil => rw [hsp] at ih; simp at ih
      | cons l ls => simp

theorem count_trimSpace_le (c : Char) (s : List Char) : (trimSpace s).count c ≤ s.count c := by
  unfold trimSpace
  have h1 : List.rdropWhile isSpace (s.dropWhile isSpace) <+: s.dropWhile isSpace :=
    List.rdropWhile_prefix isSpace _
  exact le_trans (h1.sublist.count_le c) ((List.dropWhile_sublist isSpace).count_le c)

theorem length_splitLines_trimSpace_le (s : List Char) :
    (splitLines (trimSpace s)).length ≤ (splitLines s).length := by
  unfold splitLines
  rw [length_splitOn1, length_splitOn1]
  exact Nat.succ_le_succ (count_trimSpace_le _ s)

theorem fieldsGo_nil_dropWhile (s : List Char) :
    fieldsGo [] (s.dropWhile isSpace) = fieldsGo [] s := by
  induction s with
  | nil => rfl
  | cons c cs ih =>
    by_cases h : isSpace c
    · simp [List.dropWhile, h, fieldsGo, ih]
    · simp [List.dropWhile, h]

theorem fieldsGo_rdropWhile (cur s : List Char) :
    fieldsGo cur (s.rdropWhile isSpace) = fieldsGo cur s := by
  induction s generalizing cur with
  | nil => simp
  | cons c cs ih =>
    rw [rdropWhile_cons]
    by_cases hnil : List.rdropWhile isSpace cs = []
    · have hcs : ∀ cur2, fieldsGo cur2 [] = fieldsGo cur2 cs := by
        intro cur2
        rw [← ih cur2, hnil]
      rw [if_pos hnil]
      by_cases h : isSpace c
      · rw [if_pos h]
        simp only [fieldsGo, h, if_true]
        rw [← hcs []]
        simp [fieldsGo]
      · rw [if_neg h]
        have h1 : fieldsGo cur [c] = fieldsGo (cur ++ [c]) [] := by
          simp [fieldsGo, h]
        have h2 : fieldsGo cur (c :: cs) = fieldsGo (cur ++ [c]) cs := by
          simp [fieldsGo, h]
        rw [h1, h2, hcs]
    · rw [if_neg hnil]
      by_cases h : isSpace c
      · simp only [fieldsGo, h, if_true, ih]
      · simp only [fieldsGo, h, ih]

/-- Trimming a line does not change its fields. -/
theorem fields_trimSpace (s : List Char) : fields (trimSpace s) = fields s := by
  unfold fields trimSpace
  rw [fieldsGo_rdropWhile, fieldsGo_nil_dropWhile]

theorem fields_of_trimSpace_nil (s : List Char) (h : trimSpace s = []) : fields s = [] := by
  rw [← fields_trimSpace, h]
  rfl

/-- The row loop appends, in order, the record of every line with at least three
fields. -/
theorem listLoop_eq (vms : List VM) (lines : List (List Char)) :
    listLoop vms lines
      = vms ++ (lines.filter (fun l => decide (3 ≤ (fields l).length))).map
          (fun l => rowVM (fields l)) := by
  induction lines generalizing vms with
  | nil => simp [listLoop]
  | cons raw rest ih =>
    unfold listLoop
    simp only
    by_cases hnil : trimSpace raw = []
    · rw [if_pos hnil, ih]
      have hf := fields_of_trimSpace_nil raw hnil
      simp [List.filter, hf]
    · rw [if_neg hnil, fields_trimSpace]
      by_cases hlt : (fields raw).length < 3
      · rw [if_pos hlt, ih]
        have : ¬ 3 ≤ (fields raw).length := by omega
        simp [List.filter, this]
      · rw [if_neg hlt, ih]
        have : 3 ≤ (fields raw).length := by omega
        simp [List.filter, this]

/-- Go `parseVirshList` as a filter over the lines after the first two. -/
theorem parseVirshList_eq (output : String) :
    parseVirshList output
      = ((((splitLines (trimSpace output.toList)).drop 2).filter
            (fun l => decide (3 ≤ (fields l).length))).map (fun l => rowVM (fields l)), none) := by
  unfold parseVirshList
  simp only
  by_cases h : (splitLines (trimSpace output.toList)).length < 3
  · rw [if_pos h]
    have : (splitLines (trimSpace output.toList)).drop 2 = [] := by
      apply List.drop_eq_nil_of_le
      omega
    rw [this]
    rfl
  · rw [if_neg h, listLoop_eq]
    simp

theorem applyInfoLine_Memory (other : List Char → Option Int) (vm : VM) (raw : List Char) :
    (applyInfoLine other vm raw).Memory = (memoryAssigned other raw).getD vm.Memory := by
  unfold applyInfoLine memoryAssigned
  cases infoEntry raw with
  | none => rfl
  | some kv =>
    obtain ⟨key, value⟩ := kv
    simp only
    by_cases h1 : key = "State".toList
    · subst h1
      rw [if_pos rfl, if_neg (by decide)]
      rfl
    · rw [if_neg h1]
      by_cases h2 : key = "CPU(s)".toList
      · subst h2
        rw [if_pos rfl, if_neg (by decide)]
        cases Atoi value <;> rfl
      · rw [if_neg h2]
        by_cases h3 : key = "Max memory".toList
        · rw [if_pos h3, if_pos h3]
          cases fields value with
          | nil => rfl
          | cons tok rest =>
            simp only
            cases memoryMB other tok <;> rfl
        · rw [if_neg h3, if_neg h3]
          rfl

theorem foldl_applyInfoLine_Memory (other : List Char → Option Int) (vm : VM)
    (post : List (List Char)) (h : ∀ l ∈ post, memoryAssigned other l = none) :
    (post.foldl (applyInfoLine other) vm).Memory = vm.Memory := by
  induction post generalizing vm with
  | nil => rfl
  | cons l tl ih =>
    simp only [List.foldl_cons]
    rw [ih _ (fun x hx => h x (List.mem_cons_of_mem _ hx)), applyInfoLine_Memory,
      h l (List.mem_cons_self _ _)]
    rfl

theorem rdropWhile_append_cons (p : Char → Bool) (a : List Char) (c : Char) (b : List Char)
    (hc : ¬ p c) : List.rdropWhile p (a ++ c :: b) = a ++ c :: List.rdropWhile p b := by
  induction a with
  | nil =>
    simp only [List.nil_append]
    rw [rdropWhile_cons]
    by_cases hb : List.rdropWhile p b = []
    · simp [hb, hc]
    · simp [hb]
  | cons x xs ih =>
    simp only [List.cons_append]
    rw [rdropWhile_cons, ih]
    simp

theorem digitVal_not_space (c : Char) (d : Nat) (h : digitVal c = some d) :
    isSpace c = false := by
  unfold digitVal at h
  split at h
  · rename_i hc
    unfold isSpace
    simp
    omega
  · simp at h

theorem decValue_not_space (ds : List Char) (acc n : Nat) (h : decValue acc ds = some n) :
    ∀ c ∈ ds, isSpace c = false := by
  induction ds generalizing acc with
  | nil => simp
  | cons c cs ih =>
    unfold decValue at h
    cases hd : digitVal c with
    | none => rw [hd] at h; simp at h
    | some d =>
      rw [hd] at h
      intro x hx
      rcases List.mem_cons.mp hx with hx | hx
      · subst hx
        exact digitVal_not_space _ _ hd
      · exact ih _ h x hx

theorem fieldsGo_token (cur ds rest : List Char) (h : ∀ c ∈ ds, isSpace c = false) :
    fieldsGo cur (ds ++ rest) = fieldsGo (cur ++ ds) rest := by
  induction ds generalizing cur with
  | nil => simp
  | cons c cs ih =>
    have hc : isSpace c = false := h c (List.mem_cons_self _ _)
    have hstep : fieldsGo cur (c :: (cs ++ rest)) = fieldsGo (cur ++ [c]) (cs ++ rest) := by
      simp [fieldsGo, hc]
    rw [List.cons_append, hstep, ih _ (fun x hx => h x (List.mem_cons_of_mem _ hx))]
    simp

theorem splitColon_max_memory (r : List Char) :
    splitColon ("Max memory".toList ++ ':' :: r) = some ("Max memory".toList, r) := by
  simp [splitColon]

theorem trimSpace_max_memory (rest : List Char) :
    trimSpace ("Max memory:".toList ++ rest)
      = "Max memory".toList ++ ':' :: List.rdropWhile isSpace rest := by
  have e1 : "Max memory:".toList ++ rest = 'M' :: ("ax memory".toList ++ ':' :: rest) := rfl
  have e2 : 'M' :: ("ax memory".toList ++ ':' :: rest)
      = "Max memory".toList ++ ':' :: rest := rfl
  unfold trimSpace
  rw [e1, List.dropWhile_cons_of_neg (by decide), e2,
    rdropWhile_append_cons isSpace _ ':' rest (by decide)]

/-- The entry read from a line that starts with `Max memory:`. -/
theorem infoEntry_max_memory (rest : List Char) :
    infoEntry ("Max memory:".toList ++ rest)
      = some ("Max memory".toList, trimSpace (List.rdropWhile isSpace rest)) := by
  unfold infoEntry
  simp only [trimSpace_max_memory]
  rw [if_neg (by simp), splitColon_max_memory]
  have : trimSpace "Max memory".toList = "Max memory".toList := by decide
  simp only [this]

theorem memoryAssigned_max_memory (other : List Char → Option Int) (rest : List Char) :
    memoryAssigned other ("Max memory:".toList ++ rest)
      = match fields rest with
        | [] => none
        | tok :: _ => memoryMB other tok := by
  unfold memoryAssigned
  rw [infoEntry_max_memory]
  simp only [if_true, fields_trimSpace]
  unfold fields
  rw [fieldsGo_rdropWhile]

theorem fields_space_token (ds rest : List Char) (hds : ds ≠ [])
    (h : ∀ c ∈ ds, isSpace c = false) :
    fields (' ' :: (ds ++ ' ' :: rest)) = ds :: fields rest := by
  unfold fields
  have h0 : fieldsGo [] (' ' :: (ds ++ ' ' :: rest)) = fieldsGo [] (ds ++ ' ' :: rest) := by
    simp [fieldsGo, show isSpace ' ' = true by decide]
  rw [h0, fieldsGo_token [] ds _ h]
  simp [fieldsGo, show isSpace ' ' = true by decide, hds]

theorem signedDecimal_digits (ds : List Char) (n : Nat) (hds : ds ≠ [])
    (hn : decValue 0 ds = some n) : signedDecimal ds = some (false, n) := by
  cases ds with
  | nil => exact absurd rfl hds
  | cons c cs =>
    have hdig : ∃ d, digitVal c = some d := by
      unfold decValue at hn
      cases hd : digitVal c with
      | none => rw [hd] at hn; simp at hn
      | some d => exact ⟨d, rfl⟩
    obtain ⟨d, hd⟩ := hdig
    have hm : c ≠ '-' := by
      rintro rfl
      simp [digitVal] at hd
    have hp : c ≠ '+' := by
      rintro rfl
      simp [digitVal] at hd
    simp only [signedDecimal, if_neg hm, if_neg hp, hn]
    rfl

/-- The memory assigned by a line `Max memory: <n> <unit>`. -/
theorem memoryAssigned_line (other : List Char → Option Int) (ds unit : List Char) (n : Nat)
    (hds : ds ≠ []) (hn : decValue 0 ds = some n) (hlt : n < 2 ^ 53) :
    memoryAssigned other ("Max memory: ".toList ++ ds ++ ' ' :: unit)
      = some ((n / 1024 : Nat) : Int) := by
  have e : "Max memory: ".toList ++ ds ++ ' ' :: unit
      = "Max memory:".toList ++ (' ' :: (ds ++ ' ' :: unit)) := by
    simp
  rw [e, memoryAssigned_max_memory,
    fields_space_token ds unit hds (decValue_not_space ds 0 n hn)]
  simp only
  unfold memoryMB
  rw [signedDecimal_digits ds n hds hn]
  simp only [if_pos hlt]
  simp

/-! ## Claims on the text parsers -/

/-- C7. A listing with fewer than three lines (as the parser splits it, after
trimming, and so also every text that has fewer than three lines before trimming)
gives the empty record set and no error. -/
theorem parseVirshList_header_only (output : String) :
    ((splitLines (trimSpace output.toList)).length < 3 → parseVirshList output = ([], none))
    ∧ ((splitLines output.toList).length < 3 → parseVirshList output = ([], none)) := by
  have key : (splitLines (trimSpace output.toList)).length < 3 →
      parseVirshList output = ([], none) := by
    intro h
    unfold parseVirshList
    simp only
    rw [if_pos h]
  exact ⟨key, fun h => key (lt_of_le_of_lt (length_splitLines_trimSpace_le _) h)⟩

/-- C7 at the listing that consists of the two header lines. -/
theorem parseVirshList_header_only_witness :
    (splitLines headerListing.toList).length < 3 ∧ parseVirshList headerListing = ([], none) :=
  ⟨by decide, (parseVirshList_header_only headerListing).2 (by decide)⟩

/-- C8. For every row of the listing (a line after the first two) with at least
three fields, the record parsed from it is in the result; its name is the second
field and its status is the fields after the name joined by single spaces.  The
fields `-`, `stopped-vm`, `shut`, `off` give the name `stopped-vm` and the status
`shut off`. -/
theorem parseVirshList_row_status (output : String) (row : List Char)
    (hrow : row ∈ (splitLines (trimSpace output.toList)).drop 2)
    (hfields : 3 ≤ (fields row).length) :
    rowVM (fields row) ∈ (parseVirshList output).1
    ∧ (rowVM (fields row)).Name = String.mk ((fields row).getD 1 [])
    ∧ (rowVM (fields row)).Status = String.mk (joinSpace ((fields row).drop 2))
    ∧ (fields row = ["-".toList, "stopped-vm".toList, "shut".toList, "off".toList] →
        (rowVM (fields row)).Name = "stopped-vm" ∧ (rowVM (fields row)).Status = "shut off") := by
  refine ⟨?_, rfl, rfl, ?_⟩
  · rw [parseVirshList_eq]
    simp only [List.mem_map, List.mem_filter, decide_eq_true_eq]
    exact ⟨row, ⟨hrow, hfields⟩, rfl⟩
  · intro h
    rw [h]
    decide

/-- C8 at the row of the stopped machine in the sample listing. -/
theorem parseVirshList_row_status_witness :
    " -    stopped-vm   shut off".toList ∈ (splitLines (trimSpace sampleListing.toList)).drop 2
    ∧ 3 ≤ (fields " -    stopped-vm   shut off".toList).length
    ∧ rowVM (fields " -    stopped-vm   shut off".toList) ∈ (parseVirshList sampleListing).1
    ∧ (rowVM (fields " -    stopped-vm   shut off".toList)).Status = "shut off" :=
  ⟨by decide, by decide,
   (parseVirshList_row_status sampleListing " -    stopped-vm   shut off".toList
      (by decide) (by decide)).1,
   by decide⟩

/-- C9. `parseVirshList` returns no error and, in the order of the input, exactly
one record for each line after the first two (of the listing as the parser splits
it, after trimming) that has at least three fields; the name of a record is the
second field of its line.  Lines with fewer fields contribute nothing. -/
theorem parseVirshList_records (output : String) :
    parseVirshList output
      = ((((splitLines (trimSpace output.toList)).drop 2).filter
            (fun l => decide (3 ≤ (fields l).length))).map (fun l => rowVM (fields l)), none)
    ∧ ∀ l : List Char, (rowVM (fields l)).Name = String.mk ((fields l).getD 1 []) :=
  ⟨parseVirshList_eq output, fun _ => rfl⟩

/-- C10 fails as stated: a detail block that contains the line
`Max memory: 2097152 KiB` followed by a second `Max memory` line yields the memory
of the second line, 1, not 2048. -/
theorem parseDomInfo_later_memory_line_wins :
    "Max memory: 2097152 KiB".toList ∈ splitLines twoMemoryLines.toList
    ∧ (parseDomInfo (fun _ => none) "vm" twoMemoryLines).Memory = 1 := by
  decide

/-- C10, amended. For a detail block with a line `Max memory: <n> <unit>`, where
`n` is a non-empty string of decimal digits with value below `2^53`, after which
no line assigns the memory again, the parsed memory is `n / 1024` rounded down,
whatever the text `unit` is; for `n = 2097152` it is 2048. -/
theorem parseDomInfo_max_memory (other : List Char → Option Int) (vmName output : String)
    (pre post : List (List Char)) (ds unit : List Char) (n : Nat)
    (hlines : splitLines output.toList
      = pre ++ ("Max memory: ".toList ++ ds ++ ' ' :: unit) :: post)
    (hds : ds ≠ []) (hn : decValue 0 ds = some n) (hlt : n < 2 ^ 53)
    (hlast : ∀ l ∈ post, memoryAssigned other l = none) :
    (parseDomInfo other vmName output).Memory = ((n / 1024 : Nat) : Int)
    ∧ (ds = "2097152".toList → (parseDomInfo other vmName output).Memory = 2048) := by
  have hmem : (parseDomInfo other vmName output).Memory = ((n / 1024 : Nat) : Int) := by
    unfold parseDomInfo
    rw [hlines, List.foldl_append, List.foldl_cons,
      foldl_applyInfoLine_Memory other _ post hlast, applyInfoLine_Memory,
      memoryAssigned_line other ds unit n hds hn hlt]
    rfl
  refine ⟨hmem, ?_⟩
  intro h
  subst h
  have hv : decValue 0 "2097152".toList = some 2097152 := by decide
  rw [hv] at hn
  cases hn
  rw [hmem]
  rfl

/-- C10 amended, at the sample detail block, whose only `Max memory` line is
`Max memory: 2097152 KiB`. -/
theorem parseDomInfo_max_memory_witness :
    splitLines sampleDomInfo.toList
      = ["Name: test-vm".toList, "State: running".toList, "CPU(s): 2".toList]
        ++ ("Max memory: ".toList ++ "2097152".toList ++ ' ' :: "KiB".toList)
          :: ["Used memory: 2097152 KiB".toList]
    ∧ (parseDomInfo (fun _ => none) "test-vm" sampleDomInfo).Memory = 2048 :=
  ⟨by decide,
   (parseDomInfo_max_memory (fun _ => none) "test-vm" sampleDomInfo
      ["Name: test-vm".toList, "State: running".toList, "CPU(s): 2".toList]
      ["Used memory: 2097152 KiB".toList] "2097152".toList "KiB".toList 2097152
      (by decide) (by decide) (by decide) (by decide) (by decide)).2 rfl⟩

/-! ## Lemmas on the detail parser -/

/-- One iteration of the line loop changes at most `Status`, `CPU` and `Memory`,
each to the value the line assigns if it assigns one. -/
theorem applyInfoLine_eq (other : List Char → Option Int) (vm : VM) (raw : List Char) :
    applyInfoLine other vm raw
      = { vm with
          Status := (statusAssigned raw).getD vm.Status
          CPU := (cpuAssigned raw).getD vm.CPU
          Memory := (memoryAssigned other raw).getD vm.Memory } := by
  unfold applyInfoLine statusAssigned cpuAssigned memoryAssigned
  cases infoEntry raw with
  | none => rfl
  | some kv =>
    obtain ⟨key, value⟩ := kv
    simp only
    by_cases h1 : key = "State".toList
    · subst h1
      rw [if_pos rfl, if_pos rfl, if_neg (by decide), if_neg (by decide)]
      rfl
    · rw [if_neg h1, if_neg h1]
      by_cases h2 : key = "CPU(s)".toList
      · subst h2
        rw [if_pos rfl, if_pos rfl, if_neg (by decide)]
        cases Atoi value <;> rfl
      · rw [if_neg h2, if_neg h2]
        by_cases h3 : key = "Max memory".toList
        · rw [if_pos h3, if_pos h3]
          cases fields value with
          | nil => rfl
          | cons tok rest =>
            simp only
            cases memoryMB other tok <;> rfl
        · rw [if_neg h3, if_neg h3]
          rfl

/-- The fold of the line loop, field by field. -/
theorem foldl_applyInfoLine_eq (other : List Char → Option Int) (vm : VM)
    (lines : List (List Char)) :
    lines.foldl (applyInfoLine other) vm
      = { vm with
          Status := lines.foldl (fun acc l => (statusAssigned l).getD acc) vm.Status
          CPU := lines.foldl (fun acc l => (cpuAssigned l).getD acc) vm.CPU
          Memory := lines.foldl (fun acc l => (memoryAssigned other l).getD acc) vm.Memory } := by
  induction lines generalizing vm with
  | nil => rfl
  | cons l tl ih =>
    simp only [List.foldl_cons]
    rw [ih, applyInfoLine_eq]

theorem foldl_getD_none {α β : Type} (f : α → Option β) (d : β) (xs : List α)
    (h : ∀ x ∈ xs, f x = none) : xs.foldl (fun acc x => (f x).getD acc) d = d := by
  induction xs generalizing d with
  | nil => rfl
  | cons x tl ih =>
    simp only [List.foldl_cons]
    rw [h x (List.mem_cons_self _ _)]
    exact ih d (fun y hy => h y (List.mem_cons_of_mem _ hy))

/-- When all the values assigned along a list agree with `v`, the fold ends in `v`
as soon as some element assigns. -/
theorem foldl_getD_agree {α β : Type} (f : α → Option β) (d v : β) (xs : List α)
    (hall : ∀ x ∈ xs, ∀ b, f x = some b → b = v) (hex : ∃ x ∈ xs, ∃ b, f x = some b) :
    xs.foldl (fun acc x => (f x).getD acc) d = v := by
  induction xs generalizing d with
  | nil =>
    obtain ⟨x, hx, _⟩ := hex
    cases hx
  | cons x tl ih =>
    simp only [List.foldl_cons]
    have hall2 : ∀ y ∈ tl, ∀ b, f y = some b → b = v :=
      fun y hy => hall y (List.mem_cons_of_mem _ hy)
    by_cases htl : ∃ y ∈ tl, ∃ b, f y = some b
    · exact ih _ hall2 htl
    · have hnone : ∀ y ∈ tl, f y = none := by
        intro y hy
        cases hfy : f y with
        | none => rfl
        | some b => exact absurd ⟨y, hy, b, hfy⟩ htl
      rw [foldl_getD_none f _ tl hnone]
      obtain ⟨y, hy, b, hb⟩ := hex
      rcases List.mem_cons.mp hy with rfl | hy
      · rw [hb]
        exact hall y (List.mem_cons_self _ _) b hb
      · exact absurd ⟨y, hy, b, hb⟩ htl

/-- The fold of assignments does not depend on the order of the list when any two
assigned values are equal. -/
theorem foldl_getD_perm {α β : Type} (f : α → Option β) (d : β) (xs ys : List α)
    (hp : xs.Perm ys)
    (hagree : ∀ x ∈ xs, ∀ y ∈ xs, ∀ a b, f x = some a → f y = some b → a = b) :
    xs.foldl (fun acc x => (f x).getD acc) d = ys.foldl (fun acc x => (f x).getD acc) d := by
  by_cases hex : ∃ x ∈ xs, ∃ b, f x = some b
  · obtain ⟨x, hx, v, hv⟩ := hex
    have h1 : ∀ y ∈ xs, ∀ b, f y = some b → b = v :=
      fun y hy b hb => hagree y hy x hx b v hb hv
    have h2 : ∀ y ∈ ys, ∀ b, f y = some b → b = v :=
      fun y hy b hb => h1 y (hp.mem_iff.mpr hy) b hb
    rw [foldl_getD_agree f d v xs h1 ⟨x, hx, v, hv⟩,
      foldl_getD_agree f d v ys h2 ⟨x, hp.mem_iff.mp hx, v, hv⟩]
  · have h1 : ∀ y ∈ xs, f y = none := by
      intro y hy
      cases hfy : f y with
      | none => rfl
      | some b => exact absurd ⟨y, hy, b, hfy⟩ hex
    have h2 : ∀ y ∈ ys, f y = none := fun y hy => h1 y (hp.mem_iff.mpr hy)
    rw [foldl_getD_none f d xs h1, foldl_getD_none f d ys h2]

theorem foldl_getD_invariant {α β : Type} (P : β → Prop) (f : α → Option β) (d : β)
    (xs : List α) (hd : P d) (h : ∀ x ∈ xs, ∀ b, f x = some b → P b) :
    P (xs.foldl (fun acc x => (f x).getD acc) d) := by
  induction xs generalizing d with
  | nil => exact hd
  | cons x tl ih =>
    simp only [List.foldl_cons]
    apply ih
    · cases hfx : f x with
      | none => exact hd
      | some b => exact h x (List.mem_cons_self _ _) b hfx
    · exact fun y hy => h y (List.mem_cons_of_mem _ hy)

theorem foldl_filter_noop {α β : Type} (g : β → α → β) (p : α → Bool) (a : β) (xs : List α)
    (h : ∀ x ∈ xs, p x = false → ∀ acc, g acc x = acc) :
    (xs.filter p).foldl g a = xs.foldl g a := by
  induction xs generalizing a with
  | nil => rfl
  | cons x tl ih =>
    have htl : ∀ y ∈ tl, p y = false → ∀ acc, g acc y = acc :=
      fun y hy => h y (List.mem_cons_of_mem _ hy)
    cases hp : p x with
    | true =>
      rw [List.filter_cons_of_pos hp]
      simp only [List.foldl_cons]
      exact ih _ htl
    | false =>
      rw [List.filter_cons_of_neg (by simp [hp])]
      simp only [List.foldl_cons]
      rw [h x (List.mem_cons_self _ _) hp a]
      exact ih _ htl

theorem parseDomInfo_eq (other : List Char → Option Int) (vmName output : String) :
    parseDomInfo other vmName output
      = { Name := vmName
          Status := (splitLines output.toList).foldl
            (fun acc l => (statusAssigned l).getD acc) ""
          CPU := (splitLines output.toList).foldl (fun acc l => (cpuAssigned l).getD acc) 0
          Memory := (splitLines output.toList).foldl
            (fun acc l => (memoryAssigned other l).getD acc) 0 } := by
  unfold parseDomInfo
  rw [foldl_applyInfoLine_eq]

/-- When the detail command succeeds, `getVMInfo` returns the parsed record, with
some text in the address field. -/
theorem getVMInfo_ok (other : List Char → Option Int) (sh : Nat → Except String String)
    (log : List String) (vmName output : String) (h : sh log.length = .ok output) :
    ∃ ip, (getVMInfo other sh log vmName).1
      = .ok { parseDomInfo other vmName output with IPAddress := ip } := by
  unfold getVMInfo ExecuteCommand
  simp only [h]
  cases hip : (getVMIPAddress sh (log ++ ["/usr/local/bin/virsh dominfo " ++ vmName])
      vmName).1 with
  | error e =>
    refine ⟨"", ?_⟩
    have : (parseDomInfo other vmName output).IPAddress = "" := by
      rw [parseDomInfo_eq]
    rcases hq : getVMIPAddress sh (log ++ ["/usr/local/bin/virsh dominfo " ++ vmName])
      vmName with ⟨r, l2⟩
    rw [hq] at hip
    simp only at hip
    subst hip
    simp only
    rw [parseDomInfo_eq]
  | ok ip =>
    refine ⟨ip, ?_⟩
    rcases hq : getVMIPAddress sh (log ++ ["/usr/local/bin/virsh dominfo " ++ vmName])
      vmName with ⟨r, l2⟩
    rw [hq] at hip
    simp only at hip
    subst hip
    rfl

theorem cpuAssigned_eq_none_of (raw : List Char)
    (h : ∀ key value, infoEntry raw = some (key, value) → key = "CPU(s)".toList →
      Atoi value = none) : cpuAssigned raw = none := by
  unfold cpuAssigned
  cases he : infoEntry raw with
  | none => rfl
  | some kv =>
    obtain ⟨key, value⟩ := kv
    simp only
    by_cases hk : key = "CPU(s)".toList
    · rw [if_pos hk]
      exact h key value he hk
    · rw [if_neg hk]

theorem applyInfoLine_cpu_line_noop (other : List Char → Option Int) (vm : VM)
    (raw : List Char) (hkey : infoKey raw = some "CPU(s)".toList)
    (hcpu : cpuAssigned raw = none) : applyInfoLine other vm raw = vm := by
  rw [applyInfoLine_eq, hcpu]
  unfold infoKey at hkey
  unfold statusAssigned memoryAssigned
  cases he : infoEntry raw with
  | none => rfl
  | some kv =>
    obtain ⟨key, value⟩ := kv
    rw [he] at hkey
    simp only [Option.map_some', Option.some.injEq] at hkey
    subst hkey
    simp only
    rw [if_neg (by decide), if_neg (by decide)]
    rfl

/-- When at most one element of a list assigns, any two assigned values are equal. -/
theorem agree_of_filterMap_length_le_one {α β : Type} (f : α → Option β) (xs : List α)
    (h : (xs.filterMap f).length ≤ 1) :
    ∀ x ∈ xs, ∀ y ∈ xs, ∀ a b, f x = some a → f y = some b → a = b := by
  intro x hx y hy a b ha hb
  have hma : a ∈ xs.filterMap f := List.mem_filterMap.mpr ⟨x, hx, ha⟩
  have hmb : b ∈ xs.filterMap f := List.mem_filterMap.mpr ⟨y, hy, hb⟩
  cases hl : xs.filterMap f with
  | nil => rw [hl] at hma; cases hma
  | cons c tl =>
    rw [hl] at h hma hmb
    cases tl with
    | nil =>
      rw [List.mem_singleton] at hma hmb
      rw [hma, hmb]
    | cons c2 tl2 =>
      simp at h

theorem splitColon_eq_none_iff (l : List Char) : splitColon l = none ↔ ':' ∉ l := by
  induction l with
  | nil => simp [splitColon]
  | cons c cs ih =>
    unfold splitColon
    by_cases hc : c = ':'
    · subst hc
      simp
    · rw [if_neg hc]
      cases hs : splitColon cs with
      | none =>
        rw [hs] at ih
        have := ih.mp rfl
        simp [this, Ne.symm hc]
      | some kv =>
        obtain ⟨k, v⟩ := kv
        rw [hs] at ih
        have hmem : ':' ∈ cs := by
          by_contra hn
          have := ih.mpr hn
          cases this
        simp [hmem]

/-- The two parts of a split at the first colon. -/
theorem splitColon_some (l k v : List Char) (h : splitColon l = some (k, v)) :
    l = k ++ ':' :: v ∧ ':' ∉ k := by
  induction l generalizing k with
  | nil => simp [splitColon] at h
  | cons c cs ih =>
    unfold splitColon at h
    by_cases hc : c = ':'
    · subst hc
      rw [if_pos rfl] at h
      cases h
      simp
    · rw [if_neg hc] at h
      cases hs : splitColon cs with
      | none => rw [hs] at h; cases h
      | some kv =>
        obtain ⟨k2, v2⟩ := kv
        rw [hs] at h
        cases h
        obtain ⟨h1, h2⟩ := ih k2 hs
        refine ⟨by rw [h1]; simp, ?_⟩
        simp [h2, Ne.symm hc]

theorem splitColon_append (k v : List Char) (hk : ':' ∉ k) :
    splitColon (k ++ ':' :: v) = some (k, v) := by
  induction k with
  | nil => simp [splitColon]
  | cons c cs ih =>
    have hc : c ≠ ':' := fun h => hk (by simp [h])
    have hcs : ':' ∉ cs := fun h => hk (List.mem_cons_of_mem _ h)
    simp only [List.cons_append]
    unfold splitColon
    rw [if_neg hc, ih hcs]

theorem dropWhile_isSpace_append_colon (k v : List Char) (hk : ':' ∉ k) :
    (k ++ ':' :: v).dropWhile isSpace = k.dropWhile isSpace ++ ':' :: v := by
  induction k with
  | nil =>
    simp only [List.nil_append, List.dropWhile_nil]
    rw [List.dropWhile_cons_of_neg (by decide)]
  | cons c cs ih =>
    have hcs : ':' ∉ cs := fun h => hk (List.mem_cons_of_mem _ h)
    simp only [List.cons_append]
    by_cases hc : isSpace c
    · rw [List.dropWhile_cons_of_pos hc, List.dropWhile_cons_of_pos hc, ih hcs]
    · rw [List.dropWhile_cons_of_neg hc, List.dropWhile_cons_of_neg hc]
      simp

theorem dropWhile_isSpace_eq_nil_of_rdropWhile (cs : List Char)
    (h : List.rdropWhile isSpace cs = []) : cs.dropWhile isSpace = [] := by
  rw [List.rdropWhile_eq_nil_iff] at h
  rw [List.dropWhile_eq_nil_iff]
  exact h

theorem trimSpace_cons_of_not (c : Char) (cs : List Char) (hc : ¬ isSpace c = true) :
    trimSpace (c :: cs) = List.rdropWhile isSpace (c :: cs) := by
  unfold trimSpace
  rw [List.dropWhile_cons_of_neg hc]

theorem trimSpace_cons_of_pos (c : Char) (cs : List Char) (hc : isSpace c = true) :
    trimSpace (c :: cs) = trimSpace cs := by
  unfold trimSpace
  rw [List.dropWhile_cons_of_pos hc]

theorem trimSpace_rdropWhile (v : List Char) :
    trimSpace (List.rdropWhile isSpace v) = trimSpace v := by
  induction v with
  | nil => simp
  | cons c cs ih =>
    rw [rdropWhile_cons]
    by_cases hnil : List.rdropWhile isSpace cs = []
    · rw [if_pos hnil]
      by_cases hc : isSpace c = true
      · rw [if_pos hc, trimSpace_cons_of_pos c cs hc]
        unfold trimSpace
        rw [dropWhile_isSpace_eq_nil_of_rdropWhile cs hnil]
        rfl
      · rw [if_neg hc, trimSpace_cons_of_not c cs hc, trimSpace_cons_of_not c [] hc,
          rdropWhile_cons, rdropWhile_cons, hnil]
        simp
    · rw [if_neg hnil]
      by_cases hc : isSpace c = true
      · rw [trimSpace_cons_of_pos c _ hc, trimSpace_cons_of_pos c cs hc, ih]
      · rw [trimSpace_cons_of_not c _ hc, trimSpace_cons_of_not c cs hc, rdropWhile_cons,
          rdropWhile_cons, List.rdropWhile_idempotent, if_neg hnil]

theorem trimSpace_dropWhile (k : List Char) :
    trimSpace (k.dropWhile isSpace) = trimSpace k := by
  unfold trimSpace
  rw [List.dropWhile_idempotent]

/-- The entry the line loop reads from a line, in terms of the line itself: a line
without colon is skipped; otherwise the key is the trimmed text before the first
colon and the value the trimmed text after it. -/
theorem infoEntry_eq (raw : List Char) :
    infoEntry raw = (splitColon raw).map (fun kv => (trimSpace kv.1, trimSpace kv.2)) := by
  cases hs : splitColon raw with
  | none =>
    have hno : ':' ∉ raw := (splitColon_eq_none_iff raw).mp hs
    have hno2 : ':' ∉ trimSpace raw := by
      intro h
      unfold trimSpace at h
      exact hno ((List.dropWhile_sublist isSpace).subset
        ((List.rdropWhile_prefix isSpace _).sublist.subset h))
    unfold infoEntry
    simp only [Option.map_none']
    by_cases hnil : trimSpace raw = []
    · rw [if_pos hnil]
    · rw [if_neg hnil, (splitColon_eq_none_iff _).mpr hno2]
  | some kv =>
    obtain ⟨k, v⟩ := kv
    obtain ⟨hraw, hk⟩ := splitColon_some raw k v hs
    have hk2 : ':' ∉ k.dropWhile isSpace :=
      fun h => hk ((List.dropWhile_sublist isSpace).subset h)
    have htrim : trimSpace raw
        = k.dropWhile isSpace ++ ':' :: List.rdropWhile isSpace v := by
      unfold trimSpace
      rw [hraw, dropWhile_isSpace_append_colon k v hk,
        rdropWhile_append_cons isSpace _ ':' v (by decide)]
    unfold infoEntry
    simp only [Option.map_some']
    rw [htrim, if_neg (by simp), splitColon_append _ _ hk2]
    simp only [trimSpace_dropWhile, trimSpace_rdropWhile]

theorem fieldsGo_ne_nil (cur s : List Char) : ∀ f ∈ fieldsGo cur s, f ≠ [] := by
  induction s generalizing cur with
  | nil =>
    intro f hf
    unfold fieldsGo at hf
    by_cases hc : cur = []
    · rw [if_pos hc] at hf
      cases hf
    · rw [if_neg hc, List.mem_singleton] at hf
      rw [hf]
      exact hc
  | cons c cs ih =>
    intro f hf
    unfold fieldsGo at hf
    by_cases hsp : isSpace c = true
    · rw [if_pos hsp] at hf
      by_cases hc : cur = []
      · rw [if_pos hc] at hf
        exact ih [] f hf
      · rw [if_neg hc] at hf
        rcases List.mem_cons.mp hf with h | h
        · rw [h]
          exact hc
        · exact ih [] f h
    · rw [if_neg hsp] at hf
      exact ih _ f hf

/-- Every field returned by `strings.Fields` is non-empty. -/
theorem fields_ne_nil (s : List Char) : ∀ f ∈ fields s, f ≠ [] :=
  fieldsGo_ne_nil [] s

theorem Atoi_nonneg (value : List Char) (m : Int) (h : Atoi value = some m)
    (hsign : value.head? ≠ some '-') : 0 ≤ m := by
  unfold Atoi at h
  cases hs : signedDecimal value with
  | none => rw [hs] at h; cases h
  | some sn =>
    obtain ⟨neg, n⟩ := sn
    rw [hs] at h
    have hneg : neg = false := by
      unfold signedDecimal at hs
      cases value with
      | nil => cases hs
      | cons c cs =>
        have hc : c ≠ '-' := fun hc => hsign (by simp [hc])
        simp only [if_neg hc] at hs
        by_cases hp : c = '+'
        · simp only [if_pos hp] at hs
          by_cases hcs : cs = []
          · simp [hcs] at hs
          · simp only [if_neg hcs] at hs
            cases hd : decValue 0 cs with
            | none => rw [hd] at hs; cases hs
            | some n2 =>
              rw [hd] at hs
              simp only [Option.map_some', Option.some.injEq, Prod.mk.injEq] at hs
              exact hs.1.symm
        · simp only [if_neg hp] at hs
          cases hd : decValue 0 (c :: cs) with
          | none => rw [hd] at hs; cases hs
          | some n2 =>
            rw [hd] at hs
            simp only [Option.map_some', Option.some.injEq, Prod.mk.injEq] at hs
            exact hs.1.symm
    subst hneg
    simp only [Bool.false_eq_true, if_false] at h
    split_ifs at h with hr
    cases h
    exact Int.ofNat_nonneg n

theorem memoryMB_digits (other : List Char → Option Int) (tok : List Char) (n : Nat)
    (htok : tok ≠ []) (hn : decValue 0 tok = some n) (hlt : n < 2 ^ 53) :
    memoryMB other tok = some ((n / 1024 : Nat) : Int) := by
  unfold memoryMB
  rw [signedDecimal_digits tok n htok hn]
  simp only [if_pos hlt]
  simp

/-! ## Claims on the detail parser -/

/-- C11 fails as stated: in a detail block with a well-formed `CPU(s)` line and a
second `CPU(s)` line with an unparsable value, the CPU field is 4, not 0. -/
theorem parseDomInfo_unparsable_cpu_after_parsable :
    "CPU(s): two".toList ∈ splitLines twoCpuLines.toList
    ∧ infoEntry "CPU(s): two".toList = some ("CPU(s)".toList, "two".toList)
    ∧ Atoi "two".toList = none
    ∧ (parseDomInfo (fun _ => none) "vm" twoCpuLines).CPU = 4 := by
  decide

/-- C11, amended. For a detail block in which the value of every `CPU(s)` line is
rejected by `strconv.Atoi`, the CPU field is 0, the parsed record is the one
parsed from the block without its `CPU(s)` lines, and `GetVMStatus` returns a
record with these fields whenever the detail command produced the block. -/
theorem parseDomInfo_unparsable_cpu (other : List Char → Option Int)
    (vmName output : String)
    (hcpu : ∀ l ∈ splitLines output.toList, ∀ key value,
      infoEntry l = some (key, value) → key = "CPU(s)".toList → Atoi value = none) :
    (parseDomInfo other vmName output).CPU = 0
    ∧ parseDomInfo other vmName output
        = ((splitLines output.toList).filter
            (fun l => decide (infoKey l ≠ some "CPU(s)".toList))).foldl
            (applyInfoLine other) { Name := vmName }
    ∧ ∀ (sh : Nat → Except String String) (log : List String),
        sh log.length = .ok output →
        ∃ vm, (GetVMStatus other sh log vmName).1 = .ok vm ∧ vm.CPU = 0
          ∧ vm.Name = vmName
          ∧ vm.Status = (parseDomInfo other vmName output).Status
          ∧ vm.Memory = (parseDomInfo other vmName output).Memory := by
  have hnone : ∀ l ∈ splitLines output.toList, cpuAssigned l = none :=
    fun l hl => cpuAssigned_eq_none_of l (hcpu l hl)
  have h0 : (parseDomInfo other vmName output).CPU = 0 := by
    rw [parseDomInfo_eq]
    exact foldl_getD_none cpuAssigned 0 _ hnone
  refine ⟨h0, ?_, ?_⟩
  · unfold parseDomInfo
    rw [foldl_filter_noop]
    intro l hl hp acc
    have hk : infoKey l = some "CPU(s)".toList := by
      simpa using hp
    exact applyInfoLine_cpu_line_noop other acc l hk (hnone l hl)
  · intro sh log hsh
    obtain ⟨ip, hip⟩ := getVMInfo_ok other sh log vmName output hsh
    refine ⟨_, hip, h0, ?_, rfl, rfl⟩
    rw [parseDomInfo_eq]

/-- C11 amended, at a block whose only `CPU(s)` line reads `CPU(s): two`. -/
theorem parseDomInfo_unparsable_cpu_witness :
    (∀ l ∈ splitLines badCpuDomInfo.toList, ∀ key value,
      infoEntry l = some (key, value) → key = "CPU(s)".toList → Atoi value = none)
    ∧ (parseDomInfo (fun _ => none) "vm" badCpuDomInfo).CPU = 0 :=
  have h : ∀ l ∈ splitLines badCpuDomInfo.toList, ∀ key value,
      infoEntry l = some (key, value) → key = "CPU(s)".toList → Atoi value = none := by
    intro l hl key value he hk
    have hl2 : l = "State: running".toList ∨ l = "CPU(s): two".toList
        ∨ l = "Max memory: 2097152 KiB".toList := by
      have : splitLines badCpuDomInfo.toList
          = ["State: running".toList, "CPU(s): two".toList,
              "Max memory: 2097152 KiB".toList] := by decide
      rw [this] at hl
      simpa using hl
    rcases hl2 with rfl | rfl | rfl
    · have : infoEntry "State: running".toList = some ("State".toList, "running".toList) := by
        decide
      rw [this] at he
      cases he
      exact absurd hk (by decide)
    · have : infoEntry "CPU(s): two".toList = some ("CPU(s)".toList, "two".toList) := by
        decide
      rw [this] at he
      cases he
      decide
    · have : infoEntry "Max memory: 2097152 KiB".toList
          = some ("Max memory".toList, "2097152 KiB".toList) := by decide
      rw [this] at he
      cases he
      exact absurd hk (by decide)
  ⟨h, (parseDomInfo_unparsable_cpu (fun _ => none) "vm" badCpuDomInfo h).1⟩

/-- C12 fails as stated: exchanging the two `State` lines of a block changes the
parsed status. -/
theorem parseDomInfo_order_matters :
    (splitLines twoStatesSwapped.toList).Perm (splitLines twoStates.toList)
    ∧ (parseDomInfo (fun _ => none) "vm" twoStates).Status = "paused"
    ∧ (parseDomInfo (fun _ => none) "vm" twoStatesSwapped).Status = "running" := by
  refine ⟨?_, by decide, by decide⟩
  have h1 : splitLines twoStatesSwapped.toList
      = ["State: paused".toList, "State: running".toList] := by decide
  have h2 : splitLines twoStates.toList
      = ["State: running".toList, "State: paused".toList] := by decide
  rw [h1, h2]
  exact List.Perm.swap _ _ _

/-- C12, amended. For a detail block in which any two lines that assign the
status assign the same status, and likewise for the CPU count and for the memory
(in particular when each of the keys `State`, `CPU(s)` and `Max memory` occurs at
most once), every permutation of the lines yields the same record. -/
theorem parseDomInfo_perm (other : List Char → Option Int) (vmName o1 o2 : String)
    (hp : (splitLines o1.toList).Perm (splitLines o2.toList))
    (hS : ∀ x ∈ splitLines o1.toList, ∀ y ∈ splitLines o1.toList, ∀ a b,
      statusAssigned x = some a → statusAssigned y = some b → a = b)
    (hC : ∀ x ∈ splitLines o1.toList, ∀ y ∈ splitLines o1.toList, ∀ a b,
      cpuAssigned x = some a → cpuAssigned y = some b → a = b)
    (hM : ∀ x ∈ splitLines o1.toList, ∀ y ∈ splitLines o1.toList, ∀ a b,
      memoryAssigned other x = some a → memoryAssigned other y = some b → a = b) :
    parseDomInfo other vmName o1 = parseDomInfo other vmName o2 := by
  rw [parseDomInfo_eq, parseDomInfo_eq,
    foldl_getD_perm statusAssigned "" _ _ hp hS,
    foldl_getD_perm cpuAssigned 0 _ _ hp hC,
    foldl_getD_perm (memoryAssigned other) 0 _ _ hp hM]

/-- C12 amended, at the sample block and the same lines in reverse order. -/
theorem parseDomInfo_perm_witness :
    (splitLines sampleDomInfo.toList).Perm (splitLines sampleDomInfoReversed.toList)
    ∧ parseDomInfo (fun _ => none) "test-vm" sampleDomInfo
        = parseDomInfo (fun _ => none) "test-vm" sampleDomInfoReversed :=
  have hp : (splitLines sampleDomInfo.toList).Perm (splitLines sampleDomInfoReversed.toList) := by
    have h : splitLines sampleDomInfoReversed.toList
        = (splitLines sampleDomInfo.toList).reverse := by decide
    rw [h]
    exact (List.reverse_perm _).symm
  ⟨hp,
   parseDomInfo_perm (fun _ => none) "test-vm" sampleDomInfo sampleDomInfoReversed hp
     (agree_of_filterMap_length_le_one statusAssigned _ (by decide))
     (agree_of_filterMap_length_le_one cpuAssigned _ (by decide))
     (agree_of_filterMap_length_le_one (memoryAssigned (fun _ => none)) _ (by decide))⟩

/-- C13. Inserting into a detail block, at any position, a line without colon or
a line whose key (the trimmed text before its first colon) is none of `State`,
`CPU(s)` and `Max memory` leaves the parsed record unchanged. -/
theorem parseDomInfo_ignores_unrecognized (other : List Char → Option Int)
    (vmName o1 o2 : String) (pre post : List (List Char)) (l : List Char)
    (h1 : splitLines o1.toList = pre ++ post)
    (h2 : splitLines o2.toList = pre ++ l :: post)
    (hkey : ∀ k v, splitColon l = some (k, v) →
      trimSpace k ≠ "State".toList ∧ trimSpace k ≠ "CPU(s)".toList
        ∧ trimSpace k ≠ "Max memory".toList) :
    parseDomInfo other vmName o2 = parseDomInfo other vmName o1 := by
  have hnoop : ∀ vm, applyInfoLine other vm l = vm := by
    intro vm
    unfold applyInfoLine
    rw [infoEntry_eq]
    cases hs : splitColon l with
    | none => rfl
    | some kv =>
      obtain ⟨k, v⟩ := kv
      obtain ⟨ha, hb, hc⟩ := hkey k v hs
      simp only [Option.map_some']
      rw [if_neg ha, if_neg hb, if_neg hc]
  unfold parseDomInfo
  rw [h1, h2, List.foldl_append, List.foldl_append, List.foldl_cons, hnoop]

/-- C13 at the sample block with the line `Autostart: disable` inserted. -/
theorem parseDomInfo_ignores_unrecognized_witness :
    splitLines sampleDomInfo.toList
      = ["Name: test-vm".toList, "State: running".toList]
        ++ ["CPU(s): 2".toList, "Max memory: 2097152 KiB".toList,
            "Used memory: 2097152 KiB".toList]
    ∧ splitLines sampleDomInfoExtra.toList
      = ["Name: test-vm".toList, "State: running".toList]
        ++ "Autostart: disable".toList
          :: ["CPU(s): 2".toList, "Max memory: 2097152 KiB".toList,
              "Used memory: 2097152 KiB".toList]
    ∧ parseDomInfo (fun _ => none) "test-vm" sampleDomInfoExtra
        = parseDomInfo (fun _ => none) "test-vm" sampleDomInfo :=
  ⟨by decide, by decide,
   parseDomInfo_ignores_unrecognized (fun _ => none) "test-vm" sampleDomInfo
     sampleDomInfoExtra ["Name: test-vm".toList, "State: running".toList]
     ["CPU(s): 2".toList, "Max memory: 2097152 KiB".toList, "Used memory: 2097152 KiB".toList]
     "Autostart: disable".toList (by decide) (by decide)
     (by
       intro k v h
       have hs : splitColon "Autostart: disable".toList
           = some ("Autostart".toList, " disable".toList) := by decide
       rw [hs] at h
       cases h
       decide)⟩

/-- C14 fails as stated: a detail block with a negative core count and a negative
memory size yields a record with `CPU = -3` and `Memory = -2`, and `GetVMStatus`
returns it. -/
theorem GetVMStatus_negative_values :
    (parseDomInfo (fun _ => none) "vm" negativeDomInfo).CPU = -3
    ∧ (parseDomInfo (fun _ => none) "vm" negativeDomInfo).Memory = -2
    ∧ (GetVMStatus (fun _ => none) shNegative [] "vm").1.toOption
        = some { Name := "vm", CPU := -3, Memory := -2 } := by
  decide

/-- C14, amended. For a remote output in which no `CPU(s)` value begins with a
minus sign and the magnitude of every `Max memory` line is a string of decimal
digits with value below `2^53` or does not convert, the parsed record has
`CPU ≥ 0` and `Memory ≥ 0`, and so has the record `GetVMStatus` returns. -/
theorem parseDomInfo_nonneg (other : List Char → Option Int) (vmName output : String)
    (hcpu : ∀ l ∈ splitLines output.toList, ∀ key value,
      infoEntry l = some (key, value) → key = "CPU(s)".toList → value.head? ≠ some '-')
    (hmem : ∀ l ∈ splitLines output.toList, ∀ key value tok rest,
      infoEntry l = some (key, value) → key = "Max memory".toList →
      fields value = tok :: rest →
      (∃ n, decValue 0 tok = some n ∧ n < 2 ^ 53) ∨ memoryMB other tok = none) :
    0 ≤ (parseDomInfo other vmName output).CPU
    ∧ 0 ≤ (parseDomInfo other vmName output).Memory
    ∧ ∀ (sh : Nat → Except String String) (log : List String),
        sh log.length = .ok output →
        ∃ vm, (GetVMStatus other sh log vmName).1 = .ok vm ∧ 0 ≤ vm.CPU ∧ 0 ≤ vm.Memory := by
  have hC : 0 ≤ (parseDomInfo other vmName output).CPU := by
    rw [parseDomInfo_eq]
    apply foldl_getD_invariant (fun m : Int => 0 ≤ m) cpuAssigned 0 _ (le_refl _)
    intro l hl m hm
    unfold cpuAssigned at hm
    cases he : infoEntry l with
    | none => rw [he] at hm; cases hm
    | some kv =>
      obtain ⟨key, value⟩ := kv
      rw [he] at hm
      simp only at hm
      by_cases hk : key = "CPU(s)".toList
      · rw [if_pos hk] at hm
        exact Atoi_nonneg value m hm (hcpu l hl key value he hk)
      · rw [if_neg hk] at hm
        cases hm
  have hM : 0 ≤ (parseDomInfo other vmName output).Memory := by
    rw [parseDomInfo_eq]
    apply foldl_getD_invariant (fun m : Int => 0 ≤ m) (memoryAssigned other) 0 _ (le_refl _)
    intro l hl m hm
    unfold memoryAssigned at hm
    cases he : infoEntry l with
    | none => rw [he] at hm; cases hm
    | some kv =>
      obtain ⟨key, value⟩ := kv
      rw [he] at hm
      simp only at hm
      by_cases hk : key = "Max memory".toList
      · rw [if_pos hk] at hm
        cases hf : fields value with
        | nil => rw [hf] at hm; cases hm
        | cons tok rest =>
          rw [hf] at hm
          simp only at hm
          have htok : tok ≠ [] := fields_ne_nil value tok (by rw [hf]; exact List.mem_cons_self _ _)
          rcases hmem l hl key value tok rest he hk hf with ⟨n, hn, hlt⟩ | hnone
          · rw [memoryMB_digits other tok n htok hn hlt] at hm
            cases hm
            exact Int.ofNat_nonneg _
          · rw [hnone] at hm
            cases hm
      · rw [if_neg hk] at hm
        cases hm
  refine ⟨hC, hM, ?_⟩
  intro sh log hsh
  obtain ⟨ip, hip⟩ := getVMInfo_ok other sh log vmName output hsh
  exact ⟨_, hip, hC, hM⟩

/-- C14 amended, at the sample block, whose values are `2` and `2097152 KiB`. -/
theorem parseDomInfo_nonneg_witness :
    0 ≤ (parseDomInfo (fun _ => none) "test-vm" sampleDomInfo).CPU
    ∧ 0 ≤ (parseDomInfo (fun _ => none) "test-vm" sampleDomInfo).Memory :=
  have hcpu : ∀ l ∈ splitLines sampleDomInfo.toList, ∀ key value,
      infoEntry l = some (key, value) → key = "CPU(s)".toList →
      value.head? ≠ some '-' := by
    intro l hl key value he hk
    have hall : ∀ l ∈ splitLines sampleDomInfo.toList, cpuUnsignedLine l = true := by decide
    have h := hall l hl
    unfold cpuUnsignedLine at h
    rw [he] at h
    simpa [hk] using h
  have hmem : ∀ l ∈ splitLines sampleDomInfo.toList, ∀ key value tok rest,
      infoEntry l = some (key, value) → key = "Max memory".toList →
      fields value = tok :: rest →
      (∃ n, decValue 0 tok = some n ∧ n < 2 ^ 53)
        ∨ memoryMB (fun _ => none) tok = none := by
    intro l hl key value tok rest he hk hf
    have hall : ∀ l ∈ splitLines sampleDomInfo.toList, memoryPlainLine l = true := by decide
    have h := hall l hl
    unfold memoryPlainLine at h
    rw [he] at h
    simp only [hk, decide_True, Bool.not_true, Bool.false_or, hf] at h
    left
    cases hd : decValue 0 tok with
    | none => rw [hd] at h; cases h
    | some n =>
      rw [hd] at h
      exact ⟨n, rfl, by simpa using h⟩
  ⟨(parseDomInfo_nonneg (fun _ => none) "test-vm" sampleDomInfo hcpu hmem).1,
   (parseDomInfo_nonneg (fun _ => none) "test-vm" sampleDomInfo hcpu hmem).2.1⟩

/-! ## Lemmas on the address lookup -/

theorem digitRun_some (s ds r : List Char) (h : digitRun s = some (ds, r)) :
    ds ≠ [] ∧ (∀ x ∈ ds, isDigit x = true) ∧ s = ds ++ r := by
  unfold digitRun at h
  split_ifs at h with hnil
  cases h
  exact ⟨hnil, fun x hx => List.mem_takeWhile_imp hx,
    (List.takeWhile_append_dropWhile isDigit s).symm⟩

theorem digitRun_of_run (a r : List Char) (ha : a ≠ []) (hd : ∀ x ∈ a, isDigit x = true) :
    digitRun (a ++ r) = some (a ++ r.takeWhile isDigit, r.dropWhile isDigit) := by
  unfold digitRun
  rw [List.takeWhile_append_of_pos hd, List.dropWhile_append_of_pos hd, if_neg (by simp [ha])]

theorem digitRunDot_some (s t r : List Char) (h : digitRunDot s = some (t, r)) :
    ∃ ds, ds ≠ [] ∧ (∀ x ∈ ds, isDigit x = true) ∧ t = ds ++ ['.'] ∧ s = ds ++ '.' :: r := by
  unfold digitRunDot at h
  cases hr : digitRun s with
  | none => rw [hr] at h; cases h
  | some dr =>
    obtain ⟨ds, rest⟩ := dr
    rw [hr] at h
    obtain ⟨h1, h2, h3⟩ := digitRun_some s ds rest hr
    cases rest with
    | nil => cases h
    | cons c rest2 =>
      simp only at h
      split_ifs at h with hc
      cases h
      subst hc
      exact ⟨ds, h1, h2, rfl, h3⟩

theorem digitRunDot_of_run (a r : List Char) (ha : a ≠ []) (hd : ∀ x ∈ a, isDigit x = true) :
    digitRunDot (a ++ '.' :: r) = some (a ++ ['.'], r) := by
  unfold digitRunDot
  rw [digitRun_of_run a _ ha hd, List.takeWhile_cons_of_neg (by decide),
    List.dropWhile_cons_of_neg (by decide)]
  simp

/-- An anchored match is a dotted quad at the start of the text. -/
theorem matchQuadAt_sound (s m : List Char) (h : matchQuadAt s = some m) :
    IsQuad m ∧ ∃ b, s = m ++ b := by
  unfold matchQuadAt at h
  cases h1 : digitRunDot s with
  | none => rw [h1] at h; cases h
  | some p1 =>
    obtain ⟨t1, s1⟩ := p1
    rw [h1] at h
    simp only at h
    cases h2 : digitRunDot s1 with
    | none => rw [h2] at h; cases h
    | some p2 =>
      obtain ⟨t2, s2⟩ := p2
      rw [h2] at h
      simp only at h
      cases h3 : digitRunDot s2 with
      | none => rw [h3] at h; cases h
      | some p3 =>
        obtain ⟨t3, s3⟩ := p3
        rw [h3] at h
        simp only at h
        cases h4 : digitRun s3 with
        | none => rw [h4] at h; cases h
        | some p4 =>
          obtain ⟨d, s4⟩ := p4
          rw [h4] at h
          simp only [Option.some.injEq] at h
          obtain ⟨a, ha, hda, rfl, rfl⟩ := digitRunDot_some s t1 s1 h1
          obtain ⟨b, hb, hdb, rfl, rfl⟩ := digitRunDot_some s1 t2 s2 h2
          obtain ⟨c, hc, hdc, rfl, rfl⟩ := digitRunDot_some s2 t3 s3 h3
          obtain ⟨hd, hdd, rfl⟩ := digitRun_some s3 d s4 h4
          subst h
          refine ⟨⟨a, b, c, d, ha, hb, hc, hd, hda, hdb, hdc, hdd, by simp⟩, s4, by simp⟩

/-- Every dotted quad at the start of the text is a prefix of the anchored match. -/
theorem matchQuadAt_complete (s m post : List Char) (hs : s = m ++ post) (hm : IsQuad m) :
    ∃ m2, matchQuadAt s = some m2 ∧ m <+: m2 := by
  obtain ⟨a, b, c, d, ha, hb, hc, hd, hda, hdb, hdc, hdd, rfl⟩ := hm
  have e : s = a ++ '.' :: (b ++ '.' :: (c ++ '.' :: (d ++ post))) := by
    rw [hs]
    simp
  refine ⟨a ++ ['.'] ++ (b ++ ['.']) ++ (c ++ ['.']) ++ (d ++ post.takeWhile isDigit), ?_, ?_⟩
  · unfold matchQuadAt
    rw [e, digitRunDot_of_run a _ ha hda]
    simp only
    rw [digitRunDot_of_run b _ hb hdb]
    simp only
    rw [digitRunDot_of_run c _ hc hdc]
    simp only
    rw [digitRun_of_run d _ hd hdd]
  · refine ⟨post.takeWhile isDigit, ?_⟩
    simp

theorem IsQuad_ne_nil (m : List Char) (h : IsQuad m) : m ≠ [] := by
  obtain ⟨a, b, c, d, _, _, _, _, _, _, _, _, rfl⟩ := h
  simp

/-- A text without match contains no dotted quad. -/
theorem findQuad_none (l : List Char) (h : findQuad l = none) :
    ∀ a m b, l = a ++ m ++ b → ¬ IsQuad m := by
  induction l with
  | nil =>
    intro a m b hl hm
    have : m = [] := by
      have h2 := congrArg List.length hl
      simp at h2
      exact List.eq_nil_of_length_eq_zero (by omega)
    exact IsQuad_ne_nil m hm this
  | cons c cs ih =>
    unfold findQuad at h
    cases hq : matchQuadAt (c :: cs) with
    | some m0 => rw [hq] at h; cases h
    | none =>
      rw [hq] at h
      simp only at h
      intro a m b hl hm
      cases a with
      | nil =>
        obtain ⟨m2, h2, _⟩ := matchQuadAt_complete (c :: cs) m b (by simpa using hl) hm
        rw [hq] at h2
        cases h2
      | cons x a2 =>
        have hcs : cs = a2 ++ m ++ b := by
          simp only [List.cons_append, List.cons.injEq] at hl
          exact hl.2
        exact ih h a2 m b hcs hm

/-- The match found in a text is a dotted quad of the text; no dotted quad of the
text starts before it, and every dotted quad that starts where it starts is a
prefix of it. -/
theorem findQuad_some (l m : List Char) (h : findQuad l = some m) :
    ∃ a b, l = a ++ m ++ b ∧ IsQuad m
      ∧ ∀ a2 m2 b2, l = a2 ++ m2 ++ b2 → IsQuad m2 →
          a.length ≤ a2.length ∧ (a2.length = a.length → m2 <+: m) := by
  induction l with
  | nil => simp [findQuad] at h
  | cons c cs ih =>
    unfold findQuad at h
    cases hq : matchQuadAt (c :: cs) with
    | some m0 =>
      rw [hq] at h
      simp only [Option.some.injEq] at h
      subst h
      obtain ⟨hm, b, hb⟩ := matchQuadAt_sound (c :: cs) m0 hq
      refine ⟨[], b, by simpa using hb, hm, ?_⟩
      intro a2 m2 b2 hl hm2
      refine ⟨Nat.zero_le _, ?_⟩
      intro ha2
      have : a2 = [] := List.eq_nil_of_length_eq_zero (by simpa using ha2)
      subst this
      obtain ⟨m3, h3, hpre⟩ := matchQuadAt_complete (c :: cs) m2 b2 (by simpa using hl) hm2
      rw [hq] at h3
      cases h3
      exact hpre
    | none =>
      rw [hq] at h
      simp only at h
      obtain ⟨a, b, hl, hm, hleft⟩ := ih h
      refine ⟨c :: a, b, by rw [hl]; simp, hm, ?_⟩
      intro a2 m2 b2 hl2 hm2
      cases a2 with
      | nil =>
        obtain ⟨m3, h3, _⟩ := matchQuadAt_complete (c :: cs) m2 b2 (by simpa using hl2) hm2
        rw [hq] at h3
        cases h3
      | cons x a3 =>
        have hcs : cs = a3 ++ m2 ++ b2 := by
          simp only [List.cons_append, List.cons.injEq] at hl2
          exact hl2.2
        obtain ⟨h1, h2⟩ := hleft a3 m2 b2 hcs hm2
        refine ⟨by simpa using h1, ?_⟩
        intro hlen
        exact h2 (by simpa using hlen)

theorem findQuad_isSome_of_quad (l a m b : List Char) (hl : l = a ++ m ++ b) (hm : IsQuad m) :
    ∃ m2, findQuad l = some m2 := by
  cases h : findQuad l with
  | some m2 => exact ⟨m2, rfl⟩
  | none => exact absurd hm (findQuad_none l h a m b hl)

theorem firstQuad_none (lines : List (List Char)) (h : ∀ l ∈ lines, findQuad l = none) :
    firstQuad lines = none := by
  induction lines with
  | nil => rfl
  | cons l tl ih =>
    unfold firstQuad
    rw [h l (List.mem_cons_self _ _)]
    exact ih (fun x hx => h x (List.mem_cons_of_mem _ hx))

theorem firstQuad_first (pre post : List (List Char)) (l m : List Char)
    (hpre : ∀ p ∈ pre, findQuad p = none) (hl : findQuad l = some m) :
    firstQuad (pre ++ l :: post) = some m := by
  induction pre with
  | nil =>
    simp only [List.nil_append]
    unfold firstQuad
    rw [hl]
  | cons p tl ih =>
    simp only [List.cons_append]
    unfold firstQuad
    rw [hpre p (List.mem_cons_self _ _)]
    exact ih (fun x hx => hpre x (List.mem_cons_of_mem _ hx))

theorem getVMIPAddress_error (sh : Nat → Except String String) (log : List String)
    (vmName e : String) (h : sh log.length = .error e) :
    (getVMIPAddress sh log vmName).1 = .error e := by
  unfold getVMIPAddress ExecuteCommand
  simp only [h]

theorem getVMIPAddress_ok (sh : Nat → Except String String) (log : List String)
    (vmName out2 : String) (h : sh log.length = .ok out2) :
    (getVMIPAddress sh log vmName).1
      = match firstQuad (splitLines out2.toList) with
        | some m => .ok (String.mk m)
        | none => .error "no IP address found" := by
  unfold getVMIPAddress ExecuteCommand
  simp only [h]
  cases firstQuad (splitLines out2.toList) <;> rfl

theorem getVMInfo_eq (other : List Char → Option Int) (sh : Nat → Except String String)
    (log : List String) (vmName output : String) (h : sh log.length = .ok output) :
    (getVMInfo other sh log vmName).1
      = match (getVMIPAddress sh (log ++ ["/usr/local/bin/virsh dominfo " ++ vmName])
          vmName).1 with
        | .ok ip => .ok { parseDomInfo other vmName output with IPAddress := ip }
        | .error _ => .ok (parseDomInfo other vmName output) := by
  unfold getVMInfo ExecuteCommand
  simp only [h]
  rcases hq : getVMIPAddress sh (log ++ ["/usr/local/bin/virsh dominfo " ++ vmName])
    vmName with ⟨r, l2⟩
  cases r <;> rfl

/-! ## Claims on the address lookup, the configuration and the commands -/

/-- C15. When the detail command succeeds, `GetVMStatus` succeeds whatever the
address command does.  If the address command fails, or no line of its output
contains a dotted quad, the record is the parsed record, whose address is empty.
If some line contains a dotted quad, the address is the match in the first such
line: a dotted quad of that line such that no dotted quad of the line starts
before it and every dotted quad that starts where it starts is a prefix of it. -/
theorem GetVMStatus_ip_best_effort (other : List Char → Option Int)
    (sh : Nat → Except String String) (log : List String) (vmName output : String)
    (hinfo : sh log.length = .ok output) :
    (parseDomInfo other vmName output).IPAddress = ""
    ∧ (∀ e, sh (log.length + 1) = .error e →
        (GetVMStatus other sh log vmName).1 = .ok (parseDomInfo other vmName output))
    ∧ (∀ out2, sh (log.length + 1) = .ok out2 →
        (∀ l ∈ splitLines out2.toList, ∀ a m b, l = a ++ m ++ b → ¬ IsQuad m) →
        (GetVMStatus other sh log vmName).1 = .ok (parseDomInfo other vmName output))
    ∧ (∀ out2 pre l post, sh (log.length + 1) = .ok out2 →
        splitLines out2.toList = pre ++ l :: post →
        (∀ p ∈ pre, ∀ a m b, p = a ++ m ++ b → ¬ IsQuad m) →
        (∃ a m b, l = a ++ m ++ b ∧ IsQuad m) →
        ∃ a m b, l = a ++ m ++ b ∧ IsQuad m
          ∧ (∀ a2 m2 b2, l = a2 ++ m2 ++ b2 → IsQuad m2 →
              a.length ≤ a2.length ∧ (a2.length = a.length → m2 <+: m))
          ∧ (GetVMStatus other sh log vmName).1
              = .ok { parseDomInfo other vmName output with IPAddress := String.mk m }) := by
  have hlen : (log ++ ["/usr/local/bin/virsh dominfo " ++ vmName]).length = log.length + 1 := by
    simp
  refine ⟨by rw [parseDomInfo_eq], ?_, ?_, ?_⟩
  · intro e he
    unfold GetVMStatus
    rw [getVMInfo_eq other sh log vmName output hinfo,
      getVMIPAddress_error sh _ vmName e (by rw [hlen]; exact he)]
  · intro out2 hout hno
    have hnone : firstQuad (splitLines out2.toList) = none := by
      apply firstQuad_none
      intro l hl
      cases hf : findQuad l with
      | none => rfl
      | some m =>
        obtain ⟨a, b, hab, hm, _⟩ := findQuad_some l m hf
        exact absurd hm (hno l hl a m b hab)
    unfold GetVMStatus
    rw [getVMInfo_eq other sh log vmName output hinfo,
      getVMIPAddress_ok sh _ vmName out2 (by rw [hlen]; exact hout), hnone]
  · intro out2 pre l post hout hlines hpre hl
    obtain ⟨a0, m0, b0, hl0, hm0⟩ := hl
    obtain ⟨m, hm⟩ := findQuad_isSome_of_quad l a0 m0 b0 hl0 hm0
    obtain ⟨a, b, hab, hq, hleft⟩ := findQuad_some l m hm
    have hprenone : ∀ p ∈ pre, findQuad p = none := by
      intro p hp
      cases hf : findQuad p with
      | none => rfl
      | some m1 =>
        obtain ⟨a1, b1, hab1, hm1, _⟩ := findQuad_some p m1 hf
        exact absurd hm1 (hpre p hp a1 m1 b1 hab1)
    refine ⟨a, m, b, hab, hq, hleft, ?_⟩
    unfold GetVMStatus
    rw [getVMInfo_eq other sh log vmName output hinfo,
      getVMIPAddress_ok sh _ vmName out2 (by rw [hlen]; exact hout), hlines,
      firstQuad_first pre post l m hprenone hm]

/-- C15 at a concrete run: the address report has one line with an address, and
the record carries `192.168.1.10`. -/
theorem GetVMStatus_ip_best_effort_witness :
    shSample ([] : List String).length = .ok sampleDomInfo
    ∧ (parseDomInfo (fun _ => none) "test-vm" sampleDomInfo).IPAddress = ""
    ∧ (GetVMStatus (fun _ => none) shSample [] "test-vm").1.toOption
        = some { Name := "test-vm", Status := "running", CPU := 2, Memory := 2048,
                 IPAddress := "192.168.1.10" } :=
  ⟨rfl,
   (GetVMStatus_ip_best_effort (fun _ => none) shSample [] "test-vm" sampleDomInfo rfl).1,
   by decide⟩

/-- C16. `Validate` succeeds exactly when the name is non-empty, `CPU > 0` and
`Memory > 0`; the configuration `x`, 2, 2048 is accepted, and it is rejected with
CPU 0, with memory 0, and with an empty name. -/
theorem VMConfig_Validate_iff :
    (∀ c : VMConfig, c.Validate = none ↔ (c.Name ≠ "" ∧ 0 < c.CPU ∧ 0 < c.Memory))
    ∧ ({ Name := "x", CPU := 2, Memory := 2048 } : VMConfig).Validate = none
    ∧ ({ Name := "x", CPU := 0, Memory := 2048 } : VMConfig).Validate ≠ none
    ∧ ({ Name := "x", CPU := 2, Memory := 0 } : VMConfig).Validate ≠ none
    ∧ ({ Name := "", CPU := 2, Memory := 2048 } : VMConfig).Validate ≠ none := by
  refine ⟨?_, by decide, by decide, by decide, by decide⟩
  intro c
  unfold VMConfig.Validate
  by_cases hn : c.Name = ""
  · simp [hn]
  · by_cases hc : c.CPU ≤ 0
    · simp [hn, hc]
    · by_cases hm : c.Memory ≤ 0
      · simp [hn, hc, hm]
      · simp only [if_neg hn, if_neg hc, if_neg hm, true_iff]
        exact ⟨hn, by omega, by omega⟩

/-- C17. `NewClient` fails exactly when the configured host is empty or the
configured user name is empty: with the host error when the host is empty, and
with the user-name error when the host is set and the user name is empty.
Otherwise it returns a client with the configured host and user name. -/
theorem NewClient_iff (cfg : Settings) :
    ((∃ e, NewClient cfg = .error e)
        ↔ (cfg.GetString "host" = "" ∨ cfg.GetString "username" = ""))
    ∧ (cfg.GetString "host" = "" →
        NewClient cfg
          = .error "host not configured. Run 'syno-vm config set --host <hostname>'")
    ∧ (cfg.GetString "host" ≠ "" → cfg.GetString "username" = "" →
        NewClient cfg
          = .error "username not configured. Run 'syno-vm config set --username <username>'")
    ∧ (cfg.GetString "host" ≠ "" → cfg.GetString "username" ≠ "" →
        ∃ c, NewClient cfg = .ok c ∧ c.host = cfg.GetString "host"
          ∧ c.username = cfg.GetString "username" ∧ c.port = cfg.GetInt "port"
          ∧ c.keyfile = cfg.GetString "keyfile" ∧ c.sshClient = false) := by
  unfold NewClient
  by_cases hh : cfg.GetString "host" = ""
  · simp [hh]
  · by_cases hu : cfg.GetString "username" = ""
    · simp [hh, hu]
    · simp [hh, hu]

/-- C18. Whenever `GetVMStatus` succeeds, the name of the returned record is the
requested name, whatever the detail command printed; also the parsed record of
every output carries the requested name. -/
theorem GetVMStatus_name (other : List Char → Option Int)
    (sh : Nat → Except String String) (log : List String) (vmName : String) (vm : VM)
    (h : (GetVMStatus other sh log vmName).1 = .ok vm) :
    vm.Name = vmName ∧ ∀ output : String, (parseDomInfo other vmName output).Name = vmName := by
  have hname : ∀ output : String, (parseDomInfo other vmName output).Name = vmName := by
    intro output
    rw [parseDomInfo_eq]
  refine ⟨?_, hname⟩
  unfold GetVMStatus at h
  cases hs : sh log.length with
  | error e =>
    unfold getVMInfo ExecuteCommand at h
    simp only [hs] at h
    cases h
  | ok output =>
    obtain ⟨ip, hip⟩ := getVMInfo_ok other sh log vmName output hs
    rw [hip] at h
    cases h
    exact hname output

/-- C18 at a run in which the detail block has a `Name` line for another machine. -/
theorem GetVMStatus_name_witness :
    (GetVMStatus (fun _ => none) shOtherName [] "test-vm").1.toOption
        = some { Name := "test-vm", Status := "running" }
    ∧ ({ Name := "test-vm", Status := "running" } : VM).Name = "test-vm" :=
  ⟨by decide,
   (GetVMStatus_name (fun _ => none) shOtherName [] "test-vm"
      { Name := "test-vm", Status := "running" } rfl).1⟩

theorem String_mk_ne_empty (l : List Char) (h : l ≠ []) : String.mk l ≠ "" := by
  intro he
  have := congrArg String.data he
  exact h this

/-- C19. Every record returned by `parseVirshList`, and so every record returned
by `ListVMs`, has a non-empty name, whatever the remote output is. -/
theorem parseVirshList_names_nonempty :
    (∀ (output : String), ∀ vm ∈ (parseVirshList output).1, vm.Name ≠ "")
    ∧ (∀ (sh : Nat → Except String String) (log : List String),
        ∀ vm ∈ (ListVMs sh log).1.1, vm.Name ≠ "") := by
  have hp : ∀ (output : String), ∀ vm ∈ (parseVirshList output).1, vm.Name ≠ "" := by
    intro output vm hvm
    rw [parseVirshList_eq] at hvm
    simp only [List.mem_map, List.mem_filter, decide_eq_true_eq] at hvm
    obtain ⟨l, ⟨_, hlen⟩, rfl⟩ := hvm
    unfold rowVM
    simp only
    apply String_mk_ne_empty
    have hget : (fields l).getD 1 [] ∈ fields l := by
      rw [List.getD_eq_getElem _ _ (by omega)]
      exact List.getElem_mem _
    exact fields_ne_nil l _ hget
  refine ⟨hp, ?_⟩
  intro sh log vm hvm
  unfold ListVMs ExecuteCommand at hvm
  cases hs : sh log.length with
  | error e =>
    simp only [hs] at hvm
    cases hvm
  | ok output =>
    simp only [hs] at hvm
    exact hp output vm hvm

theorem executeVirshCommand_eq (sh : Nat → Except String String) (log : List String)
    (args : String) :
    executeVirshCommand sh log args
      = ((match sh log.length with
          | .error e => some e
          | .ok _ => none), log ++ ["/usr/local/bin/virsh " ++ args]) := by
  unfold executeVirshCommand ExecuteCommand
  cases sh log.length <;> rfl

/-- C20. `StartVM`, `StopVM`, `RestartVM`, `DeleteVM` and `ListVMs` each hand the
executor exactly one command, the tool path followed by `start <name>`,
`shutdown <name>`, `reboot <name>`, `undefine <name>` and `list --all`; each of
them returns an error exactly when the executor returns one. -/
theorem lifecycle_commands (sh : Nat → Except String String) (log : List String)
    (vmName : String) :
    ((StartVM sh log vmName).2 = log ++ ["/usr/local/bin/virsh start " ++ vmName]
      ∧ ((StartVM sh log vmName).1 ≠ none ↔ ∃ e, sh log.length = .error e))
    ∧ ((StopVM sh log vmName).2 = log ++ ["/usr/local/bin/virsh shutdown " ++ vmName]
      ∧ ((StopVM sh log vmName).1 ≠ none ↔ ∃ e, sh log.length = .error e))
    ∧ ((RestartVM sh log vmName).2 = log ++ ["/usr/local/bin/virsh reboot " ++ vmName]
      ∧ ((RestartVM sh log vmName).1 ≠ none ↔ ∃ e, sh log.length = .error e))
    ∧ ((DeleteVM sh log vmName).2 = log ++ ["/usr/local/bin/virsh undefine " ++ vmName]
      ∧ ((DeleteVM sh log vmName).1 ≠ none ↔ ∃ e, sh log.length = .error e))
    ∧ ((ListVMs sh log).2 = log ++ ["/usr/local/bin/virsh list --all"]
      ∧ ((ListVMs sh log).1.2 ≠ none ↔ ∃ e, sh log.length = .error e)) := by
  have key : ∀ args : String,
      (executeVirshCommand sh log args).2 = log ++ ["/usr/local/bin/virsh " ++ args]
      ∧ ((executeVirshCommand sh log args).1 ≠ none ↔ ∃ e, sh log.length = .error e) := by
    intro args
    rw [executeVirshCommand_eq]
    refine ⟨rfl, ?_⟩
    cases sh log.length <;> simp
  have hcat : ∀ sub : String,
      "/usr/local/bin/virsh " ++ (sub ++ vmName) = ("/usr/local/bin/virsh " ++ sub) ++ vmName :=
    fun sub => (String.append_assoc _ _ _).symm
  refine ⟨?_, ?_, ?_, ?_, ?_⟩
  · have h := key ("start " ++ vmName)
    rw [hcat] at h
    exact h
  · have h := key ("shutdown " ++ vmName)
    rw [hcat] at h
    exact h
  · have h := key ("reboot " ++ vmName)
    rw [hcat] at h
    exact h
  · have h := key ("undefine " ++ vmName)
    rw [hcat] at h
    exact h
  · unfold ListVMs ExecuteCommand
    cases hs : sh log.length with
    | error e => simp
    | ok output =>
      simp only
      rw [parseVirshList_eq]
      simp

/-! ## Further lemmas on the Web API client and on the command strings -/

theorem callAuthenticated_ne_panic (srv : Nat → Reply) (w : WebAPIClient)
    (sent : List Request) (api method version : String)
    (apiParams : List (String × ParamValue)) :
    (callAuthenticated srv w sent api method version apiParams).1 ≠ .panic := by
  unfold callAuthenticated
  simp only [makeRequest_get]
  unfold roundTrip
  cases srv sent.length with
  | failure msg => simp
  | body b =>
    simp only
    cases jsonUnmarshal b {} with
    | none => simp
    | some r =>
      simp only
      by_cases hc : (!r.Success) = true ∧ r.Error.isSome = true
          ∧ Option.map (fun x => x.Code) r.Error = some 105
      · rw [if_pos hc, Login_eq_of_log]
        have hnp := Login_ne_panic srv { w with sessionID := "" }
          (sent ++ [apiRequest api (callParams w api method version apiParams)])
        unfold apiRequest at hnp
        generalize (Login srv { w with sessionID := "" } _).1 = res at hnp ⊢
        generalize (Login srv { w with sessionID := "" } _).2.1 = w2
        cases res with
        | panic => exact absurd rfl hnp
        | err e => simp
        | ok u =>
          simp only
          generalize srv _ = rep
          cases rep with
          | failure msg => simp
          | body b3 =>
            simp only
            cases jsonUnmarshal b3 r <;> simp
      · rw [if_neg hc]
        simp

theorem CallAPI_ne_panic (srv : Nat → Reply) (w : WebAPIClient) (sent : List Request)
    (api method version : String) (apiParams : List (String × ParamValue)) :
    (CallAPI srv w sent api method version apiParams).1 ≠ .panic := by
  unfold CallAPI
  by_cases hno : w.sessionID = ""
  · rw [if_pos hno]
    have hnp := Login_ne_panic srv w sent
    rcases hL : Login srv w sent with ⟨res, w1, sent1⟩
    rw [hL] at hnp
    cases res with
    | panic => exact absurd rfl hnp
    | err e => simp
    | ok u => exact callAuthenticated_ne_panic srv w1 sent1 api method version apiParams
  · rw [if_neg hno]
    exact callAuthenticated_ne_panic srv w sent api method version apiParams

/-- Every request `CallAPI` adds to the log is the login request or an API request. -/
theorem CallAPI_new_requests (srv : Nat → Reply) (w : WebAPIClient) (sent : List Request)
    (api method version : String) (apiParams : List (String × ParamValue)) :
    ∀ req ∈ (CallAPI srv w sent api method version apiParams).2.2.drop sent.length,
      req = loginRequest w ∨ ∃ ps, req = apiRequest api ps := by
  unfold CallAPI
  by_cases hno : w.sessionID = ""
  · rw [if_pos hno, Login_eq_of_log]
    have hshape := callAuthenticated_log srv (Login srv w sent).2.1
      (sent ++ [loginRequest w]) api method version apiParams
    have hlr := loginRequest_Login srv w sent
    cases (Login srv w sent).1 with
    | panic => simp
    | err e => simp
    | ok u =>
      simp only
      rcases hshape with h | h | h
      all_goals
        rw [h]
        simp [hlr]
  · rw [if_neg hno]
    have hshape := callAuthenticated_log srv w sent api method version apiParams
    rcases hshape with h | h | h
    all_goals
      rw [h]
      simp

theorem Logout_log (srv : Nat → Reply) (w : WebAPIClient) (sent : List Request) :
    (Logout srv w sent).2.2 = sent
    ∨ (Logout srv w sent).2.2
        = sent ++ [⟨"GET", "/webapi/auth.cgi", some (logoutParams w), none⟩] := by
  unfold Logout
  by_cases h : w.sessionID = ""
  · rw [if_pos h]
    left
    rfl
  · rw [if_neg h, makeRequest_get]
    unfold roundTrip
    right
    cases srv sent.length <;> rfl

theorem Logout_ne_panic (srv : Nat → Reply) (w : WebAPIClient) (sent : List Request) :
    (Logout srv w sent).1 ≠ .panic := by
  unfold Logout
  by_cases h : w.sessionID = ""
  · simp [h]
  · rw [if_neg h, makeRequest_get]
    unfold roundTrip
    cases srv sent.length <;> simp

theorem fields_token_space (ds rest : List Char) (hds : ds ≠ [])
    (h : ∀ c ∈ ds, isSpace c = false) : fields (ds ++ ' ' :: rest) = ds :: fields rest := by
  unfold fields
  rw [fieldsGo_token [] ds _ h]
  simp [fieldsGo, show isSpace ' ' = true by decide, hds]

theorem fields_single (ds : List Char) (hds : ds ≠ []) (h : ∀ c ∈ ds, isSpace c = false) :
    fields ds = [ds] := by
  unfold fields
  have := fieldsGo_token [] ds [] h
  rw [List.append_nil] at this
  rw [this]
  simp [fieldsGo, hds]

/-- The whitespace-separated tokens of a `virsh` command line for a name that is
non-empty and has no whitespace. -/
theorem fields_command (sub : List Char) (vmName : String) (hsub : sub ≠ [])
    (hsubsp : ∀ c ∈ sub, isSpace c = false) (hname : vmName ≠ "")
    (hsp : ∀ c ∈ vmName.toList, isSpace c = false) :
    fields ("/usr/local/bin/virsh".toList ++ ' ' :: (sub ++ ' ' :: vmName.toList))
      = ["/usr/local/bin/virsh".toList, sub, vmName.toList] := by
  have hn : vmName.toList ≠ [] := by
    intro h
    apply hname
    cases vmName
    simp only [String.toList] at h
    subst h
    rfl
  rw [fields_token_space _ _ (by decide) (by decide), fields_token_space sub _ hsub hsubsp,
    fields_single _ hn hsp]

theorem command_toList (sub0 : String) (sub : List Char) (vmName : String)
    (hsub : sub0.toList = sub ++ [' ']) :
    ("/usr/local/bin/virsh " ++ (sub0 ++ vmName)).toList
      = "/usr/local/bin/virsh".toList ++ ' ' :: (sub ++ ' ' :: vmName.toList) := by
  have h1 : "/usr/local/bin/virsh ".toList = "/usr/local/bin/virsh".toList ++ [' '] := by
    decide
  simp only [String.toList, String.data_append] at h1 hsub ⊢
  rw [h1, hsub]
  simp

theorem command_literal_toList (lit : String) (sub : List Char) (vmName : String)
    (hlit : lit.toList = "/usr/local/bin/virsh".toList ++ ' ' :: (sub ++ [' '])) :
    (lit ++ vmName).toList
      = "/usr/local/bin/virsh".toList ++ ' ' :: (sub ++ ' ' :: vmName.toList) := by
  simp only [String.toList, String.data_append] at hlit ⊢
  rw [hlit]
  simp

theorem getVMInfo_log (other : List Char → Option Int) (sh : Nat → Except String String)
    (log : List String) (vmName : String) :
    (getVMInfo other sh log vmName).2 = log ++ ["/usr/local/bin/virsh dominfo " ++ vmName]
    ∨ (getVMInfo other sh log vmName).2
        = log ++ ["/usr/local/bin/virsh dominfo " ++ vmName,
                  "/usr/local/bin/virsh domifaddr " ++ vmName] := by
  unfold getVMInfo ExecuteCommand
  cases sh log.length with
  | error e => left; rfl
  | ok output =>
    right
    simp only
    unfold getVMIPAddress ExecuteCommand
    cases sh (log ++ ["/usr/local/bin/virsh dominfo " ++ vmName]).length with
    | error e => simp
    | ok out2 =>
      simp only
      cases firstQuad (splitLines out2.toList) <;> simp

/-! ## Claims on the unimplemented operations, the retry and the commands -/

/-- C21. `CreateVM` (also for a configuration that passes `Validate`),
`CreateTemplate`, `DeleteTemplate` and `GenerateSSHKeyPair` return an error for
every input, `ListTemplates` returns the empty list and no error, and each of them
leaves the client and the command log as they were. -/
theorem unimplemented_operations (c : Client) (log : List String) (config : VMConfig)
    (templateName vmName keyPath : String) :
    ((CreateVM c log config).1 ≠ none ∧ (CreateVM c log config).2 = (c, log))
    ∧ (config.Validate = none → (CreateVM c log config).1 ≠ none)
    ∧ ((CreateTemplate c log templateName vmName).1 ≠ none
        ∧ (CreateTemplate c log templateName vmName).2 = (c, log))
    ∧ ((DeleteTemplate c log templateName).1 ≠ none
        ∧ (DeleteTemplate c log templateName).2 = (c, log))
    ∧ GenerateSSHKeyPair keyPath ≠ none
    ∧ ListTemplates c log = (([], none), c, log) := by
  simp [CreateVM, CreateTemplate, DeleteTemplate, GenerateSSHKeyPair, ListTemplates]

/-- C24 at a failing run: the first reply has code 105 and a data entry, the login
succeeds, and the retry reply has `success=true`, one data entry and no error
member.  The response `CallAPI` returns keeps the error object and the data entry
of the first reply; the retry reply decoded alone has neither. -/
theorem CallAPI_retry_keeps_stale_fields :
    (CallAPI srvStale wA [] "SYNO.Core.System" "info" "1" []).1
        = .ok { Success := true, Data := some [("stale", .str "x"), ("fresh", .str "y")],
                Error := some ⟨105⟩ }
    ∧ jsonUnmarshal (.object [.success (some true), .data (some [("fresh", .str "y")])]) {}
        = some { Success := true, Data := some [("fresh", .str "y")], Error := none } := by
  decide

/-- C27. `parseVirshList` returns no error, and every record it returns has
`CPU = 0`, `Memory = 0`, an empty `Storage` and an empty `IPAddress`. -/
theorem parseVirshList_only_name_and_status (output : String) :
    (parseVirshList output).2 = none
    ∧ ∀ vm ∈ (parseVirshList output).1,
        vm.CPU = 0 ∧ vm.Memory = 0 ∧ vm.Storage = "" ∧ vm.IPAddress = "" := by
  rw [parseVirshList_eq]
  refine ⟨rfl, ?_⟩
  intro vm hvm
  simp only [List.mem_map] at hvm
  obtain ⟨l, _, rfl⟩ := hvm
  exact ⟨rfl, rfl, rfl, rfl⟩

/-- C25 fails as stated: for the name `a b` the command that `StartVM` hands to
the remote shell splits into four tokens, and for the empty name into two. -/
theorem StartVM_name_with_space_adds_token :
    (StartVM shSample [] "a b").2 = ["/usr/local/bin/virsh start a b"]
    ∧ fields "/usr/local/bin/virsh start a b".toList
        = ["/usr/local/bin/virsh".toList, "start".toList, "a".toList, "b".toList]
    ∧ (StartVM shSample [] "").2 = ["/usr/local/bin/virsh start "]
    ∧ fields "/usr/local/bin/virsh start ".toList
        = ["/usr/local/bin/virsh".toList, "start".toList] := by
  decide

/-- C25, amended. For every VM name that is non-empty and contains no whitespace,
the command that `StartVM`, `StopVM`, `RestartVM` and `DeleteVM` hand to the remote
shell, and each command that `GetVMStatus` hands to it, splits on whitespace into
exactly three tokens: the tool path, the subcommand and the name. -/
theorem command_three_tokens (other : List Char → Option Int)
    (sh : Nat → Except String String) (log : List String) (vmName : String)
    (hname : vmName ≠ "") (hsp : ∀ c ∈ vmName.toList, isSpace c = false) :
    (∃ cmd, (StartVM sh log vmName).2 = log ++ [cmd]
      ∧ fields cmd.toList = ["/usr/local/bin/virsh".toList, "start".toList, vmName.toList])
    ∧ (∃ cmd, (StopVM sh log vmName).2 = log ++ [cmd]
      ∧ fields cmd.toList = ["/usr/local/bin/virsh".toList, "shutdown".toList, vmName.toList])
    ∧ (∃ cmd, (RestartVM sh log vmName).2 = log ++ [cmd]
      ∧ fields cmd.toList = ["/usr/local/bin/virsh".toList, "reboot".toList, vmName.toList])
    ∧ (∃ cmd, (DeleteVM sh log vmName).2 = log ++ [cmd]
      ∧ fields cmd.toList = ["/usr/local/bin/virsh".toList, "undefine".toList, vmName.toList])
    ∧ (∀ cmd ∈ (GetVMStatus other sh log vmName).2.drop log.length,
        fields cmd.toList = ["/usr/local/bin/virsh".toList, "dominfo".toList, vmName.toList]
        ∨ fields cmd.toList
            = ["/usr/local/bin/virsh".toList, "domifaddr".toList, vmName.toList]) := by
  have key : ∀ (sub0 : String) (sub : List Char), sub0.toList = sub ++ [' '] → sub ≠ [] →
      (∀ c ∈ sub, isSpace c = false) →
      ∃ cmd, (executeVirshCommand sh log (sub0 ++ vmName)).2 = log ++ [cmd]
        ∧ fields cmd.toList = ["/usr/local/bin/virsh".toList, sub, vmName.toList] := by
    intro sub0 sub h0 h1 h2
    refine ⟨"/usr/local/bin/virsh " ++ (sub0 ++ vmName), ?_, ?_⟩
    · rw [executeVirshCommand_eq]
    · rw [command_toList sub0 sub vmName h0]
      exact fields_command sub vmName h1 h2 hname hsp
  have hd : fields ("/usr/local/bin/virsh dominfo " ++ vmName).toList
      = ["/usr/local/bin/virsh".toList, "dominfo".toList, vmName.toList] := by
    rw [command_literal_toList _ "dominfo".toList vmName (by decide)]
    exact fields_command _ vmName (by decide) (by decide) hname hsp
  have ha : fields ("/usr/local/bin/virsh domifaddr " ++ vmName).toList
      = ["/usr/local/bin/virsh".toList, "domifaddr".toList, vmName.toList] := by
    rw [command_literal_toList _ "domifaddr".toList vmName (by decide)]
    exact fields_command _ vmName (by decide) (by decide) hname hsp
  refine ⟨key "start " "start".toList (by decide) (by decide) (by decide),
    key "shutdown " "shutdown".toList (by decide) (by decide) (by decide),
    key "reboot " "reboot".toList (by decide) (by decide) (by decide),
    key "undefine " "undefine".toList (by decide) (by decide) (by decide), ?_⟩
  intro cmd hcmd
  unfold GetVMStatus at hcmd
  rcases getVMInfo_log other sh log vmName with h | h
  · rw [h] at hcmd
    simp only [List.drop_left, List.mem_singleton] at hcmd
    subst hcmd
    exact Or.inl hd
  · rw [h] at hcmd
    simp only [List.drop_left, List.mem_cons, List.mem_singleton, List.not_mem_nil,
      or_false] at hcmd
    rcases hcmd with rfl | rfl
    · exact Or.inl hd
    · exact Or.inr ha

/-- C25 amended, at the name `test-vm`. -/
theorem command_three_tokens_witness :
    ("test-vm" : String) ≠ "" ∧ (∀ c ∈ "test-vm".toList, isSpace c = false)
    ∧ ∃ cmd, (StartVM shSample [] "test-vm").2 = [] ++ [cmd]
      ∧ fields cmd.toList
          = ["/usr/local/bin/virsh".toList, "start".toList, "test-vm".toList] :=
  ⟨by decide, by decide,
   (command_three_tokens (fun _ => none) shSample [] "test-vm" (by decide) (by decide)).1⟩

/-- C26. `Login`, `Logout` and `CallAPI` never end in the panic of `makeRequest`:
every request they make has the method `GET` and a non-nil parameter set, for
which `makeRequest` takes its first branch; the branch that dereferences the nil
request is taken only for a request without body whose method is not `GET`. -/
theorem web_calls_never_dereference_nil (srv : Nat → Reply) (w : WebAPIClient)
    (sent : List Request) (api method version : String)
    (apiParams : List (String × ParamValue)) :
    (Login srv w sent).1 ≠ .panic
    ∧ (Logout srv w sent).1 ≠ .panic
    ∧ (CallAPI srv w sent api method version apiParams).1 ≠ .panic
    ∧ (∀ req ∈ (Login srv w sent).2.2.drop sent.length,
        req.method = "GET" ∧ req.params ≠ none)
    ∧ (∀ req ∈ (Logout srv w sent).2.2.drop sent.length,
        req.method = "GET" ∧ req.params ≠ none)
    ∧ (∀ req ∈ (CallAPI srv w sent api method version apiParams).2.2.drop sent.length,
        req.method = "GET" ∧ req.params ≠ none)
    ∧ (∀ (path : String) (ps : Values) (body : Option String),
        (makeRequest srv sent "GET" path (some ps) body).1 ≠ .panic)
    ∧ (∀ (m path : String) (ps : Values), m ≠ "GET" →
        makeRequest srv sent m path (some ps) none = (.panic, sent)) := by
  refine ⟨Login_ne_panic srv w sent, Logout_ne_panic srv w sent,
    CallAPI_ne_panic srv w sent api method version apiParams, ?_, ?_, ?_, ?_, ?_⟩
  · intro req hreq
    rw [Login_log] at hreq
    simp only [List.drop_left, List.mem_singleton] at hreq
    subst hreq
    exact ⟨rfl, by simp [loginRequest]⟩
  · intro req hreq
    rcases Logout_log srv w sent with h | h
    · rw [h] at hreq
      simp at hreq
    · rw [h] at hreq
      simp only [List.drop_left, List.mem_singleton] at hreq
      subst hreq
      exact ⟨rfl, by simp⟩
  · intro req hreq
    rcases CallAPI_new_requests srv w sent api method version apiParams req hreq with h | ⟨ps, h⟩
    · subst h
      exact ⟨rfl, by simp [loginRequest]⟩
    · subst h
      exact ⟨rfl, by simp [apiRequest]⟩
  · intro path ps body
    unfold makeRequest
    simp only [Option.isSome_some, and_self, if_true]
    exact roundTrip_ne_panic _ _ _
  · intro m path ps hm
    unfold makeRequest
    simp [hm]

/-! ## Claims on the configuration commands -/

/-- C22 at failing inputs: `config set --keyfile k` and `config set --keyfile ""`
end in a run-time panic instead of storing the path unchanged; the slice
expression `keyfile[:2]` panics exactly for the paths shorter than two bytes.  A
path that begins with `~/` is stored as the home directory joined with the rest. -/
theorem runConfigSet_short_keyfile_panics :
    runConfigSet joinSlash (.ok "/home/admin") (fun _ => none) flagsShortKeyfile [] = none
    ∧ runConfigSet joinSlash (.ok "/home/admin") (fun _ => none) flagsEmptyKeyfile [] = none
    ∧ runConfigSet joinSlash (.ok "/home/admin") (fun _ => none) flagsTildeKeyfile []
        = some { err := none, store := [("keyfile", .str "/home/admin/.ssh/id_rsa")],
                 out := ["Set keyfile: /home/admin/.ssh/id_rsa"] }
    ∧ ∀ (join : String → String → String) (home : Except String String) (keyfile : String),
        expandKeyfile join home keyfile = none ↔ byteLength keyfile.toList < 2 := by
  refine ⟨by decide, by decide, by decide, ?_⟩
  intro join home keyfile
  unfold expandKeyfile
  by_cases h : byteLength keyfile.toList < 2
  · rw [if_pos h]
    exact ⟨fun _ => h, fun _ => rfl⟩
  · rw [if_neg h]
    refine ⟨fun hn => ?_, fun hlt => absurd hlt h⟩
    split at hn
    · cases home <;> cases hn
    · cases hn

/-- C28 at a failing input: `config get password` prints the stored password, so
two configurations that differ only in the password give different output;
`config list` prints `[hidden]` for both. -/
theorem runConfigGet_prints_password :
    runConfigGet storeAlpha ["password"] = (none, ["password: alpha"])
    ∧ runConfigGet storeBeta ["password"] = (none, ["password: beta"])
    ∧ runConfigList storeAlpha = runConfigList storeBeta
    ∧ runConfigList storeAlpha
        = (none, ["Current configuration:", "  host: nas", "  username: admin",
                  "  password: [hidden]", "  port: 22"]) := by
  decide

/-! ## Lemmas and claim on the mock client -/

theorem updateFirst_names (f : VM → VM) (hf : ∀ vm, (f vm).Name = vm.Name) (vmName : String)
    (l l2 : List VM) (h : updateFirst f vmName l = some l2) :
    l2.map (fun vm => vm.Name) = l.map (fun vm => vm.Name) := by
  induction l generalizing l2 with
  | nil => simp [updateFirst] at h
  | cons vm rest ih =>
    unfold updateFirst at h
    by_cases hn : vm.Name = vmName
    · rw [if_pos hn] at h
      cases h
      simp [hf]
    · rw [if_neg hn] at h
      cases hr : updateFirst f vmName rest with
      | none => rw [hr] at h; cases h
      | some l3 =>
        rw [hr] at h
        cases h
        simp [ih l3 hr]

theorem removeFirst_sublist (vmName : String) (l l2 : List VM)
    (h : removeFirst vmName l = some l2) : l2.Sublist l := by
  induction l generalizing l2 with
  | nil => simp [removeFirst] at h
  | cons vm rest ih =>
    unfold removeFirst at h
    by_cases hn : vm.Name = vmName
    · rw [if_pos hn] at h
      cases h
      exact List.sublist_cons_self _ _
    · rw [if_neg hn] at h
      cases hr : removeFirst vmName rest with
      | none => rw [hr] at h; cases h
      | some l3 =>
        rw [hr] at h
        cases h
        exact (ih l3 hr).cons₂ vm

/-- C29. If the names in the VM list of the mock client are pairwise distinct,
they are pairwise distinct after `CreateVM`, `DeleteVM`, `StartVM`, `StopVM` and
`RestartVM`, whether the call succeeds or fails; `CreateVM` with a name that is
already present fails and leaves the VM list unchanged. -/
theorem MockClient_names_nodup (m : MockClient) (config : VMConfig) (vmName : String)
    (h : (m.VMs.map (fun vm => vm.Name)).Nodup) :
    ((m.CreateVM config).2.VMs.map (fun vm => vm.Name)).Nodup
    ∧ ((m.DeleteVM vmName).2.VMs.map (fun vm => vm.Name)).Nodup
    ∧ ((m.StartVM vmName).2.VMs.map (fun vm => vm.Name)).Nodup
    ∧ ((m.StopVM vmName).2.VMs.map (fun vm => vm.Name)).Nodup
    ∧ ((m.RestartVM vmName).2.VMs.map (fun vm => vm.Name)).Nodup
    ∧ (config.Name ∈ m.VMs.map (fun vm => vm.Name) →
        (m.CreateVM config).1 ≠ none ∧ (m.CreateVM config).2.VMs = m.VMs) := by
  have hupd : ∀ (f : VM → VM), (∀ vm, (f vm).Name = vm.Name) →
      ∀ l2, updateFirst f vmName m.VMs = some l2 → (l2.map (fun vm => vm.Name)).Nodup := by
    intro f hf l2 hl2
    rw [updateFirst_names f hf vmName m.VMs l2 hl2]
    exact h
  refine ⟨?_, ?_, ?_, ?_, ?_, ?_⟩
  · unfold MockClient.CreateVM
    by_cases hf : m.Fail "CreateVM" = true
    · rw [if_pos hf]
      exact h
    · rw [if_neg hf]
      by_cases hany : (m.VMs.any (fun vm => decide (vm.Name = config.Name))) = true
      · rw [if_pos hany]
        exact h
      · rw [if_neg hany]
        simp only [List.map_append, List.map_cons, List.map_nil]
        have hnot : config.Name ∉ m.VMs.map (fun vm => vm.Name) := by
          intro hmem
          apply hany
          obtain ⟨vm, hvm, hname⟩ := List.mem_map.mp hmem
          exact List.any_eq_true.mpr ⟨vm, hvm, by simpa using hname⟩
        rw [List.nodup_append]
        refine ⟨h, List.nodup_singleton _, ?_⟩
        intro a ha hb
        rw [List.mem_singleton] at hb
        subst hb
        exact hnot ha
  · unfold MockClient.DeleteVM
    by_cases hf : m.Fail "DeleteVM" = true
    · rw [if_pos hf]
      exact h
    · rw [if_neg hf]
      cases hr : removeFirst vmName m.VMs with
      | none => exact h
      | some l2 =>
        exact ((removeFirst_sublist vmName m.VMs l2 hr).map _).nodup h
  · unfold MockClient.StartVM
    by_cases hf : m.Fail "StartVM" = true
    · rw [if_pos hf]
      exact h
    · rw [if_neg hf]
      cases hr : updateFirst (fun vm => { vm with Status := "running" }) vmName m.VMs with
      | none => exact h
      | some l2 =>
        exact hupd (fun vm => { vm with Status := "running" }) (fun _ => rfl) l2 hr
  · unfold MockClient.StopVM
    by_cases hf : m.Fail "StopVM" = true
    · rw [if_pos hf]
      exact h
    · rw [if_neg hf]
      cases hr : updateFirst (fun vm => { vm with Status := "stopped", IPAddress := "" })
          vmName m.VMs with
      | none => exact h
      | some l2 =>
        exact hupd (fun vm => { vm with Status := "stopped", IPAddress := "" })
          (fun _ => rfl) l2 hr
  · unfold MockClient.RestartVM
    by_cases hf : m.Fail "RestartVM" = true
    · rw [if_pos hf]
      exact h
    · rw [if_neg hf]
      cases hr : updateFirst (fun vm => { vm with Status := "running" }) vmName m.VMs with
      | none => exact h
      | some l2 =>
        exact hupd (fun vm => { vm with Status := "running" }) (fun _ => rfl) l2 hr
  · intro hmem
    have hany : (m.VMs.any (fun vm => decide (vm.Name = config.Name))) = true := by
      obtain ⟨vm, hvm, hname⟩ := List.mem_map.mp hmem
      exact List.any_eq_true.mpr ⟨vm, hvm, by simpa using hname⟩
    unfold MockClient.CreateVM
    by_cases hf : m.Fail "CreateVM" = true
    · rw [if_pos hf]
      exact ⟨by simp, rfl⟩
    · rw [if_neg hf, if_pos hany]
      exact ⟨by simp, rfl⟩

/-- C29 at the mock client as it is built, with a request to create `test-vm-1`
again. -/
theorem MockClient_names_nodup_witness :
    (NewMockClient.VMs.map (fun vm => vm.Name)).Nodup
    ∧ (((NewMockClient.CreateVM { Name := "test-vm-1", CPU := 1, Memory := 1024 }).2.VMs).map
        (fun vm => vm.Name)).Nodup
    ∧ (NewMockClient.CreateVM { Name := "test-vm-1", CPU := 1, Memory := 1024 }).1
        = some "VM already exists: test-vm-1" :=
  ⟨by decide,
   (MockClient_names_nodup NewMockClient { Name := "test-vm-1", CPU := 1, Memory := 1024 }
      "test-vm-2" (by decide)).1,
   by decide⟩

/-! ## Lemmas and claim on the transport and session handles -/

/-- What `ExecuteCommand` does to the handles: the session handle it opens is
closed again, a client that was not connected is connected exactly when `Connect`
succeeds, and the transport is opened then and never closed. -/
theorem Client.ExecuteCommand_handles (e : SSHEnv) (c : Client) (r : Resources)
    (command : String) :
    (Client.ExecuteCommand e c r command).2.2.sessions = r.sessions
    ∧ (Client.ExecuteCommand e c r command).2.1.sshClient = (c.sshClient || connects e c)
    ∧ (Client.ExecuteCommand e c r command).2.2.transport
        = (r.transport || (!c.sshClient && connects e c))
    ∧ ((∃ out, (Client.ExecuteCommand e c r command).1 = .ok out) →
        (Client.ExecuteCommand e c r command).2.1.sshClient = true) := by
  unfold Client.ExecuteCommand Client.Connect connects
  cases hc : c.sshClient with
  | true =>
    simp only [if_true]
    cases e.newSession with
    | some err => simp [hc]
    | none =>
      simp only
      cases e.run command <;> simp [hc]
  | false =>
    simp only [Bool.false_eq_true, if_false]
    cases ha : (e.agent || (decide (c.keyfile ≠ "") && e.key)) with
    | false => simp [hc]
    | true =>
      simp only [Bool.not_true, Bool.false_eq_true, if_false]
      cases hd : e.dial with
      | some err => simp [hc]
      | none =>
        simp only
        cases e.newSession with
        | some err => simp
        | none =>
          simp only
          cases e.run command <;> simp

theorem NewClient_sshClient (cfg : Settings) (c : Client) (h : NewClient cfg = .ok c) :
    c.sshClient = false := by
  unfold NewClient at h
  simp only at h
  split_ifs at h
  cases h
  rfl

theorem runLifecycle_handles (sub announce failure done : String) (cfg : Settings)
    (e : SSHEnv) (vmName : String) (r : Resources) :
    (runLifecycle sub announce failure done cfg e vmName r).res.sessions = r.sessions
    ∧ (runLifecycle sub announce failure done cfg e vmName r).res.transport
        = (r.transport || connectsWith cfg e) := by
  unfold runLifecycle connectsWith
  cases hn : NewClient cfg with
  | error err => simp
  | ok client =>
    simp only
    have hs := NewClient_sshClient cfg client hn
    obtain ⟨h1, _, h3, _⟩ := Client.ExecuteCommand_handles e client r
      ("/usr/local/bin/virsh " ++ (sub ++ " " ++ vmName))
    unfold Client.executeVirshCommand
    rcases hx : Client.ExecuteCommand e client r
      ("/usr/local/bin/virsh " ++ (sub ++ " " ++ vmName)) with ⟨res, c1, r1⟩
    rw [hx] at h1 h3
    simp only at h1 h3
    cases res with
    | error err => simp [h1, h3, hs]
    | ok out => simp [h1, h3, hs]

theorem runList_handles (rows : List VM → List String) (cfg : Settings) (e : SSHEnv)
    (r : Resources) :
    (runList rows cfg e r).res.sessions = r.sessions
    ∧ (runList rows cfg e r).res.transport = (r.transport || connectsWith cfg e) := by
  unfold runList connectsWith
  cases hn : NewClient cfg with
  | error err => simp
  | ok client =>
    simp only
    have hs := NewClient_sshClient cfg client hn
    obtain ⟨h1, _, h3, _⟩ := Client.ExecuteCommand_handles e client r
      "/usr/local/bin/virsh list --all"
    rcases hx : Client.ExecuteCommand e client r "/usr/local/bin/virsh list --all"
      with ⟨res, c1, r1⟩
    rw [hx] at h1 h3
    simp only at h1 h3
    cases res with
    | error err => simp [h1, h3, hs]
    | ok out =>
      simp only
      rw [parseVirshList_eq]
      simp only
      split <;> simp [h1, h3, hs]

theorem Client.getVMInfo_handles (other : List Char → Option Int) (e1 e2 : SSHEnv)
    (c : Client) (r : Resources) (vmName : String) (hc : c.sshClient = false) :
    (Client.getVMInfo other e1 e2 c r vmName).2.2.sessions = r.sessions
    ∧ (Client.getVMInfo other e1 e2 c r vmName).2.2.transport
        = (r.transport || connects e1 c) := by
  obtain ⟨h1, h2, h3, h4⟩ := Client.ExecuteCommand_handles e1 c r
    ("/usr/local/bin/virsh dominfo " ++ vmName)
  unfold Client.getVMInfo
  rcases hx : Client.ExecuteCommand e1 c r ("/usr/local/bin/virsh dominfo " ++ vmName)
    with ⟨res, c1, r1⟩
  rw [hx] at h1 h2 h3 h4
  simp only at h1 h2 h3 h4
  cases res with
  | error err => simp [h1, h3, hc]
  | ok out =>
    have hc1 : c1.sshClient = true := h4 ⟨out, rfl⟩
    obtain ⟨g1, _, g3, _⟩ := Client.ExecuteCommand_handles e2 c1 r1
      ("/usr/local/bin/virsh domifaddr " ++ vmName)
    simp only
    unfold Client.getVMIPAddress
    rcases hy : Client.ExecuteCommand e2 c1 r1 ("/usr/local/bin/virsh domifaddr " ++ vmName)
      with ⟨res2, c2, r2⟩
    rw [hy] at g1 g3
    simp only at g1 g3
    rw [hc1] at g3
    cases res2 with
    | error err => simp [g1, g3, h1, h3, hc]
    | ok out2 =>
      simp only
      cases firstQuad (splitLines out2.toList) <;> simp [g1, g3, h1, h3, hc]

theorem runStatus_handles (other : List Char → Option Int) (cfg : Settings)
    (e1 e2 : SSHEnv) (vmName : String) (r : Resources) :
    (runStatus other cfg e1 e2 vmName r).res.sessions = r.sessions
    ∧ (runStatus other cfg e1 e2 vmName r).res.transport
        = (r.transport || connectsWith cfg e1) := by
  unfold runStatus connectsWith
  cases hn : NewClient cfg with
  | error err => simp
  | ok client =>
    simp only
    have hs := NewClient_sshClient cfg client hn
    obtain ⟨h1, h3⟩ := Client.getVMInfo_handles other e1 e2 client r vmName hs
    rcases hx : Client.getVMInfo other e1 e2 client r vmName with ⟨res, c1, r1⟩
    rw [hx] at h1 h3
    simp only at h1 h3
    cases res with
    | error err => simp [h1, h3]
    | ok vm => simp [h1, h3]

/-- C23 fails as stated: when `runStart` returns, on its success path and on the
path where the remote command fails, the transport session opened by `Connect` is
still open; only the per-command session handle has been released. -/
theorem runStart_leaves_transport_open :
    runStart sampleSettings envOK "test-vm" {}
        = { err := none
            out := ["Starting VM: test-vm", "VM test-vm started successfully"]
            res := { transport := true, sessions := 0 } }
    ∧ (runStart sampleSettings envRunFails "test-vm" {}).err
        = some "failed to start VM: command failed: Process exited with status 1"
    ∧ (runStart sampleSettings envRunFails "test-vm" {}).res
        = { transport := true, sessions := 0 } := by
  decide

/-- C23, amended. On every exit path of `ExecuteCommand`, and so of `runList`,
`runStart`, `runStop`, `runRestart`, `runStatus` and `runDelete`, the per-command
session handle has been released: the number of open session handles is what it
was before the call.  The transport session is not released: it is open at return
exactly when it was open before or `Connect` succeeded during the call, and
`Disconnect`, which would close it, is not called by these commands. -/
theorem cli_handles (other : List Char → Option Int) (rows : List VM → List String)
    (cfg : Settings) (e e2 : SSHEnv) (force : Bool) (response vmName : String)
    (r : Resources) :
    ((runList rows cfg e r).res.sessions = r.sessions
      ∧ (runList rows cfg e r).res.transport = (r.transport || connectsWith cfg e))
    ∧ ((runStart cfg e vmName r).res.sessions = r.sessions
      ∧ (runStart cfg e vmName r).res.transport = (r.transport || connectsWith cfg e))
    ∧ ((runStop cfg e vmName r).res.sessions = r.sessions
      ∧ (runStop cfg e vmName r).res.transport = (r.transport || connectsWith cfg e))
    ∧ ((runRestart cfg e vmName r).res.sessions = r.sessions
      ∧ (runRestart cfg e vmName r).res.transport = (r.transport || connectsWith cfg e))
    ∧ ((runStatus other cfg e e2 vmName r).res.sessions = r.sessions
      ∧ (runStatus other cfg e e2 vmName r).res.transport
          = (r.transport || connectsWith cfg e))
    ∧ ((runDelete cfg e force response vmName r).res.sessions = r.sessions
      ∧ (r.transport = true → (runDelete cfg e force response vmName r).res.transport = true)
      ∧ ((runDelete cfg e force response vmName r).res.transport = true →
          r.transport = true ∨ connectsWith cfg e = true))
    ∧ (∀ (command : String) (c : Client),
        (Client.ExecuteCommand e c r command).2.2.sessions = r.sessions)
    ∧ (∀ (closeErr : Option String) (c : Client), c.sshClient = true →
        (Client.Disconnect closeErr c r).2.2.transport = false) := by
  refine ⟨runList_handles rows cfg e r, runLifecycle_handles _ _ _ _ cfg e vmName r,
    runLifecycle_handles _ _ _ _ cfg e vmName r, runLifecycle_handles _ _ _ _ cfg e vmName r,
    runStatus_handles other cfg e e2 vmName r, ?_,
    fun command c => (Client.ExecuteCommand_handles e c r command).1, ?_⟩
  · obtain ⟨h1, h2⟩ := runLifecycle_handles "undefine" "Deleting VM: " "failed to delete VM: "
      " deleted successfully" cfg e vmName r
    have hor : (r.transport || connectsWith cfg e) = true →
        r.transport = true ∨ connectsWith cfg e = true := by
      intro h
      simpa using h
    unfold runDelete
    simp only
    split
    · exact ⟨rfl, fun h => h, fun h => Or.inl h⟩
    · split
      · rw [h1, h2]
        exact ⟨rfl, fun h => by simp [h], hor⟩
      · simp only
        rw [h1, h2]
        exact ⟨rfl, fun h => by simp [h], hor⟩
  · intro closeErr c hc
    unfold Client.Disconnect
    rw [if_pos hc]

end SynoVM
